import Mathlib

/-!
# Reliable data transport over datagrams: embedding of `ReliableSocket`

The development embeds `src/ReliableSocket.h` and `src/ReliableSocket.cpp`.

* A datagram and a buffer are lists of octets.  A receive buffer is cleared with
  `memset` before every `recv`, so an octet past the end of what was received
  reads as `0`; the header accessors below read with that default.
* The datagram socket is an environment: every blocking `recv` consumes the next
  entry of a script of transport events, and every `send` appends the datagram
  to the log `sent` kept with the socket.  A `send` is taken to succeed: where
  the source tests its result, it either only reports the failure
  (`send_and_wait`) or repeats the call until it succeeds.
* `float` arithmetic of the round-trip estimator is exact rational arithmetic.
* A call that is still blocked in `recv` when the script ends has outcome
  `blocked`; `exit(EXIT_FAILURE)` has outcome `exited`; a `memcpy` whose length
  wrapped around below zero has outcome `fault`.
-/

namespace RDT

/-! ## `ReliableSocket.h` -/

/-- One octet. -/
abbrev Byte := Fin 256

/-- Enumerator `RDT_SYN` of `RDTMessageType : uint8_t`. -/
abbrev RDT_SYN : Byte := 0
/-- Enumerator `RDT_SYNACK`. -/
abbrev RDT_SYNACK : Byte := 1
/-- Enumerator `RDT_FIN`. -/
abbrev RDT_FIN : Byte := 2
/-- Enumerator `RDT_FINACK`. -/
abbrev RDT_FINACK : Byte := 3
/-- Enumerator `RDT_ACK`. -/
abbrev RDT_ACK : Byte := 4
/-- Enumerator `RDT_DATA`. -/
abbrev RDT_DATA : Byte := 5

/-- Value of `sizeof(RDTHeader)`: `sequence_number` at offset 0, `ack_number` at
offset 4, `type` at offset 8, and three octets of tail padding that round the
struct up to the 4-octet alignment of its `uint32_t` members. -/
def sizeofRDTHeader : Nat := 12

/-- The enumeration `connection_status`, in declaration order. -/
inductive connection_status
  | INIT | SYN | SYN_ACK | ACK_EST | ESTABLISHED | FIN_STATE
  | RECV_ACK | RECV_FIN | SEND_ACK | CLOSED
  deriving DecidableEq, Repr

open connection_status

/-- Constant `ReliableSocket::MAX_SEG_SIZE`. -/
def MAX_SEG_SIZE : Nat := 1400

/-- Constant `ReliableSocket::MAX_DATA_SIZE`. -/
def MAX_DATA_SIZE : Nat := MAX_SEG_SIZE - sizeofRDTHeader

/-! ## Octet-level view of `RDTHeader` -/

/-- The four octets in memory of the `uint32_t` that `htonl n` yields (most
significant first); `n` is taken modulo `2 ^ 32`. -/
def htonl (n : Nat) : List Byte :=
  [Fin.ofNat (n / 2 ^ 24), Fin.ofNat (n / 2 ^ 16), Fin.ofNat (n / 2 ^ 8), Fin.ofNat n]

/-- Host value `ntohl x` of the `uint32_t` whose octets in memory are `x`. -/
def ntohl (x : List Byte) : Nat :=
  (x.getD 0 0).val * 2 ^ 24 + (x.getD 1 0).val * 2 ^ 16 + (x.getD 2 0).val * 2 ^ 8
    + (x.getD 3 0).val

/-- Octets of `hdr->sequence_number` for `hdr` overlaid on `buf`. -/
def hdr_sequence_number (buf : List Byte) : List Byte :=
  [buf.getD 0 0, buf.getD 1 0, buf.getD 2 0, buf.getD 3 0]

/-- Octets of `hdr->ack_number` for `hdr` overlaid on `buf`. -/
def hdr_ack_number (buf : List Byte) : List Byte :=
  [buf.getD 4 0, buf.getD 5 0, buf.getD 6 0, buf.getD 7 0]

/-- Octet `hdr->type` for `hdr` overlaid on `buf`. -/
def hdr_type (buf : List Byte) : Byte := buf.getD 8 0

/-- The `sizeof(RDTHeader)` octets of a header whose three fields were assigned
`sequence_number`, `ack_number` (each given by its four octets) and `type`.  The
padding octets, which the source leaves indeterminate and never reads, are `0`. -/
def mkHeader (sequence_number ack_number : List Byte) (type : Byte) : List Byte :=
  sequence_number ++ ack_number ++ [type, 0, 0, 0]

/-- The call `memcpy(dst, src, n)` on a destination holding `dst`. -/
def memcpy (dst src : List Byte) (n : Nat) : List Byte :=
  src.take n ++ dst.drop n

/-! ## The socket and its environment -/

/-- Result of one blocking `recv` on the datagram socket. -/
inductive RecvResult
  | timeout
  | error
  | datagram (bytes : List Byte)
  deriving DecidableEq, Repr

/-- One transport event: what the next `recv` yields (`timeout` is a return of
`-1` with `errno == EAGAIN`, `error` a return of `-1` with another `errno`), and
`msec`, the difference of the two `current_msec()` readings around it. -/
structure Recv where
  result : RecvResult
  msec : Int
  deriving DecidableEq, Repr

/-- Member variables of `ReliableSocket`, with the observable state of `sock_fd`:
`rcvtimeo`, the receive timeout in milliseconds last programmed (`0`, the
default of a fresh socket, blocks indefinitely), and `sent`, the datagrams
handed to `send`, oldest first. -/
structure ReliableSocket where
  sequence_number : Nat
  expected_sequence_number : Nat
  estimated_rtt : ℚ
  dev_rtt : ℚ
  curr_rtt : Int
  state : connection_status
  rcvtimeo : Nat
  sent : List (List Byte)

/-- How a call on the socket ends. -/
inductive Outcome (α : Type)
  /-- The call returned `value`; `rest` is the part of the script not consumed. -/
  | returned (value : α) (sock : ReliableSocket) (rest : List Recv)
  /-- The script ended while the call was blocked in `recv`. -/
  | blocked (sock : ReliableSocket)
  /-- The call ended the process with `exit(EXIT_FAILURE)`. -/
  | exited (sock : ReliableSocket) (rest : List Recv)
  /-- The call reached `memcpy` with a length that wrapped around below zero. -/
  | fault (sock : ReliableSocket) (rest : List Recv)

/-- Sequencing of a call with the code that follows its return. -/
def Outcome.andThen {α β : Type} (o : Outcome α)
    (k : α → ReliableSocket → List Recv → Outcome β) : Outcome β :=
  match o with
  | .returned v s rest => k v s rest
  | .blocked s => .blocked s
  | .exited s rest => .exited s rest
  | .fault s rest => .fault s rest

/-- The constructor `ReliableSocket::ReliableSocket()`.  `curr_rtt` is not
initialised by the source (it is written by `send_and_wait` before its first
use) and is `0` here. -/
def ReliableSocket.new : ReliableSocket where
  sequence_number := 0
  expected_sequence_number := 0
  estimated_rtt := 100
  dev_rtt := 10
  curr_rtt := 0
  state := INIT
  rcvtimeo := 0
  sent := []

/-- The call `send(sock_fd, segment, size, 0)`. -/
def send (s : ReliableSocket) (segment : List Byte) (size : Nat) : ReliableSocket :=
  { s with sent := s.sent ++ [segment.take size] }

/-- Conversion of a `float` to `int` (truncation toward zero). -/
def float_to_int (x : ℚ) : Int := if 0 ≤ x then ⌊x⌋ else ⌈x⌉

/-- Conversion of a `float` to the `uint32_t` parameter of `set_timeout_length`.
The conversion is defined by the language for values in `[0, 2 ^ 32)` only. -/
def float_to_uint32 (x : ℚ) : Nat := (float_to_int x).toNat % 2 ^ 32

/-- `ReliableSocket::set_timeout_length`. -/
def set_timeout_length (s : ReliableSocket) (timeout_length_ms : Nat) : ReliableSocket :=
  { s with rcvtimeo := timeout_length_ms }

/-- `ReliableSocket::set_estimated_rtt`. -/
def set_estimated_rtt (s : ReliableSocket) : ReliableSocket :=
  let estimated_rtt : ℚ := s.estimated_rtt * 0.5 + (s.curr_rtt : ℚ) * 0.5
  let dev_rtt : ℚ := s.dev_rtt * 0.5
  let abs_value : Int :=
    float_to_int (if (s.curr_rtt : ℚ) > estimated_rtt
      then (s.curr_rtt : ℚ) - estimated_rtt
      else estimated_rtt - (s.curr_rtt : ℚ))
  let dev_rtt : ℚ := dev_rtt + 0.5 * (abs_value : ℚ)
  set_timeout_length { s with estimated_rtt := estimated_rtt, dev_rtt := dev_rtt }
    (float_to_uint32 (estimated_rtt + 4 * dev_rtt))

/-- `ReliableSocket::send_and_wait`: the value is the receive buffer. -/
def send_and_wait (s : ReliableSocket) (send_segment : List Byte) (send_seg_size : Nat) :
    List Recv → Outcome (List Byte)
  | [] => .blocked (send s send_segment send_seg_size)
  | r :: rest =>
    let s1 := send s send_segment send_seg_size
    match r.result with
    | .error => .exited s1 rest
    | .timeout => send_and_wait { s1 with curr_rtt := r.msec } send_segment send_seg_size rest
    | .datagram d =>
      .returned (d.take MAX_SEG_SIZE) (set_estimated_rtt { s1 with curr_rtt := r.msec }) rest

/-- `ReliableSocket::send_and_timeout`. -/
def send_and_timeout (s : ReliableSocket) (send_segment : List Byte) (seg_size : Nat) :
    List Recv → Outcome Bool
  | [] =>
    .blocked (set_timeout_length (send s send_segment sizeofRDTHeader)
      (float_to_uint32 (s.estimated_rtt + s.dev_rtt * 4)))
  | r :: rest =>
    let s1 := set_timeout_length (send s send_segment sizeofRDTHeader)
      (float_to_uint32 (s.estimated_rtt + s.dev_rtt * 4))
    match r.result with
    | .datagram d =>
      if 0 < (d.take MAX_SEG_SIZE).length then send_and_timeout s1 send_segment seg_size rest
      else .returned true s1 rest
    | _ => .returned true s1 rest

/-- The `do ... while (!result)` loop of `receiver_handshake`; `fuel` bounds the
number of iterations (each one consumes at least one transport event, so
`script.length + 1` iterations always suffice). -/
def receiver_handshake_loop (send_segment : List Byte) :
    Nat → ReliableSocket → List Recv → Outcome Bool
  | 0, s, _ => .blocked s
  | fuel + 1, s, script =>
    let s1 := set_timeout_length s (float_to_uint32 (s.estimated_rtt + 4 * s.dev_rtt))
    (send_and_wait s1 send_segment sizeofRDTHeader script).andThen fun recv_segment s2 rest =>
      if hdr_type recv_segment = RDT_ACK then .returned true s2 rest
      else receiver_handshake_loop send_segment fuel s2 rest

/-- `ReliableSocket::receiver_handshake`. -/
def receiver_handshake (s : ReliableSocket) (received_segment : List Byte)
    (script : List Recv) : Outcome Bool :=
  if hdr_type received_segment ≠ RDT_SYN then .returned false s script
  else
    receiver_handshake_loop (mkHeader (htonl 0) (htonl 0) RDT_SYNACK) (script.length + 1) s script

/-- `ReliableSocket::accept_connection` (the address and port only select the
peer of the datagram socket). -/
def accept_connection (s : ReliableSocket) (script : List Recv) : Outcome Unit :=
  if s.state ≠ INIT then .exited s script
  else
    match script with
    | [] => .blocked s
    | r :: rest =>
      match r.result with
      | .datagram d =>
        (receiver_handshake s (d.take MAX_SEG_SIZE) rest).andThen fun ok s1 rest1 =>
          if ok then .returned () { s1 with state := ESTABLISHED } rest1
          else .returned () s1 rest1
      | _ => .exited s rest

/-- `ReliableSocket::sender_handshake`. -/
def sender_handshake (s : ReliableSocket) (script : List Recv) : Outcome Bool :=
  (send_and_wait s (mkHeader (htonl 0) (htonl 0) RDT_SYN) sizeofRDTHeader script).andThen
    fun recv_segment s1 rest =>
      if hdr_type recv_segment ≠ RDT_SYNACK then .returned false s1 rest
      else
        (send_and_timeout s1 (mkHeader (htonl 0) (htonl 0) RDT_ACK) sizeofRDTHeader rest).andThen
          fun _ s2 rest2 => .returned true s2 rest2

/-- `ReliableSocket::connect_to_remote` (the address and port only select the
peer of the datagram socket). -/
def connect_to_remote (s : ReliableSocket) (script : List Recv) : Outcome Unit :=
  if s.state ≠ INIT then .returned () s script
  else
    (sender_handshake s script).andThen fun _ s1 rest =>
      .returned () { s1 with state := ESTABLISHED } rest

/-- The `do ... while (keep_going)` loop of `send_data`; `fuel` bounds the number
of iterations (each one consumes at least one transport event). -/
def send_data_loop (send_segment : List Byte) (length : Nat) :
    Nat → ReliableSocket → List Recv → Outcome Unit
  | 0, s, _ => .blocked s
  | fuel + 1, s, script =>
    (send_and_wait s send_segment (sizeofRDTHeader + length) script).andThen
      fun recv_segment s1 rest =>
        if hdr_type recv_segment = RDT_ACK then
          if ntohl (hdr_ack_number recv_segment) = s1.sequence_number then .returned () s1 rest
          else send_data_loop send_segment length fuel s1 rest
        else send_data_loop send_segment length fuel s1 rest

/-- The segment that `send_data` frames in `send_segment`: the header with
`htonl(sequence_number)`, `htonl(0)` and `RDT_DATA`, followed by the first
`length` octets of `data`.  The source copies them into an array of
`MAX_SEG_SIZE` octets without comparing `length` with `MAX_DATA_SIZE`. -/
def data_segment (sequence_number : Nat) (data : List Byte) (length : Nat) : List Byte :=
  mkHeader (htonl sequence_number) (htonl 0) RDT_DATA ++ data.take length

/-- `ReliableSocket::send_data`. -/
def send_data (s : ReliableSocket) (data : List Byte) (length : Nat)
    (script : List Recv) : Outcome Unit :=
  if s.state ≠ ESTABLISHED then .returned () s script
  else
    let send_segment := data_segment s.sequence_number data length
    (send_data_loop send_segment length (script.length + 1) s script).andThen fun _ s1 rest =>
      .returned () { s1 with sequence_number := (s1.sequence_number + 1) % 2 ^ 32 } rest

/-- `ReliableSocket::receive_data`: the value is the `int` returned together with
the contents of the caller's `buffer`. -/
def receive_data (s : ReliableSocket) (buffer : List Byte) (script : List Recv) :
    Outcome (Int × List Byte) :=
  if s.state ≠ ESTABLISHED then .returned (-1, buffer) s script
  else
    let s1 := set_timeout_length s (float_to_uint32 (s.estimated_rtt + s.dev_rtt * 4))
    match script with
    | [] => .blocked s1
    | r :: rest =>
      match r.result with
      | .error => .exited s1 rest
      | .timeout => receive_data s1 buffer rest
      | .datagram d =>
        let received_segment := d.take MAX_SEG_SIZE
        let recv_count := received_segment.length
        let received_seq_num := hdr_sequence_number received_segment
        if hdr_type received_segment = RDT_FIN then
          (send_and_timeout s1 (mkHeader (htonl 0) (htonl 0) RDT_FINACK) sizeofRDTHeader rest).andThen
            fun _ s2 rest2 => .returned (0, buffer) { s2 with state := FIN_STATE } rest2
        else
          let s2 := send s1 (mkHeader received_seq_num received_seq_num RDT_ACK) sizeofRDTHeader
          if ntohl received_seq_num = s2.sequence_number then
            let s3 := { s2 with sequence_number := (s2.sequence_number + 1) % 2 ^ 32 }
            if recv_count < sizeofRDTHeader then .fault s3 rest
            else
              .returned ((recv_count : Int) - sizeofRDTHeader,
                memcpy buffer (received_segment.drop sizeofRDTHeader) (recv_count - sizeofRDTHeader))
                s3 rest
          else receive_data s2 buffer rest

/-- The first `do ... while` loop of `sender_close_handshake`: the FIN is sent with
`send_and_wait` until the segment received is a FINACK; `fuel` bounds the number
of iterations (each one consumes at least one transport event). -/
def sender_close_handshake_loop (send_segment : List Byte) :
    Nat → ReliableSocket → List Recv → Outcome Unit
  | 0, s, _ => .blocked s
  | fuel + 1, s, script =>
    (send_and_wait s send_segment sizeofRDTHeader script).andThen fun recv_segment s1 rest =>
      if hdr_type recv_segment ≠ RDT_FINACK then sender_close_handshake_loop send_segment fuel s1 rest
      else .returned () s1 rest

/-- The second loop of `sender_close_handshake`, which waits for the FIN of the
peer.  When `recv` returns a negative value the source goes on to the loop
condition with the receive buffer still cleared, whose type octet `0` is not
`RDT_FIN`: a timeout and an error both make the loop wait again. -/
def wait_for_fin (s : ReliableSocket) : List Recv → Outcome Unit
  | [] => .blocked s
  | r :: rest =>
    match r.result with
    | .datagram d =>
      if hdr_type (d.take MAX_SEG_SIZE) ≠ RDT_FIN then wait_for_fin s rest
      else .returned () s rest
    | _ => wait_for_fin s rest

/-- The last loop of `sender_close_handshake` (time-wait): the FINACK is sent, the
timeout is set to 500 ms and one `recv` follows.  `keep_going` is the flag of the
source, `false` on entry; a datagram that is not a FIN leaves it as it is. -/
def time_wait (send_segment : List Byte) : Bool → ReliableSocket → List Recv → Outcome Unit
  | _, s, [] => .blocked (set_timeout_length (send s send_segment sizeofRDTHeader) 500)
  | keep_going, s, r :: rest =>
    let s1 := set_timeout_length (send s send_segment sizeofRDTHeader) 500
    match r.result with
    | .datagram d =>
      if 0 < (d.take MAX_SEG_SIZE).length then
        let keep_going := if hdr_type (d.take MAX_SEG_SIZE) = RDT_FIN then true else keep_going
        if keep_going = true then time_wait send_segment keep_going s1 rest
        else .returned () s1 rest
      else .returned () s1 rest
    | _ => .returned () s1 rest

/-- `ReliableSocket::sender_close_handshake`. -/
def sender_close_handshake (s : ReliableSocket) (script : List Recv) : Outcome Unit :=
  (sender_close_handshake_loop (mkHeader (htonl 0) (htonl 0) RDT_FIN) (script.length + 1) s
      script).andThen fun _ s1 rest1 =>
    (wait_for_fin { s1 with state := FIN_STATE } rest1).andThen fun _ s2 rest2 =>
      time_wait (mkHeader (htonl 0) (htonl 0) RDT_FINACK) false s2 rest2

/-- The loop of `receiver_close_handshake`; `fuel` bounds the number of
iterations (each one consumes at least one transport event). -/
def receiver_close_handshake_loop (send_segment : List Byte) :
    Nat → ReliableSocket → List Recv → Outcome Unit
  | 0, s, _ => .blocked s
  | fuel + 1, s, script =>
    (send_and_wait s send_segment sizeofRDTHeader script).andThen fun recv_segment s1 rest =>
      if hdr_type recv_segment ≠ RDT_FINACK then
        receiver_close_handshake_loop send_segment fuel s1 rest
      else .returned () s1 rest

/-- `ReliableSocket::receiver_close_handshake`. -/
def receiver_close_handshake (s : ReliableSocket) (script : List Recv) : Outcome Unit :=
  receiver_close_handshake_loop (mkHeader (htonl 0) (htonl 0) RDT_FIN) (script.length + 1) s script

/-- `ReliableSocket::close_connection` (the final `close(sock_fd)` releases the
descriptor and is not part of the socket's fields). -/
def close_connection (s : ReliableSocket) (script : List Recv) : Outcome Unit :=
  (if s.state = FIN_STATE then receiver_close_handshake s script
    else sender_close_handshake s script).andThen fun _ s1 rest =>
      .returned () { s1 with state := CLOSED } rest

/-! ## The two endpoints of a transfer -/

/-- The socket as a call left it. -/
def Outcome.sock {α : Type} : Outcome α → ReliableSocket
  | .returned _ s _ => s
  | .blocked s => s
  | .exited s _ => s
  | .fault s _ => s

/-- The sending application: `send_data` is called for each payload in turn, the
calls consuming one script one after the other.  The result is the socket as the
last call begun left it, with the payloads of the calls begun (the last of them
may still be in progress). -/
def send_all (s : ReliableSocket) : List (List Byte) → List Recv → ReliableSocket × List (List Byte)
  | [], _ => (s, [])
  | p :: ps, script =>
    match send_data s p p.length script with
    | .returned _ s1 rest => ((send_all s1 ps rest).1, p :: (send_all s1 ps rest).2)
    | .blocked s1 => (s1, [p])
    | .exited s1 _ => (s1, [p])
    | .fault s1 _ => (s1, [p])

/-- The receiving application: `calls` consecutive calls of `receive_data` on one
buffer, consuming one script one after the other.  The result lists, for the
calls that returned, the value returned and the buffer. -/
def receive_all (s : ReliableSocket) (buffer : List Byte) :
    Nat → List Recv → List (Int × List Byte)
  | 0, _ => []
  | calls + 1, script =>
    match receive_data s buffer script with
    | .returned v s1 rest => v :: receive_all s1 v.2 calls rest
    | _ => []

/-- The datagrams that a script offers to `recv`, in order. -/
def datagrams (script : List Recv) : List (List Byte) :=
  script.filterMap fun r =>
    match r.result with
    | .datagram d => some d
    | _ => none

/-- The payloads handed to the receiving application: for a call that returned
`n ≥ 0`, the first `n` octets of the buffer; nothing for a call that returned
`-1`. -/
def delivered (results : List (Int × List Byte)) : List (List Byte) :=
  results.filterMap fun v => if 0 ≤ v.1 then some (v.2.take v.1.toNat) else none

/-! ## Vocabulary of the statements -/

/-- Socket `s1` differs from `s` by a change of estimator, timeout and `sent`
only, and every datagram that `sent` gained satisfies `P`. -/
def onlySent (P : List Byte → Prop) (s s1 : ReliableSocket) : Prop :=
  s1.sequence_number = s.sequence_number ∧ s1.state = s.state
    ∧ ∀ d ∈ s1.sent, d ∈ s.sent ∨ P d

/-- A reply that leaves `send_data` waiting for the acknowledgment of sequence
number `n`: a timeout, a segment that is not an ACK, or an ACK whose
acknowledgment number is not `n`. -/
def staleReply (n : Nat) (r : Recv) : Prop :=
  match r.result with
  | .timeout => True
  | .error => False
  | .datagram bs => ¬ (hdr_type bs = RDT_ACK ∧ ntohl (hdr_ack_number bs) = n)

instance staleReply.decidable (n : Nat) : DecidablePred (staleReply n) := fun r => by
  unfold staleReply
  split <;> infer_instance

/-- A reply that is a timeout or a segment whose type is not `type`. -/
def wrongReply (type : Byte) (r : Recv) : Prop :=
  match r.result with
  | .timeout => True
  | .error => False
  | .datagram bs => hdr_type bs ≠ type

instance wrongReply.decidable (type : Byte) : DecidablePred (wrongReply type) := fun r => by
  unfold wrongReply
  split <;> infer_instance

/-- A transport event that leaves the initiator teardown waiting for the FIN of
the peer: anything but a segment of type `RDT_FIN`. -/
def noFin (r : Recv) : Prop :=
  match r.result with
  | .datagram bs => hdr_type bs ≠ RDT_FIN
  | _ => True

instance noFin.decidable : DecidablePred noFin := fun r => by
  unfold noFin
  split <;> infer_instance

/-- The script holds a segment of type `RDT_FINACK`. -/
def finackReceived (script : List Recv) : Prop :=
  ∃ (pre : List Recv) (d : List Byte) (m : Int) (rest : List Recv),
    script = pre ++ ⟨.datagram d, m⟩ :: rest ∧ hdr_type d = RDT_FINACK

/-- The script holds a segment of type `RDT_FINACK` and, later, a segment of type
`RDT_FIN`. -/
def finReceivedAfterFinack (script : List Recv) : Prop :=
  ∃ (pre : List Recv) (d : List Byte) (m : Int) (mid : List Recv) (f : List Byte) (m2 : Int)
    (rest : List Recv),
    script = pre ++ ⟨.datagram d, m⟩ :: (mid ++ ⟨.datagram f, m2⟩ :: rest)
      ∧ hdr_type d = RDT_FINACK ∧ hdr_type f = RDT_FIN

/-- A transport event on which `recv` returns a value that is not positive: a
timeout, an error, or a datagram without octets. -/
def silent (r : Recv) : Prop :=
  match r.result with
  | .datagram bs => bs = []
  | _ => True

instance silent.decidable : DecidablePred silent := fun r => by
  unfold silent
  split <;> infer_instance

/-- The integer value of an enumerator of `connection_status` (declaration order,
from `0`). -/
def statusValue : connection_status → Nat
  | INIT => 0
  | SYN => 1
  | SYN_ACK => 2
  | ACK_EST => 3
  | ESTABLISHED => 4
  | FIN_STATE => 5
  | RECV_ACK => 6
  | RECV_FIN => 7
  | SEND_ACK => 8
  | CLOSED => 9

/-- The transport events of a descriptor that has been closed: every `recv` fails
with an error that is not a timeout (`EBADF`). -/
def descriptorClosed (script : List Recv) : Prop :=
  ∀ r ∈ script, r.result = .error

instance descriptorClosed.decidable : DecidablePred descriptorClosed := fun script => by
  unfold descriptorClosed
  infer_instance

/-- A socket in state `ESTABLISHED` with the counters and estimator values of the
constructor. -/
def establishedSocket : ReliableSocket := { ReliableSocket.new with state := ESTABLISHED }

/-! ## Lemmas on headers and on the fields a step leaves alone -/

theorem getD_take_MAX_SEG_SIZE (bs : List Byte) (i : Nat) (h : i < MAX_SEG_SIZE) :
    (bs.take MAX_SEG_SIZE).getD i 0 = bs.getD i 0 := by
  simp [List.getD_eq_getElem?_getD, List.getElem?_take, h]

@[simp] theorem hdr_type_take (bs : List Byte) :
    hdr_type (bs.take MAX_SEG_SIZE) = hdr_type bs := by
  unfold hdr_type
  exact getD_take_MAX_SEG_SIZE bs 8 (by decide)

@[simp] theorem hdr_ack_number_take (bs : List Byte) :
    hdr_ack_number (bs.take MAX_SEG_SIZE) = hdr_ack_number bs := by
  unfold hdr_ack_number
  rw [getD_take_MAX_SEG_SIZE bs 4 (by decide), getD_take_MAX_SEG_SIZE bs 5 (by decide),
    getD_take_MAX_SEG_SIZE bs 6 (by decide), getD_take_MAX_SEG_SIZE bs 7 (by decide)]

@[simp] theorem hdr_sequence_number_take (bs : List Byte) :
    hdr_sequence_number (bs.take MAX_SEG_SIZE) = hdr_sequence_number bs := by
  unfold hdr_sequence_number
  rw [getD_take_MAX_SEG_SIZE bs 0 (by decide), getD_take_MAX_SEG_SIZE bs 1 (by decide),
    getD_take_MAX_SEG_SIZE bs 2 (by decide), getD_take_MAX_SEG_SIZE bs 3 (by decide)]

theorem ntohl_lt (x : List Byte) : ntohl x < 2 ^ 32 := by
  unfold ntohl
  have h0 := (x.getD 0 0).isLt
  have h1 := (x.getD 1 0).isLt
  have h2 := (x.getD 2 0).isLt
  have h3 := (x.getD 3 0).isLt
  omega

theorem ntohl_htonl (n : Nat) : ntohl (htonl n) = n % 2 ^ 32 := by
  simp [ntohl, htonl, Fin.ofNat]
  omega


@[simp] theorem send_sequence_number (s : ReliableSocket) (seg : List Byte) (n : Nat) :
    (send s seg n).sequence_number = s.sequence_number := rfl
@[simp] theorem send_state (s : ReliableSocket) (seg : List Byte) (n : Nat) :
    (send s seg n).state = s.state := rfl
@[simp] theorem send_sent (s : ReliableSocket) (seg : List Byte) (n : Nat) :
    (send s seg n).sent = s.sent ++ [seg.take n] := rfl
@[simp] theorem set_estimated_rtt_sequence_number (s : ReliableSocket) :
    (set_estimated_rtt s).sequence_number = s.sequence_number := rfl
@[simp] theorem set_estimated_rtt_state (s : ReliableSocket) :
    (set_estimated_rtt s).state = s.state := rfl
@[simp] theorem set_estimated_rtt_sent (s : ReliableSocket) :
    (set_estimated_rtt s).sent = s.sent := rfl

theorem send_data_loop_timeout (seg : List Byte) (len fuel : Nat) (s : ReliableSocket)
    (m : Int) (rest : List Recv) :
    send_data_loop seg len (fuel + 1) s (⟨.timeout, m⟩ :: rest)
      = send_data_loop seg len (fuel + 1)
          { send s seg (sizeofRDTHeader + len) with curr_rtt := m } rest := by
  simp [send_data_loop, send_and_wait]

theorem send_data_loop_stale (seg : List Byte) (len fuel : Nat) (s : ReliableSocket)
    (bs : List Byte) (m : Int) (rest : List Recv)
    (h : ¬ (hdr_type bs = RDT_ACK ∧ ntohl (hdr_ack_number bs) = s.sequence_number)) :
    send_data_loop seg len (fuel + 1) s (⟨.datagram bs, m⟩ :: rest)
      = send_data_loop seg len fuel
          (set_estimated_rtt { send s seg (sizeofRDTHeader + len) with curr_rtt := m }) rest := by
  simp only [send_data_loop, send_and_wait, Outcome.andThen, hdr_type_take, hdr_ack_number_take,
    set_estimated_rtt_sequence_number, send_sequence_number]
  by_cases h1 : hdr_type bs = RDT_ACK
  · have h2 : ¬ ntohl (hdr_ack_number bs) = s.sequence_number := fun h2 => h ⟨h1, h2⟩
    simp [h1, h2]
  · simp [h1]

theorem send_data_loop_ack (seg : List Byte) (len fuel : Nat) (s : ReliableSocket)
    (bs : List Byte) (m : Int) (rest : List Recv)
    (h : hdr_type bs = RDT_ACK ∧ ntohl (hdr_ack_number bs) = s.sequence_number) :
    send_data_loop seg len (fuel + 1) s (⟨.datagram bs, m⟩ :: rest)
      = .returned ()
          (set_estimated_rtt { send s seg (sizeofRDTHeader + len) with curr_rtt := m }) rest := by
  simp only [send_data_loop, send_and_wait, Outcome.andThen, hdr_type_take, hdr_ack_number_take,
    set_estimated_rtt_sequence_number, send_sequence_number]
  simp [h.1, h.2]


theorem send_data_loop_run (seg : List Byte) (len : Nat) :
    ∀ (pre : List Recv) (fuel : Nat) (s : ReliableSocket),
      (∀ r ∈ pre, staleReply s.sequence_number r) → pre.length < fuel →
      (∀ (ack : List Byte) (m : Int) (rest : List Recv),
          hdr_type ack = RDT_ACK ∧ ntohl (hdr_ack_number ack) = s.sequence_number →
          ∃ s1, send_data_loop seg len fuel s (pre ++ ⟨.datagram ack, m⟩ :: rest)
                = .returned () s1 rest
            ∧ s1.sequence_number = s.sequence_number ∧ s1.state = s.state
            ∧ s1.sent = s.sent
                ++ List.replicate (pre.length + 1) (seg.take (sizeofRDTHeader + len)))
      ∧ (∃ s1, send_data_loop seg len fuel s pre = .blocked s1
            ∧ s1.sequence_number = s.sequence_number ∧ s1.state = s.state
            ∧ s1.sent = s.sent
                ++ List.replicate (pre.length + 1) (seg.take (sizeofRDTHeader + len))) := by
  intro pre
  induction pre with
  | nil =>
    intro fuel s _ hfuel
    obtain ⟨k, rfl⟩ : ∃ k, fuel = k + 1 := ⟨fuel - 1, by simp at hfuel; omega⟩
    refine ⟨fun ack m rest hack => ?_, ?_⟩
    · exact ⟨set_estimated_rtt { send s seg (sizeofRDTHeader + len) with curr_rtt := m },
        by simpa using send_data_loop_ack seg len k s ack m rest hack, by simp, by simp, by simp⟩
    · exact ⟨send s seg (sizeofRDTHeader + len),
        by simp [send_data_loop, send_and_wait, Outcome.andThen], by simp, by simp, by simp⟩
  | cons r pre ih =>
    intro fuel s hpre hfuel
    obtain ⟨k, rfl⟩ : ∃ k, fuel = k + 1 := ⟨fuel - 1, by simp at hfuel; omega⟩
    have hr := hpre r (List.mem_cons_self _ _)
    have hpre1 : ∀ r1 ∈ pre, staleReply s.sequence_number r1 :=
      fun r1 h1 => hpre r1 (List.mem_cons_of_mem _ h1)
    obtain ⟨res, m⟩ := r
    cases res with
    | timeout =>
      have hlen : pre.length < k + 1 := by simp at hfuel; omega
      obtain ⟨ih1, s2, e2, q2, t2, l2⟩ :=
        ih (k + 1) { send s seg (sizeofRDTHeader + len) with curr_rtt := m } hpre1 hlen
      refine ⟨fun ack m1 rest hack => ?_, ?_⟩
      · obtain ⟨s1, e1, q1, t1, l1⟩ := ih1 ack m1 rest hack
        refine ⟨s1, ?_, q1, t1, ?_⟩
        · rw [List.cons_append, send_data_loop_timeout]; exact e1
        · rw [l1]; simp [List.replicate_succ]
      · refine ⟨s2, ?_, q2, t2, ?_⟩
        · rw [send_data_loop_timeout]; exact e2
        · rw [l2]; simp [List.replicate_succ]
    | error => exact absurd hr (by simp [staleReply])
    | datagram bs =>
      have hbs : ¬ (hdr_type bs = RDT_ACK ∧ ntohl (hdr_ack_number bs) = s.sequence_number) := hr
      have hlen : pre.length < k := by simp at hfuel; omega
      obtain ⟨ih1, s2, e2, q2, t2, l2⟩ :=
        ih k (set_estimated_rtt { send s seg (sizeofRDTHeader + len) with curr_rtt := m })
          hpre1 hlen
      refine ⟨fun ack m1 rest hack => ?_, ?_⟩
      · obtain ⟨s1, e1, q1, t1, l1⟩ := ih1 ack m1 rest hack
        refine ⟨s1, ?_, q1, t1, ?_⟩
        · rw [List.cons_append, send_data_loop_stale _ _ _ _ _ _ _ hbs]; exact e1
        · rw [l1]; simp [List.replicate_succ]
      · refine ⟨s2, ?_, q2, t2, ?_⟩
        · rw [send_data_loop_stale _ _ _ _ _ _ _ hbs]; exact e2
        · rw [l2]; simp [List.replicate_succ]

/-! ## The iteration bound of the loops is never reached -/

theorem send_and_wait_consumes (seg : List Byte) (sz : Nat) :
    ∀ (script : List Recv) (s : ReliableSocket) (v : List Byte) (s1 : ReliableSocket)
      (rest : List Recv),
      send_and_wait s seg sz script = .returned v s1 rest → rest.length < script.length := by
  intro script
  induction script with
  | nil => intro s v s1 rest h; simp [send_and_wait] at h
  | cons r script ih =>
    intro s v s1 rest h
    obtain ⟨res, m⟩ := r
    cases res with
    | timeout =>
      simp only [send_and_wait] at h
      have := ih _ v s1 rest h
      simp only [List.length_cons]
      omega
    | error => simp [send_and_wait] at h
    | datagram d =>
      simp only [send_and_wait, Outcome.returned.injEq] at h
      simp [h.2.2]

theorem send_data_loop_fuel (seg : List Byte) (len : Nat) :
    ∀ (fuel1 fuel2 : Nat) (script : List Recv) (s : ReliableSocket),
      script.length < fuel1 → script.length < fuel2 →
      send_data_loop seg len fuel1 s script = send_data_loop seg len fuel2 s script := by
  intro fuel1
  induction fuel1 with
  | zero => intro fuel2 script s h; omega
  | succ k ih =>
    intro fuel2 script s h1 h2
    obtain ⟨j, rfl⟩ : ∃ j, fuel2 = j + 1 := ⟨fuel2 - 1, by omega⟩
    simp only [send_data_loop]
    cases hw : send_and_wait s seg (sizeofRDTHeader + len) script with
    | returned v s1 rest =>
      have hlt := send_and_wait_consumes seg _ script s v s1 rest hw
      simp only [Outcome.andThen]
      rw [ih j rest s1 (by omega) (by omega)]
    | blocked s1 => rfl
    | exited s1 rest => rfl
    | fault s1 rest => rfl

theorem receiver_handshake_loop_fuel (seg : List Byte) :
    ∀ (fuel1 fuel2 : Nat) (script : List Recv) (s : ReliableSocket),
      script.length < fuel1 → script.length < fuel2 →
      receiver_handshake_loop seg fuel1 s script = receiver_handshake_loop seg fuel2 s script := by
  intro fuel1
  induction fuel1 with
  | zero => intro fuel2 script s h; omega
  | succ k ih =>
    intro fuel2 script s h1 h2
    obtain ⟨j, rfl⟩ : ∃ j, fuel2 = j + 1 := ⟨fuel2 - 1, by omega⟩
    simp only [receiver_handshake_loop]
    cases hw : send_and_wait
        (set_timeout_length s (float_to_uint32 (s.estimated_rtt + 4 * s.dev_rtt))) seg
        sizeofRDTHeader script with
    | returned v s1 rest =>
      have hlt := send_and_wait_consumes seg _ script _ v s1 rest hw
      simp only [Outcome.andThen]
      rw [ih j rest s1 (by omega) (by omega)]
    | blocked s1 => rfl
    | exited s1 rest => rfl
    | fault s1 rest => rfl

/-! ## `send_data` -/

theorem data_segment_take (n : Nat) (data : List Byte) (length : Nat) :
    (data_segment n data length).take (sizeofRDTHeader + length) = data_segment n data length := by
  apply List.take_of_length_le
  simp [data_segment, mkHeader, htonl, sizeofRDTHeader]
  omega

theorem data_segment_header (n : Nat) (data : List Byte) (length : Nat) :
    hdr_type (data_segment n data length) = RDT_DATA
      ∧ ntohl (hdr_sequence_number (data_segment n data length)) = n % 2 ^ 32 := by
  refine ⟨by simp [data_segment, mkHeader, htonl, hdr_type], ?_⟩
  rw [← ntohl_htonl]
  simp [data_segment, mkHeader, htonl, hdr_sequence_number]

/-- C2 (stop-and-wait sequence advance).  On an established socket whose send
sequence number is `n`, let the replies be `pre`, made of timeouts, segments that
are not ACKs and ACKs for a number other than `n`, followed by an ACK for `n`.
Then `send_data` returns, having consumed exactly these replies, with the
sequence number advanced by one (as a `uint32_t`, so `n + 1` below `2 ^ 32`);
every datagram it sent is the same DATA segment carrying `n`, one per reply; and
on `pre` alone the call is still blocked with the sequence number `n`. -/
theorem send_data_stop_and_wait (s : ReliableSocket) (data : List Byte) (length : Nat)
    (pre : List Recv) (ack : List Byte) (msec : Int) (rest : List Recv)
    (hs : s.state = ESTABLISHED)
    (hpre : ∀ r ∈ pre, staleReply s.sequence_number r)
    (hack : hdr_type ack = RDT_ACK ∧ ntohl (hdr_ack_number ack) = s.sequence_number) :
    (hdr_type (data_segment s.sequence_number data length) = RDT_DATA
      ∧ ntohl (hdr_sequence_number (data_segment s.sequence_number data length))
          = s.sequence_number)
    ∧ (∃ s1, send_data s data length (pre ++ ⟨.datagram ack, msec⟩ :: rest)
          = .returned () s1 rest
        ∧ s1.sequence_number = (s.sequence_number + 1) % 2 ^ 32
        ∧ (s.sequence_number + 1 < 2 ^ 32 → s1.sequence_number = s.sequence_number + 1)
        ∧ s1.state = ESTABLISHED
        ∧ s1.sent = s.sent
            ++ List.replicate (pre.length + 1) (data_segment s.sequence_number data length))
    ∧ (∃ s2, send_data s data length pre = .blocked s2
        ∧ s2.sequence_number = s.sequence_number
        ∧ s2.sent = s.sent
            ++ List.replicate (pre.length + 1) (data_segment s.sequence_number data length)) := by
  have hn : s.sequence_number < 2 ^ 32 := hack.2 ▸ ntohl_lt _
  refine ⟨?_, ?_, ?_⟩
  · have h := data_segment_header s.sequence_number data length
    rw [Nat.mod_eq_of_lt hn] at h
    exact h
  · obtain ⟨h1, -⟩ := send_data_loop_run (data_segment s.sequence_number data length) length pre
      ((pre ++ ⟨.datagram ack, msec⟩ :: rest).length + 1) s hpre (by simp; omega)
    obtain ⟨s1, e1, q1, t1, l1⟩ := h1 ack msec rest hack
    refine ⟨{ s1 with sequence_number := (s1.sequence_number + 1) % 2 ^ 32 }, ?_, ?_, ?_, ?_, ?_⟩
    · simp only [send_data, hs, ne_eq, not_true_eq_false, if_false, e1, Outcome.andThen]
    · simp [q1]
    · intro h; simpa [q1] using h
    · simp [t1, hs]
    · simp [l1, data_segment_take]
  · obtain ⟨-, s2, e2, q2, -, l2⟩ := send_data_loop_run
      (data_segment s.sequence_number data length) length pre (pre.length + 1) s hpre (by omega)
    exact ⟨s2, by simp only [send_data, hs, ne_eq, not_true_eq_false, if_false, e2, Outcome.andThen], q2, by simp [l2, data_segment_take]⟩

theorem send_data_stop_and_wait_witness :
    (hdr_type (data_segment 0 [65, 66, 67] 3) = RDT_DATA
      ∧ ntohl (hdr_sequence_number (data_segment 0 [65, 66, 67] 3)) = 0)
    ∧ (∃ s1, send_data establishedSocket [65, 66, 67] 3
            ([⟨.timeout, 140⟩, ⟨.datagram (mkHeader (htonl 0) (htonl 7) RDT_ACK), 3⟩,
              ⟨.datagram (mkHeader (htonl 0) (htonl 0) RDT_SYNACK), 2⟩]
              ++ ⟨.datagram (mkHeader (htonl 0) (htonl 0) RDT_ACK), 5⟩ :: [])
          = .returned () s1 []
        ∧ s1.sequence_number = (0 + 1) % 2 ^ 32
        ∧ (0 + 1 < 2 ^ 32 → s1.sequence_number = 0 + 1)
        ∧ s1.state = ESTABLISHED
        ∧ s1.sent = [] ++ List.replicate (3 + 1) (data_segment 0 [65, 66, 67] 3))
    ∧ (∃ s2, send_data establishedSocket [65, 66, 67] 3
            [⟨.timeout, 140⟩, ⟨.datagram (mkHeader (htonl 0) (htonl 7) RDT_ACK), 3⟩,
              ⟨.datagram (mkHeader (htonl 0) (htonl 0) RDT_SYNACK), 2⟩]
          = .blocked s2
        ∧ s2.sequence_number = 0
        ∧ s2.sent = [] ++ List.replicate (3 + 1) (data_segment 0 [65, 66, 67] 3)) :=
  send_data_stop_and_wait establishedSocket [65, 66, 67] 3
    [⟨.timeout, 140⟩, ⟨.datagram (mkHeader (htonl 0) (htonl 7) RDT_ACK), 3⟩,
      ⟨.datagram (mkHeader (htonl 0) (htonl 0) RDT_SYNACK), 2⟩]
    (mkHeader (htonl 0) (htonl 0) RDT_ACK) 5 [] rfl
    (by decide) (by decide)

/-! ## `receive_data`, one transport event at a time -/

theorem receive_data_timeout_step (s : ReliableSocket) (buffer : List Byte) (m : Int)
    (rest : List Recv) (hs : s.state = ESTABLISHED) :
    receive_data s buffer (⟨.timeout, m⟩ :: rest)
      = receive_data
          { s with rcvtimeo := float_to_uint32 (s.estimated_rtt + s.dev_rtt * 4) } buffer rest := by
  rw [receive_data]
  simp [hs, set_timeout_length]

theorem receive_data_nil (s : ReliableSocket) (buffer : List Byte) (hs : s.state = ESTABLISHED) :
    receive_data s buffer []
      = .blocked { s with rcvtimeo := float_to_uint32 (s.estimated_rtt + s.dev_rtt * 4) } := by
  rw [receive_data]
  simp [hs, set_timeout_length]

theorem receive_data_datagram_step (s : ReliableSocket) (buffer d : List Byte) (m : Int)
    (rest : List Recv) (hs : s.state = ESTABLISHED) :
    receive_data s buffer (⟨.datagram d, m⟩ :: rest)
      = if hdr_type d = RDT_FIN then
          (send_and_timeout
              { s with rcvtimeo := float_to_uint32 (s.estimated_rtt + s.dev_rtt * 4) }
              (mkHeader (htonl 0) (htonl 0) RDT_FINACK) sizeofRDTHeader rest).andThen
            fun _ s2 rest2 => .returned (0, buffer) { s2 with state := FIN_STATE } rest2
        else if ntohl (hdr_sequence_number d) = s.sequence_number then
          if (d.take MAX_SEG_SIZE).length < sizeofRDTHeader then
            .fault
              { s with
                rcvtimeo := float_to_uint32 (s.estimated_rtt + s.dev_rtt * 4)
                sent := s.sent
                  ++ [mkHeader (hdr_sequence_number d) (hdr_sequence_number d) RDT_ACK]
                sequence_number := (s.sequence_number + 1) % 2 ^ 32 } rest
          else
            .returned
              (((d.take MAX_SEG_SIZE).length : Int) - sizeofRDTHeader,
                memcpy buffer ((d.take MAX_SEG_SIZE).drop sizeofRDTHeader)
                  ((d.take MAX_SEG_SIZE).length - sizeofRDTHeader))
              { s with
                rcvtimeo := float_to_uint32 (s.estimated_rtt + s.dev_rtt * 4)
                sent := s.sent
                  ++ [mkHeader (hdr_sequence_number d) (hdr_sequence_number d) RDT_ACK]
                sequence_number := (s.sequence_number + 1) % 2 ^ 32 } rest
        else
          receive_data
            { s with
              rcvtimeo := float_to_uint32 (s.estimated_rtt + s.dev_rtt * 4)
              sent := s.sent
                ++ [mkHeader (hdr_sequence_number d) (hdr_sequence_number d) RDT_ACK] }
            buffer rest := by
  rw [receive_data, if_neg (by simp [hs])]
  simp only [hdr_type_take, hdr_sequence_number_take]
  rfl

/-- C3 (duplicate suppression).  When `receive_data` on an established socket
that expects sequence number `n` (the counter `sequence_number`, which it
compares with) takes a DATA segment whose sequence number differs from `n`, it
sends one ACK whose acknowledgment number is the sequence number received and
goes on with the rest of the script on the same caller buffer: the counters and
the state are as before, and with nothing more to receive it is blocked. -/
theorem receive_data_duplicate (s : ReliableSocket) (buffer d : List Byte) (msec : Int)
    (rest : List Recv)
    (hs : s.state = ESTABLISHED) (htype : hdr_type d = RDT_DATA)
    (hseq : ntohl (hdr_sequence_number d) ≠ s.sequence_number) :
    receive_data s buffer (⟨.datagram d, msec⟩ :: rest)
        = receive_data
            { s with
              rcvtimeo := float_to_uint32 (s.estimated_rtt + s.dev_rtt * 4)
              sent := s.sent ++ [mkHeader (hdr_sequence_number d) (hdr_sequence_number d) RDT_ACK] }
            buffer rest
    ∧ receive_data s buffer [⟨.datagram d, msec⟩]
        = .blocked
            { s with
              rcvtimeo := float_to_uint32 (s.estimated_rtt + s.dev_rtt * 4)
              sent := s.sent ++ [mkHeader (hdr_sequence_number d) (hdr_sequence_number d) RDT_ACK] }
    ∧ hdr_type (mkHeader (hdr_sequence_number d) (hdr_sequence_number d) RDT_ACK) = RDT_ACK
    ∧ ntohl (hdr_ack_number (mkHeader (hdr_sequence_number d) (hdr_sequence_number d) RDT_ACK))
        = ntohl (hdr_sequence_number d) := by
  have hfin : ¬ hdr_type d = RDT_FIN := by rw [htype]; decide
  refine ⟨?_, ?_, ?_, ?_⟩
  · rw [receive_data_datagram_step s buffer d msec rest hs, if_neg hfin, if_neg hseq]
  · rw [receive_data_datagram_step s buffer d msec [] hs, if_neg hfin, if_neg hseq]
    exact receive_data_nil _ _ hs
  · simp [mkHeader, hdr_sequence_number, hdr_type]
  · simp [mkHeader, hdr_sequence_number, hdr_ack_number, ntohl]

theorem float_to_uint32_natCast (n : Nat) (h : n < 2 ^ 32) : float_to_uint32 (n : ℚ) = n := by
  unfold float_to_uint32 float_to_int
  rw [if_pos (Nat.cast_nonneg n)]
  simp only [Int.floor_natCast, Int.toNat_ofNat]
  exact Nat.mod_eq_of_lt h

theorem seed_timeout : float_to_uint32 ((100 : ℚ) + 10 * 4) = 140 := by
  rw [show ((100 : ℚ) + 10 * 4) = ((140 : ℕ) : ℚ) by norm_num]
  exact float_to_uint32_natCast 140 (by norm_num)

theorem receive_data_duplicate_witness :
    ntohl (hdr_sequence_number (data_segment 0 [65, 66, 67] 3))
        ≠ ({ establishedSocket with sequence_number := 1 } : ReliableSocket).sequence_number
    ∧ receive_data { establishedSocket with sequence_number := 1 } [9, 9, 9]
          [⟨.datagram (data_segment 0 [65, 66, 67] 3), 7⟩]
        = .blocked
            { establishedSocket with
              sequence_number := 1
              rcvtimeo := 140
              sent := [mkHeader (htonl 0) (htonl 0) RDT_ACK] } :=
  ⟨by decide,
    by
      have h := (receive_data_duplicate { establishedSocket with sequence_number := 1 } [9, 9, 9]
        (data_segment 0 [65, 66, 67] 3) 7 [] rfl (by decide) (by decide)).2.1
      rw [h]
      show Outcome.blocked { establishedSocket with
          sequence_number := 1
          rcvtimeo := float_to_uint32 ((100 : ℚ) + 10 * 4)
          sent := [mkHeader (htonl 0) (htonl 0) RDT_ACK] } = _
      rw [seed_timeout]⟩

theorem data_segment_sequence_number (n : Nat) (data : List Byte) (length : Nat) :
    hdr_sequence_number (data_segment n data length) = htonl n := by
  simp [data_segment, mkHeader, htonl, hdr_sequence_number]

theorem data_segment_length (n : Nat) (data : List Byte) :
    (data_segment n data data.length).length = sizeofRDTHeader + data.length := by
  simp [data_segment, mkHeader, htonl, sizeofRDTHeader]
  omega

theorem data_segment_drop (n : Nat) (data : List Byte) :
    (data_segment n data data.length).drop sizeofRDTHeader = data := by
  simp [data_segment, mkHeader, htonl, sizeofRDTHeader]

theorem receive_data_accepts (s : ReliableSocket) (buffer : List Byte) (n : Nat)
    (p : List Byte) (msec : Int) (rest : List Recv)
    (hs : s.state = ESTABLISHED) (hexp : s.sequence_number = n) (hn : n < 2 ^ 32)
    (hp : p.length ≤ MAX_DATA_SIZE) :
    receive_data s buffer (⟨.datagram (data_segment n p p.length), msec⟩ :: rest)
        = .returned ((p.length : Int), p ++ buffer.drop p.length)
            { s with
              rcvtimeo := float_to_uint32 (s.estimated_rtt + s.dev_rtt * 4)
              sent := s.sent ++ [mkHeader (htonl n) (htonl n) RDT_ACK]
              sequence_number := (n + 1) % 2 ^ 32 } rest := by
  have hseq : ntohl (hdr_sequence_number (data_segment n p p.length)) = n := by
    rw [data_segment_sequence_number, ntohl_htonl, Nat.mod_eq_of_lt hn]
  have htake : (data_segment n p p.length).take MAX_SEG_SIZE = data_segment n p p.length := by
    apply List.take_of_length_le
    rw [data_segment_length]
    simp only [MAX_DATA_SIZE, MAX_SEG_SIZE, sizeofRDTHeader] at hp ⊢
    omega
  rw [receive_data_datagram_step s buffer _ msec rest hs,
    if_neg (by rw [(data_segment_header n p p.length).1]; decide),
    if_pos (by rw [hseq, hexp]), htake, data_segment_length,
    if_neg (by omega), data_segment_drop, data_segment_sequence_number, hexp]
  simp [memcpy]

/-- C4 (framing round trip).  For a 32-bit sequence number `n` and a payload `p`
of at most `MAX_DATA_SIZE` octets, the DATA segment that `send_data` frames for
`(n, p)`, taken by `receive_data` on an established socket that expects `n`, is
read back with sequence number `n`: one ACK carrying `n` is sent, the call
returns `length p`, the caller's buffer starts with `p`, and the socket then
expects the successor of `n`. -/
theorem framing_round_trip (s : ReliableSocket) (buffer : List Byte) (n : Nat)
    (p : List Byte) (msec : Int) (rest : List Recv)
    (hs : s.state = ESTABLISHED) (hexp : s.sequence_number = n) (hn : n < 2 ^ 32)
    (hp : p.length ≤ MAX_DATA_SIZE) :
    receive_data s buffer (⟨.datagram (data_segment n p p.length), msec⟩ :: rest)
        = .returned ((p.length : Int), p ++ buffer.drop p.length)
            { s with
              rcvtimeo := float_to_uint32 (s.estimated_rtt + s.dev_rtt * 4)
              sent := s.sent ++ [mkHeader (htonl n) (htonl n) RDT_ACK]
              sequence_number := (n + 1) % 2 ^ 32 } rest
    ∧ ntohl (hdr_sequence_number (data_segment n p p.length)) = n
    ∧ hdr_type (mkHeader (htonl n) (htonl n) RDT_ACK) = RDT_ACK
    ∧ ntohl (hdr_ack_number (mkHeader (htonl n) (htonl n) RDT_ACK)) = n
    ∧ (p ++ buffer.drop p.length).take p.length = p := by
  have hseq : ntohl (hdr_sequence_number (data_segment n p p.length)) = n := by
    rw [data_segment_sequence_number, ntohl_htonl, Nat.mod_eq_of_lt hn]
  refine ⟨receive_data_accepts s buffer n p msec rest hs hexp hn hp, hseq, ?_, ?_, ?_⟩
  · simp [mkHeader, htonl, hdr_type]
  · have h : hdr_ack_number (mkHeader (htonl n) (htonl n) RDT_ACK) = htonl n := by
      simp [mkHeader, htonl, hdr_ack_number]
    rw [h, ntohl_htonl, Nat.mod_eq_of_lt hn]
  · simp

theorem framing_round_trip_witness :
    receive_data establishedSocket [9, 9, 9, 9, 9]
        [⟨.datagram (data_segment 0 [65, 66, 67] ([65, 66, 67] : List Byte).length), 7⟩]
      = .returned (3, [65, 66, 67, 9, 9])
          { establishedSocket with
            rcvtimeo := 140
            sent := [mkHeader (htonl 0) (htonl 0) RDT_ACK]
            sequence_number := 1 } [] := by
  have h := (framing_round_trip establishedSocket [9, 9, 9, 9, 9] 0 [65, 66, 67] 7 [] rfl rfl
    (by decide) (by decide)).1
  rw [h]
  show Outcome.returned (3, [65, 66, 67, 9, 9])
      { establishedSocket with
        rcvtimeo := float_to_uint32 ((100 : ℚ) + 10 * 4)
        sent := [mkHeader (htonl 0) (htonl 0) RDT_ACK]
        sequence_number := 1 } [] = _
  rw [seed_timeout]

/-! ## `send_and_timeout` -/

theorem send_and_timeout_silent (s : ReliableSocket) (seg : List Byte) (sz : Nat) (t : Recv)
    (rest : List Recv) (ht : silent t) :
    send_and_timeout s seg sz (t :: rest)
      = .returned true
          { s with
            rcvtimeo := float_to_uint32 (s.estimated_rtt + s.dev_rtt * 4)
            sent := s.sent ++ [seg.take sizeofRDTHeader] } rest := by
  obtain ⟨res, m⟩ := t
  cases res with
  | timeout => rfl
  | error => rfl
  | datagram d =>
    have hd : d = [] := ht
    subst hd
    rfl

theorem send_and_timeout_loud (s : ReliableSocket) (seg : List Byte) (sz : Nat) (r : Recv)
    (rest : List Recv) (hr : ¬ silent r) :
    send_and_timeout s seg sz (r :: rest)
      = send_and_timeout
          { s with
            rcvtimeo := float_to_uint32 (s.estimated_rtt + s.dev_rtt * 4)
            sent := s.sent ++ [seg.take sizeofRDTHeader] } seg sz rest := by
  obtain ⟨res, m⟩ := r
  cases res with
  | timeout => exact absurd trivial hr
  | error => exact absurd trivial hr
  | datagram d =>
    have hd : d ≠ [] := hr
    have hpos : 0 < (d.take MAX_SEG_SIZE).length := by
      cases d with
      | nil => exact absurd rfl hd
      | cons a l => simp [MAX_SEG_SIZE]
    rw [send_and_timeout]
    simp only [hpos, if_true]
    rfl

theorem send_and_timeout_run (seg : List Byte) (sz : Nat) :
    ∀ (more : List Recv) (s : ReliableSocket) (t : Recv) (rest : List Recv),
      (∀ r ∈ more, ¬ silent r) → silent t →
      send_and_timeout s seg sz (more ++ t :: rest)
        = .returned true
            { s with
              rcvtimeo := float_to_uint32 (s.estimated_rtt + s.dev_rtt * 4)
              sent := s.sent ++ List.replicate (more.length + 1) (seg.take sizeofRDTHeader) }
            rest := by
  intro more
  induction more with
  | nil =>
    intro s t rest _ ht
    simpa using send_and_timeout_silent s seg sz t rest ht
  | cons r more ih =>
    intro s t rest hmore ht
    rw [List.cons_append, send_and_timeout_loud s seg sz r _ (hmore r (List.mem_cons_self _ _)),
      ih _ t rest (fun r1 h1 => hmore r1 (List.mem_cons_of_mem _ h1)) ht]
    simp [List.replicate_succ]

/-- C5 (end of stream on FIN).  When `receive_data` on an established socket
takes a segment of type FIN, it sends a FINACK (and one more for each datagram
that arrives before the wait after it stays silent), sets the state to
`FIN_STATE` and returns `0`; the counters and the caller's buffer are as before. -/
theorem receive_data_fin (s : ReliableSocket) (buffer d : List Byte) (msec : Int)
    (more : List Recv) (t : Recv) (rest : List Recv)
    (hs : s.state = ESTABLISHED) (hfin : hdr_type d = RDT_FIN)
    (hmore : ∀ r ∈ more, ¬ silent r) (ht : silent t) :
    receive_data s buffer (⟨.datagram d, msec⟩ :: (more ++ t :: rest))
        = .returned (0, buffer)
            { s with
              state := FIN_STATE
              rcvtimeo := float_to_uint32 (s.estimated_rtt + s.dev_rtt * 4)
              sent := s.sent
                ++ List.replicate (more.length + 1) (mkHeader (htonl 0) (htonl 0) RDT_FINACK) }
            rest
    ∧ hdr_type (mkHeader (htonl 0) (htonl 0) RDT_FINACK) = RDT_FINACK := by
  refine ⟨?_, by decide⟩
  rw [receive_data_datagram_step s buffer d msec _ hs, if_pos hfin,
    send_and_timeout_run _ _ more _ t rest hmore ht]
  rfl

theorem receive_data_fin_witness :
    receive_data { establishedSocket with sequence_number := 4 } [9, 9, 9]
        [⟨.datagram (mkHeader (htonl 0) (htonl 0) RDT_FIN), 7⟩,
          ⟨.datagram (mkHeader (htonl 0) (htonl 0) RDT_FIN), 8⟩, ⟨.timeout, 140⟩]
      = .returned (0, [9, 9, 9])
          { establishedSocket with
            sequence_number := 4
            state := FIN_STATE
            rcvtimeo := 140
            sent := [mkHeader (htonl 0) (htonl 0) RDT_FINACK,
              mkHeader (htonl 0) (htonl 0) RDT_FINACK] } [] := by
  have h := (receive_data_fin { establishedSocket with sequence_number := 4 } [9, 9, 9]
    (mkHeader (htonl 0) (htonl 0) RDT_FIN) 7
    [⟨.datagram (mkHeader (htonl 0) (htonl 0) RDT_FIN), 8⟩] ⟨.timeout, 140⟩ [] rfl (by decide)
    (by decide) (by decide)).1
  rw [List.singleton_append] at h
  rw [h]
  show Outcome.returned (0, [9, 9, 9])
      { establishedSocket with
        sequence_number := 4
        state := FIN_STATE
        rcvtimeo := float_to_uint32 ((100 : ℚ) + 10 * 4)
        sent := [mkHeader (htonl 0) (htonl 0) RDT_FINACK,
          mkHeader (htonl 0) (htonl 0) RDT_FINACK] } [] = _
  rw [seed_timeout]

/-- C6, as the code has it.  If `receive_data` on an established socket returns
`0`, then either a FIN was received during the call, the state on return is
`FIN_STATE` and the caller's buffer is as before; or the call returned on the
last datagram it consumed, which carried the expected sequence number and as
many octets as the header (an empty payload), and the state on return is still
`ESTABLISHED`. -/
theorem receive_data_zero (buffer : List Byte) :
    ∀ (script : List Recv) (s : ReliableSocket) (b : List Byte) (s1 : ReliableSocket)
      (rest : List Recv),
      s.state = ESTABLISHED →
      receive_data s buffer script = .returned (0, b) s1 rest →
      (s1.state = FIN_STATE ∧ b = buffer
          ∧ ∃ pre d m post, script = pre ++ ⟨.datagram d, m⟩ :: post ∧ hdr_type d = RDT_FIN)
        ∨ (s1.state = ESTABLISHED
          ∧ ∃ pre d m, script = pre ++ ⟨.datagram d, m⟩ :: rest
              ∧ (d.take MAX_SEG_SIZE).length = sizeofRDTHeader
              ∧ ntohl (hdr_sequence_number d) = s.sequence_number) := by
  intro script
  induction script with
  | nil =>
    intro s b s1 rest hs h
    rw [receive_data_nil s buffer hs] at h
    exact absurd h (by simp)
  | cons r script ih =>
    intro s b s1 rest hs h
    have lift : ∀ (s0 : ReliableSocket), s0.state = ESTABLISHED →
        s0.sequence_number = s.sequence_number →
        receive_data s0 buffer script = .returned (0, b) s1 rest →
        (s1.state = FIN_STATE ∧ b = buffer
            ∧ ∃ pre d m post, r :: script = pre ++ ⟨.datagram d, m⟩ :: post
                ∧ hdr_type d = RDT_FIN)
          ∨ (s1.state = ESTABLISHED
            ∧ ∃ pre d m, r :: script = pre ++ ⟨.datagram d, m⟩ :: rest
                ∧ (d.take MAX_SEG_SIZE).length = sizeofRDTHeader
                ∧ ntohl (hdr_sequence_number d) = s.sequence_number) := by
      intro s0 hs0 hq0 h0
      rcases ih s0 b s1 rest hs0 h0 with ⟨h1, h2, pre, d, m, post, e, hd⟩ | ⟨h1, pre, d, m, e, hl, hd⟩
      · exact Or.inl ⟨h1, h2, r :: pre, d, m, post, by simp [e], hd⟩
      · exact Or.inr ⟨h1, r :: pre, d, m, by simp [e], hl, by rw [hd, hq0]⟩
    obtain ⟨res, m⟩ := r
    cases res with
    | timeout =>
      rw [receive_data_timeout_step s buffer m script hs] at h
      refine lift _ ?_ ?_ h
      · exact hs
      · rfl
    | error =>
      rw [receive_data, if_neg (by simp [hs])] at h
      simp at h
    | datagram d =>
      rw [receive_data_datagram_step s buffer d m script hs] at h
      by_cases hfin : hdr_type d = RDT_FIN
      · rw [if_pos hfin] at h
        cases hst : send_and_timeout
            { s with rcvtimeo := float_to_uint32 (s.estimated_rtt + s.dev_rtt * 4) }
            (mkHeader (htonl 0) (htonl 0) RDT_FINACK) sizeofRDTHeader script with
        | returned v s2 rest2 =>
          rw [hst] at h
          simp only [Outcome.andThen, Outcome.returned.injEq, Prod.mk.injEq] at h
          obtain ⟨⟨-, hb⟩, hs1, -⟩ := h
          exact Or.inl ⟨by rw [← hs1], hb.symm, [], d, m, script, rfl, hfin⟩
        | blocked s2 => rw [hst] at h; simp [Outcome.andThen] at h
        | exited s2 rest2 => rw [hst] at h; simp [Outcome.andThen] at h
        | fault s2 rest2 => rw [hst] at h; simp [Outcome.andThen] at h
      · rw [if_neg hfin] at h
        by_cases hseq : ntohl (hdr_sequence_number d) = s.sequence_number
        · rw [if_pos hseq] at h
          by_cases hlen : (d.take MAX_SEG_SIZE).length < sizeofRDTHeader
          · rw [if_pos hlen] at h
            exact absurd h (by simp)
          · rw [if_neg hlen] at h
            simp only [Outcome.returned.injEq, Prod.mk.injEq] at h
            obtain ⟨⟨hz, -⟩, hs1, hrest⟩ := h
            refine Or.inr ⟨by rw [← hs1]; exact hs, [], d, m, by simp [hrest], ?_, hseq⟩
            omega
        · rw [if_neg hseq] at h
          refine lift _ ?_ ?_ h
          · exact hs
          · rfl

theorem receive_data_zero_witness :
    receive_data establishedSocket [9, 9, 9]
        [⟨.datagram (mkHeader (htonl 0) (htonl 0) RDT_FIN), 7⟩, ⟨.timeout, 140⟩]
      = .returned (0, [9, 9, 9])
          { establishedSocket with
            state := FIN_STATE
            rcvtimeo := float_to_uint32 (establishedSocket.estimated_rtt
              + establishedSocket.dev_rtt * 4)
            sent := [mkHeader (htonl 0) (htonl 0) RDT_FINACK] } []
    ∧ ((FIN_STATE = FIN_STATE ∧ [9, 9, 9] = ([9, 9, 9] : List Byte)
          ∧ ∃ pre d m post,
              [(⟨.datagram (mkHeader (htonl 0) (htonl 0) RDT_FIN), 7⟩ : Recv), ⟨.timeout, 140⟩]
                = pre ++ ⟨.datagram d, m⟩ :: post ∧ hdr_type d = RDT_FIN)
        ∨ (FIN_STATE = ESTABLISHED
          ∧ ∃ pre d m,
              [(⟨.datagram (mkHeader (htonl 0) (htonl 0) RDT_FIN), 7⟩ : Recv), ⟨.timeout, 140⟩]
                = pre ++ ⟨.datagram d, m⟩ :: []
              ∧ (d.take MAX_SEG_SIZE).length = sizeofRDTHeader
              ∧ ntohl (hdr_sequence_number d) = establishedSocket.sequence_number)) :=
  have e : receive_data establishedSocket [9, 9, 9]
        [⟨.datagram (mkHeader (htonl 0) (htonl 0) RDT_FIN), 7⟩, ⟨.timeout, 140⟩]
      = .returned (0, [9, 9, 9])
          { establishedSocket with
            state := FIN_STATE
            rcvtimeo := float_to_uint32 (establishedSocket.estimated_rtt
              + establishedSocket.dev_rtt * 4)
            sent := [mkHeader (htonl 0) (htonl 0) RDT_FINACK] } [] := rfl
  ⟨e, receive_data_zero [9, 9, 9] _ establishedSocket [9, 9, 9] _ [] rfl e⟩

/-- C6, as stated, fails: a DATA segment with the expected sequence number and no
payload makes `receive_data` return `0` although no FIN was received, and the
state on return is `ESTABLISHED`, not `FIN_STATE`. -/
theorem receive_data_zero_without_fin :
    hdr_type (data_segment 0 [] 0) = RDT_DATA
    ∧ establishedSocket.state = ESTABLISHED
    ∧ receive_data establishedSocket [9, 9, 9] [⟨.datagram (data_segment 0 [] 0), 7⟩]
        = .returned (0, [9, 9, 9])
            { establishedSocket with
              state := ESTABLISHED
              sequence_number := 1
              rcvtimeo := float_to_uint32 (establishedSocket.estimated_rtt
                + establishedSocket.dev_rtt * 4)
              sent := [mkHeader (htonl 0) (htonl 0) RDT_ACK] } [] :=
  ⟨by decide, rfl, rfl⟩

/-! ## The round-trip estimator -/

theorem float_to_int_of_nonneg (x : ℚ) (h : 0 ≤ x) : float_to_int x = ⌊x⌋ := by
  unfold float_to_int
  rw [if_pos h]

theorem set_estimated_rtt_estimated_rtt (s : ReliableSocket) :
    (set_estimated_rtt s).estimated_rtt = 0.5 * s.estimated_rtt + 0.5 * (s.curr_rtt : ℚ) := by
  simp only [set_estimated_rtt, set_timeout_length]
  ring

theorem set_estimated_rtt_dev_rtt (s : ReliableSocket) :
    (set_estimated_rtt s).dev_rtt
      = 0.5 * s.dev_rtt
        + 0.5 * ((⌊|(s.curr_rtt : ℚ) - (set_estimated_rtt s).estimated_rtt|⌋ : Int) : ℚ) := by
  have habs : (if (s.curr_rtt : ℚ) > s.estimated_rtt * 0.5 + (s.curr_rtt : ℚ) * 0.5
      then (s.curr_rtt : ℚ) - (s.estimated_rtt * 0.5 + (s.curr_rtt : ℚ) * 0.5)
      else s.estimated_rtt * 0.5 + (s.curr_rtt : ℚ) * 0.5 - (s.curr_rtt : ℚ))
      = |(s.curr_rtt : ℚ) - (s.estimated_rtt * 0.5 + (s.curr_rtt : ℚ) * 0.5)| := by
    split_ifs with h
    · rw [abs_of_pos (by linarith)]
    · rw [abs_of_nonpos (by linarith)]
      ring
  simp only [set_estimated_rtt, set_timeout_length]
  rw [habs, float_to_int_of_nonneg _ (abs_nonneg _)]
  ring

theorem set_estimated_rtt_rcvtimeo (s : ReliableSocket) :
    (set_estimated_rtt s).rcvtimeo
      = float_to_uint32 ((set_estimated_rtt s).estimated_rtt + 4 * (set_estimated_rtt s).dev_rtt) :=
  rfl

/-- C7 (RTT update example).  From the seed values of the constructor,
`estimated_rtt = 100` and `dev_rtt = 10`, one call of `set_estimated_rtt` with
the sample `curr_rtt = 50` leaves `estimated_rtt = 75` and `dev_rtt = 17.5` and
programs a receive timeout of 145 ms. -/
theorem set_estimated_rtt_example :
    ReliableSocket.new.estimated_rtt = 100
    ∧ ReliableSocket.new.dev_rtt = 10
    ∧ (set_estimated_rtt { ReliableSocket.new with curr_rtt := 50 }).estimated_rtt = 75
    ∧ (set_estimated_rtt { ReliableSocket.new with curr_rtt := 50 }).dev_rtt = 17.5
    ∧ (set_estimated_rtt { ReliableSocket.new with curr_rtt := 50 }).rcvtimeo = 145 := by
  have he : (set_estimated_rtt { ReliableSocket.new with curr_rtt := 50 }).estimated_rtt = 75 := by
    rw [set_estimated_rtt_estimated_rtt]
    simp only [ReliableSocket.new]
    norm_num
  have hd : (set_estimated_rtt { ReliableSocket.new with curr_rtt := 50 }).dev_rtt = 17.5 := by
    rw [set_estimated_rtt_dev_rtt, he]
    simp only [ReliableSocket.new]
    norm_num
  refine ⟨rfl, rfl, he, hd, ?_⟩
  rw [set_estimated_rtt_rcvtimeo, he, hd,
    show ((75 : ℚ) + 4 * 17.5) = ((145 : ℕ) : ℚ) by norm_num]
  exact float_to_uint32_natCast 145 (by norm_num)

/-- C8, as the code has it.  `set_estimated_rtt` produces the new estimate
`0.5 * e + 0.5 * s` and the new deviation `0.5 * d + 0.5 * a`, where `a` is the
absolute difference between the sample and the already updated estimate with its
fraction dropped (the source holds it in an `int`). -/
theorem set_estimated_rtt_formula (s : ReliableSocket) :
    (set_estimated_rtt s).estimated_rtt = 0.5 * s.estimated_rtt + 0.5 * (s.curr_rtt : ℚ)
    ∧ (set_estimated_rtt s).dev_rtt
        = 0.5 * s.dev_rtt
          + 0.5 * ((⌊|(s.curr_rtt : ℚ) - (set_estimated_rtt s).estimated_rtt|⌋ : Int) : ℚ) :=
  ⟨set_estimated_rtt_estimated_rtt s, set_estimated_rtt_dev_rtt s⟩

/-- C8, as stated, fails: from `estimated_rtt = 100` and `dev_rtt = 10` the
sample `51` gives the new estimate `75.5`, and the new deviation is `17`, not
`0.5 * 10 + 0.5 * |51 - 75.5| = 17.25`. -/
theorem set_estimated_rtt_drops_fraction :
    (set_estimated_rtt { ReliableSocket.new with curr_rtt := 51 }).estimated_rtt = 75.5
    ∧ (set_estimated_rtt { ReliableSocket.new with curr_rtt := 51 }).dev_rtt = 17
    ∧ (set_estimated_rtt { ReliableSocket.new with curr_rtt := 51 }).dev_rtt
        ≠ 0.5 * ReliableSocket.new.dev_rtt
          + 0.5 * |((51 : Int) : ℚ)
              - (set_estimated_rtt { ReliableSocket.new with curr_rtt := 51 }).estimated_rtt| := by
  have he : (set_estimated_rtt { ReliableSocket.new with curr_rtt := 51 }).estimated_rtt
      = 75.5 := by
    rw [set_estimated_rtt_estimated_rtt]
    simp only [ReliableSocket.new]
    norm_num
  have hfloor : ⌊|((51 : Int) : ℚ) - 75.5|⌋ = 24 := by
    rw [Int.floor_eq_iff]
    constructor <;> norm_num [abs_of_nonpos]
  have hd : (set_estimated_rtt { ReliableSocket.new with curr_rtt := 51 }).dev_rtt = 17 := by
    rw [set_estimated_rtt_dev_rtt, he]
    simp only [ReliableSocket.new]
    rw [hfloor]
    norm_num
  refine ⟨he, hd, ?_⟩
  rw [hd, he]
  simp only [ReliableSocket.new]
  norm_num [abs_of_nonpos]

/-! ## Calls in the wrong state, and the first datagram of the listener -/

/-- C9 (state-precondition violations).  On a socket that is not `ESTABLISHED`,
`send_data` returns and `receive_data` returns `-1`; on a socket that is not
`INIT`, `connect_to_remote` returns.  In each case nothing is sent, no transport
event is consumed, the caller's buffer is as before and every field of the socket
(state, counters, estimate, deviation, programmed timeout) is unchanged. -/
theorem precondition_violation (s : ReliableSocket) (data buffer : List Byte) (length : Nat)
    (script : List Recv) :
    (s.state ≠ ESTABLISHED →
        send_data s data length script = .returned () s script
        ∧ receive_data s buffer script = .returned (-1, buffer) s script)
    ∧ (s.state ≠ INIT → connect_to_remote s script = .returned () s script) := by
  refine ⟨fun h => ⟨?_, ?_⟩, fun h => ?_⟩
  · simp only [send_data, h, ne_eq, not_false_eq_true, if_true]
  · rw [receive_data, if_pos h]
  · simp only [connect_to_remote, h, ne_eq, not_false_eq_true, if_true]

theorem precondition_violation_witness :
    (send_data { ReliableSocket.new with state := CLOSED } [65, 66, 67] 3
          [⟨.datagram (mkHeader (htonl 0) (htonl 0) RDT_ACK), 7⟩]
        = .returned () { ReliableSocket.new with state := CLOSED }
            [⟨.datagram (mkHeader (htonl 0) (htonl 0) RDT_ACK), 7⟩]
      ∧ receive_data { ReliableSocket.new with state := CLOSED } [9, 9, 9]
          [⟨.datagram (mkHeader (htonl 0) (htonl 0) RDT_ACK), 7⟩]
        = .returned (-1, [9, 9, 9]) { ReliableSocket.new with state := CLOSED }
            [⟨.datagram (mkHeader (htonl 0) (htonl 0) RDT_ACK), 7⟩])
    ∧ connect_to_remote { ReliableSocket.new with state := CLOSED }
          [⟨.datagram (mkHeader (htonl 0) (htonl 0) RDT_ACK), 7⟩]
        = .returned () { ReliableSocket.new with state := CLOSED }
            [⟨.datagram (mkHeader (htonl 0) (htonl 0) RDT_ACK), 7⟩] :=
  ⟨(precondition_violation { ReliableSocket.new with state := CLOSED } [65, 66, 67] [9, 9, 9] 3
      [⟨.datagram (mkHeader (htonl 0) (htonl 0) RDT_ACK), 7⟩]).1 (by decide),
    (precondition_violation { ReliableSocket.new with state := CLOSED } [65, 66, 67] [9, 9, 9] 3
      [⟨.datagram (mkHeader (htonl 0) (htonl 0) RDT_ACK), 7⟩]).2 (by decide)⟩

/-- C10 (the listener rejects an opener that is not a SYN).  If the first
datagram `accept_connection` receives has a type other than `RDT_SYN`, then
`receiver_handshake` returns `false` and `accept_connection` returns without
sending any segment, without another `recv`, and with the socket, still in state
`INIT`, unchanged. -/
theorem accept_connection_rejects_non_syn (s : ReliableSocket) (d : List Byte) (msec : Int)
    (rest : List Recv) (hs : s.state = INIT) (htype : hdr_type d ≠ RDT_SYN) :
    receiver_handshake s (d.take MAX_SEG_SIZE) rest = .returned false s rest
    ∧ accept_connection s (⟨.datagram d, msec⟩ :: rest) = .returned () s rest
    ∧ s.state ≠ ESTABLISHED := by
  have h1 : receiver_handshake s (d.take MAX_SEG_SIZE) rest = .returned false s rest := by
    simp only [receiver_handshake, hdr_type_take, htype, ne_eq, not_false_eq_true, if_true]
  refine ⟨h1, ?_, by rw [hs]; decide⟩
  simp only [accept_connection, hs, ne_eq, not_true_eq_false, if_false, h1, Outcome.andThen]
  simp

theorem accept_connection_rejects_non_syn_witness :
    hdr_type (data_segment 0 [65, 66, 67] 3) ≠ RDT_SYN
    ∧ receiver_handshake ReliableSocket.new ((data_segment 0 [65, 66, 67] 3).take MAX_SEG_SIZE)
          [⟨.datagram (mkHeader (htonl 0) (htonl 0) RDT_ACK), 7⟩]
        = .returned false ReliableSocket.new [⟨.datagram (mkHeader (htonl 0) (htonl 0) RDT_ACK), 7⟩]
    ∧ accept_connection ReliableSocket.new
          (⟨.datagram (data_segment 0 [65, 66, 67] 3), 3⟩
            :: [⟨.datagram (mkHeader (htonl 0) (htonl 0) RDT_ACK), 7⟩])
        = .returned () ReliableSocket.new [⟨.datagram (mkHeader (htonl 0) (htonl 0) RDT_ACK), 7⟩]
    ∧ ReliableSocket.new.state ≠ ESTABLISHED :=
  ⟨by decide,
    accept_connection_rejects_non_syn ReliableSocket.new (data_segment 0 [65, 66, 67] 3) 3
      [⟨.datagram (mkHeader (htonl 0) (htonl 0) RDT_ACK), 7⟩] rfl (by decide)⟩

/-! ## The two endpoints over a channel that duplicates and loses datagrams -/

/-- The missing test for `RDT_DATA` in `receive_data`, seen between the two
endpoints.  The initiator connects and sends "ABC" and then
"DEF"; the channel delivers its handshake ACK to the listener twice and loses the
listener's reply to the second copy.  Every datagram an endpoint receives below
is in the log of what its peer sent.  The listener's first `receive_data` takes the
second copy of the ACK as data with sequence number 0 and returns `0` although
the initiator sent no FIN; its second call acknowledges "ABC" without
delivering it and returns "DEF", while both `send_data` calls of the initiator
complete. -/
theorem duplicated_handshake_ack_loses_payload :
    ∃ i1 i2 i3 l1 l2 l3 : ReliableSocket,
      connect_to_remote ReliableSocket.new
          [⟨.datagram (mkHeader (htonl 0) (htonl 0) RDT_SYNACK), 20⟩, ⟨.timeout, 95⟩]
        = .returned () i1 []
      ∧ i1.state = ESTABLISHED
      ∧ i1.sent = [mkHeader (htonl 0) (htonl 0) RDT_SYN, mkHeader (htonl 0) (htonl 0) RDT_ACK]
      ∧ send_data i1 [65, 66, 67] 3 [⟨.datagram (mkHeader (htonl 0) (htonl 0) RDT_ACK), 20⟩]
        = .returned () i2 []
      ∧ send_data i2 [68, 69, 70] 3 [⟨.datagram (mkHeader (htonl 1) (htonl 1) RDT_ACK), 20⟩]
        = .returned () i3 []
      ∧ i3.sent = [mkHeader (htonl 0) (htonl 0) RDT_SYN, mkHeader (htonl 0) (htonl 0) RDT_ACK,
          data_segment 0 [65, 66, 67] 3, data_segment 1 [68, 69, 70] 3]
      ∧ i3.sequence_number = 2
      ∧ accept_connection ReliableSocket.new
          [⟨.datagram (mkHeader (htonl 0) (htonl 0) RDT_SYN), 0⟩,
            ⟨.datagram (mkHeader (htonl 0) (htonl 0) RDT_ACK), 20⟩]
        = .returned () l1 []
      ∧ l1.state = ESTABLISHED
      ∧ receive_data l1 [0, 0, 0] [⟨.datagram (mkHeader (htonl 0) (htonl 0) RDT_ACK), 0⟩]
        = .returned (0, [0, 0, 0]) l2 []
      ∧ l2.state = ESTABLISHED
      ∧ receive_data l2 [0, 0, 0]
          [⟨.datagram (data_segment 0 [65, 66, 67] 3), 0⟩,
            ⟨.datagram (data_segment 1 [68, 69, 70] 3), 0⟩]
        = .returned (3, [68, 69, 70]) l3 []
      ∧ l3.sent = [mkHeader (htonl 0) (htonl 0) RDT_SYNACK, mkHeader (htonl 0) (htonl 0) RDT_ACK,
          mkHeader (htonl 0) (htonl 0) RDT_ACK, mkHeader (htonl 1) (htonl 1) RDT_ACK]
      ∧ (∀ d ∈ [mkHeader (htonl 0) (htonl 0) RDT_SYN, mkHeader (htonl 0) (htonl 0) RDT_ACK,
          mkHeader (htonl 0) (htonl 0) RDT_ACK, data_segment 0 [65, 66, 67] 3,
          data_segment 1 [68, 69, 70] 3], d ∈ i3.sent)
      ∧ (∀ d ∈ [mkHeader (htonl 0) (htonl 0) RDT_SYNACK, mkHeader (htonl 0) (htonl 0) RDT_ACK,
          mkHeader (htonl 1) (htonl 1) RDT_ACK], d ∈ l3.sent)
      ∧ (∀ d ∈ i3.sent, hdr_type d ≠ RDT_FIN) :=
  ⟨_, _, _, _, _, _, rfl, rfl, rfl, rfl, rfl, rfl, rfl, rfl, rfl, rfl, rfl, rfl, rfl,
    by decide, by decide, by decide⟩

/-! ## What a call may change: the datagrams sent, never the counters -/

theorem onlySent_refl (P : List Byte → Prop) (s : ReliableSocket) : onlySent P s s :=
  ⟨rfl, rfl, fun _ h => Or.inl h⟩

theorem onlySent_trans {P : List Byte → Prop} {s s1 s2 : ReliableSocket}
    (h1 : onlySent P s s1) (h2 : onlySent P s1 s2) : onlySent P s s2 := by
  refine ⟨h2.1.trans h1.1, h2.2.1.trans h1.2.1, fun d hd => ?_⟩
  rcases h2.2.2 d hd with h | h
  · exact h1.2.2 d h
  · exact Or.inr h

theorem onlySent_mono {P Q : List Byte → Prop} {s s1 : ReliableSocket}
    (hPQ : ∀ d, P d → Q d) (h : onlySent P s s1) : onlySent Q s s1 :=
  ⟨h.1, h.2.1, fun d hd => (h.2.2 d hd).imp id (hPQ d)⟩

theorem onlySent_send (s : ReliableSocket) (seg : List Byte) (sz : Nat) :
    onlySent (fun d => d = seg.take sz) s (send s seg sz) := by
  refine ⟨rfl, rfl, fun d hd => ?_⟩
  simp only [send_sent, List.mem_append, List.mem_singleton] at hd
  exact hd

theorem send_and_wait_onlySent (seg : List Byte) (sz : Nat) :
    ∀ (script : List Recv) (s : ReliableSocket),
      onlySent (fun d => d = seg.take sz) s (send_and_wait s seg sz script).sock := by
  intro script
  induction script with
  | nil => intro s; exact onlySent_send s seg sz
  | cons r script ih =>
    intro s
    obtain ⟨res, m⟩ := r
    cases res with
    | timeout =>
      simp only [send_and_wait]
      have h1 : onlySent (fun d => d = seg.take sz) s { send s seg sz with curr_rtt := m } :=
        onlySent_send s seg sz
      exact onlySent_trans h1 (ih _)
    | error => exact onlySent_send s seg sz
    | datagram d => exact onlySent_send s seg sz

theorem send_and_timeout_onlySent (seg : List Byte) (sz : Nat) :
    ∀ (script : List Recv) (s : ReliableSocket),
      onlySent (fun d => d = seg.take sizeofRDTHeader) s (send_and_timeout s seg sz script).sock := by
  intro script
  induction script with
  | nil => intro s; exact onlySent_send s seg sizeofRDTHeader
  | cons r script ih =>
    intro s
    by_cases hr : silent r
    · rw [send_and_timeout_silent s seg sz r script hr]
      exact onlySent_send s seg sizeofRDTHeader
    · rw [send_and_timeout_loud s seg sz r script hr]
      have h1 : onlySent (fun d => d = seg.take sizeofRDTHeader) s
          { s with
            rcvtimeo := float_to_uint32 (s.estimated_rtt + s.dev_rtt * 4)
            sent := s.sent ++ [seg.take sizeofRDTHeader] } :=
        onlySent_send s seg sizeofRDTHeader
      exact onlySent_trans h1 (ih _)

theorem send_data_loop_onlySent (seg : List Byte) (len : Nat) :
    ∀ (fuel : Nat) (script : List Recv) (s : ReliableSocket),
      onlySent (fun d => d = seg.take (sizeofRDTHeader + len)) s
        (send_data_loop seg len fuel s script).sock := by
  intro fuel
  induction fuel with
  | zero => intro script s; exact onlySent_refl _ s
  | succ k ih =>
    intro script s
    have hw := send_and_wait_onlySent seg (sizeofRDTHeader + len) script s
    simp only [send_data_loop]
    cases hsw : send_and_wait s seg (sizeofRDTHeader + len) script with
    | returned v s1 rest =>
      rw [hsw] at hw
      simp only [Outcome.andThen]
      split_ifs
      · exact hw
      · exact onlySent_trans hw (ih rest s1)
      · exact onlySent_trans hw (ih rest s1)
    | blocked s1 => rw [hsw] at hw; exact hw
    | exited s1 rest => rw [hsw] at hw; exact hw
    | fault s1 rest => rw [hsw] at hw; exact hw

theorem receiver_handshake_loop_onlySent (seg : List Byte) :
    ∀ (fuel : Nat) (script : List Recv) (s : ReliableSocket),
      onlySent (fun d => d = seg.take sizeofRDTHeader) s
        (receiver_handshake_loop seg fuel s script).sock := by
  intro fuel
  induction fuel with
  | zero => intro script s; exact onlySent_refl _ s
  | succ k ih =>
    intro script s
    have hw := send_and_wait_onlySent seg sizeofRDTHeader script
      (set_timeout_length s (float_to_uint32 (s.estimated_rtt + 4 * s.dev_rtt)))
    have h0 : onlySent (fun d => d = seg.take sizeofRDTHeader) s
        (set_timeout_length s (float_to_uint32 (s.estimated_rtt + 4 * s.dev_rtt))) :=
      ⟨rfl, rfl, fun _ h => Or.inl h⟩
    simp only [receiver_handshake_loop]
    cases hsw : send_and_wait
        (set_timeout_length s (float_to_uint32 (s.estimated_rtt + 4 * s.dev_rtt))) seg
        sizeofRDTHeader script with
    | returned v s1 rest =>
      rw [hsw] at hw
      simp only [Outcome.andThen]
      split_ifs
      · exact onlySent_trans h0 hw
      · exact onlySent_trans h0 (onlySent_trans hw (ih rest s1))
    | blocked s1 => rw [hsw] at hw; exact onlySent_trans h0 hw
    | exited s1 rest => rw [hsw] at hw; exact onlySent_trans h0 hw
    | fault s1 rest => rw [hsw] at hw; exact onlySent_trans h0 hw

theorem sender_handshake_onlySent (script : List Recv) (s : ReliableSocket) :
    onlySent (fun d => hdr_type d ≠ RDT_DATA) s (sender_handshake s script).sock := by
  have hsyn : ∀ d, d = (mkHeader (htonl 0) (htonl 0) RDT_SYN).take sizeofRDTHeader →
      hdr_type d ≠ RDT_DATA := by
    intro d hd; rw [hd]; decide
  have hack : ∀ d, d = (mkHeader (htonl 0) (htonl 0) RDT_ACK).take sizeofRDTHeader →
      hdr_type d ≠ RDT_DATA := by
    intro d hd; rw [hd]; decide
  have hw := onlySent_mono hsyn
    (send_and_wait_onlySent (mkHeader (htonl 0) (htonl 0) RDT_SYN) sizeofRDTHeader script s)
  simp only [sender_handshake]
  cases hsw : send_and_wait s (mkHeader (htonl 0) (htonl 0) RDT_SYN) sizeofRDTHeader script with
  | returned v s1 rest =>
    rw [hsw] at hw
    simp only [Outcome.andThen]
    split_ifs
    · exact hw
    · have ht := onlySent_mono hack
        (send_and_timeout_onlySent (mkHeader (htonl 0) (htonl 0) RDT_ACK) sizeofRDTHeader rest s1)
      cases hst : send_and_timeout s1 (mkHeader (htonl 0) (htonl 0) RDT_ACK) sizeofRDTHeader
          rest with
      | returned v2 s2 rest2 => rw [hst] at ht; exact onlySent_trans hw ht
      | blocked s2 => rw [hst] at ht; exact onlySent_trans hw ht
      | exited s2 rest2 => rw [hst] at ht; exact onlySent_trans hw ht
      | fault s2 rest2 => rw [hst] at ht; exact onlySent_trans hw ht
  | blocked s1 => rw [hsw] at hw; exact hw
  | exited s1 rest => rw [hsw] at hw; exact hw
  | fault s1 rest => rw [hsw] at hw; exact hw

/-- A socket on which `connect_to_remote` returned is `ESTABLISHED`, its counter
is the one it had, and the call sent no DATA segment. -/
theorem connect_to_remote_returned (s i0 : ReliableSocket) (script rest : List Recv)
    (hs : s.state = INIT) (h : connect_to_remote s script = .returned () i0 rest) :
    i0.state = ESTABLISHED ∧ i0.sequence_number = s.sequence_number
      ∧ ∀ d ∈ i0.sent, d ∈ s.sent ∨ hdr_type d ≠ RDT_DATA := by
  have hh := sender_handshake_onlySent script s
  simp only [connect_to_remote, hs, ne_eq, not_true_eq_false, if_false] at h
  cases hsh : sender_handshake s script with
  | returned v s1 rest1 =>
    rw [hsh] at h hh
    simp only [Outcome.andThen, Outcome.returned.injEq, true_and] at h
    obtain ⟨h1, -⟩ := h
    subst h1
    exact ⟨rfl, hh.1, hh.2.2⟩
  | blocked s1 => rw [hsh] at h; simp [Outcome.andThen] at h
  | exited s1 rest1 => rw [hsh] at h; simp [Outcome.andThen] at h
  | fault s1 rest1 => rw [hsh] at h; simp [Outcome.andThen] at h

/-- A socket on which `accept_connection` returned has the counter it had. -/
theorem accept_connection_returned (s l0 : ReliableSocket) (script rest : List Recv)
    (h : accept_connection s script = .returned () l0 rest) :
    l0.sequence_number = s.sequence_number := by
  unfold accept_connection at h
  split_ifs at h with hst
  cases script with
  | nil => simp at h
  | cons r script =>
    obtain ⟨res, m⟩ := r
    cases res with
    | timeout => simp at h
    | error => simp at h
    | datagram d =>
      simp only at h
      have hl := receiver_handshake_loop_onlySent (mkHeader (htonl 0) (htonl 0) RDT_SYNACK)
        (script.length + 1) script s
      unfold receiver_handshake at h
      split_ifs at h with hty
      · simp only [Outcome.andThen, Bool.false_eq_true, if_false, Outcome.returned.injEq,
          true_and] at h
        rw [← h.1]
      · cases hrl : receiver_handshake_loop (mkHeader (htonl 0) (htonl 0) RDT_SYNACK)
            (script.length + 1) s script with
        | returned v s1 rest1 =>
          rw [hrl] at h hl
          simp only [Outcome.andThen] at h
          split_ifs at h
          · simp only [Outcome.returned.injEq, true_and] at h
            rw [← h.1]
            exact hl.1
          · simp only [Outcome.returned.injEq, true_and] at h
            rw [← h.1]
            exact hl.1
        | blocked s1 => rw [hrl] at h; simp [Outcome.andThen] at h
        | exited s1 rest1 => rw [hrl] at h; simp [Outcome.andThen] at h
        | fault s1 rest1 => rw [hrl] at h; simp [Outcome.andThen] at h

theorem send_data_sent (s : ReliableSocket) (p : List Byte) (len : Nat) (script : List Recv)
    (hs : s.state = ESTABLISHED) :
    (∀ d ∈ (send_data s p len script).sock.sent,
        d ∈ s.sent ∨ d = data_segment s.sequence_number p len)
    ∧ ∀ s1 rest, send_data s p len script = .returned () s1 rest →
        s1.state = ESTABLISHED ∧ s1.sequence_number = (s.sequence_number + 1) % 2 ^ 32 := by
  have hl := send_data_loop_onlySent (data_segment s.sequence_number p len) len
    (script.length + 1) script s
  rw [data_segment_take] at hl
  simp only [send_data, hs, ne_eq, not_true_eq_false, if_false]
  cases hsl : send_data_loop (data_segment s.sequence_number p len) len (script.length + 1) s
      script with
  | returned v s1 rest =>
    rw [hsl] at hl
    refine ⟨hl.2.2, fun s2 rest2 h => ?_⟩
    simp only [Outcome.andThen, Outcome.returned.injEq, true_and] at h
    rw [← h.1]
    have h1 : s1.sequence_number = s.sequence_number := hl.1
    exact ⟨hl.2.1.trans hs, by simp [h1]⟩
  | blocked s1 =>
    rw [hsl] at hl
    exact ⟨hl.2.2, fun s2 rest2 h => by simp [Outcome.andThen] at h⟩
  | exited s1 rest =>
    rw [hsl] at hl
    exact ⟨hl.2.2, fun s2 rest2 h => by simp [Outcome.andThen] at h⟩
  | fault s1 rest =>
    rw [hsl] at hl
    exact ⟨hl.2.2, fun s2 rest2 h => by simp [Outcome.andThen] at h⟩

/-! ## The sending application -/

theorem send_all_sent :
    ∀ (payloads : List (List Byte)) (s : ReliableSocket) (script : List Recv),
      s.state = ESTABLISHED → s.sequence_number + payloads.length < 2 ^ 32 →
      (∃ n, (send_all s payloads script).2 = payloads.take n)
      ∧ ∀ d ∈ (send_all s payloads script).1.sent,
          d ∈ s.sent ∨ ∃ idx p, (send_all s payloads script).2[idx]? = some p
            ∧ d = data_segment (s.sequence_number + idx) p p.length := by
  intro payloads
  induction payloads with
  | nil =>
    intro s script _ _
    exact ⟨⟨0, rfl⟩, fun d hd => Or.inl hd⟩
  | cons p ps ih =>
    intro s script hs hlen
    obtain ⟨hsent, hret⟩ := send_data_sent s p p.length script hs
    have hone : ∀ s1 : ReliableSocket,
        (∀ d ∈ s1.sent, d ∈ s.sent ∨ d = data_segment s.sequence_number p p.length) →
        (∃ n, [p] = (p :: ps).take n)
        ∧ ∀ d ∈ s1.sent, d ∈ s.sent ∨ ∃ idx q, [p][idx]? = some q
            ∧ d = data_segment (s.sequence_number + idx) q q.length := by
      intro s1 h1
      refine ⟨⟨1, by simp⟩, fun d hd => ?_⟩
      rcases h1 d hd with h | h
      · exact Or.inl h
      · exact Or.inr ⟨0, p, by simp, by simpa using h⟩
    cases hsd : send_data s p p.length script with
    | returned v s1 rest =>
      rw [hsd] at hsent
      obtain ⟨hst1, hseq1⟩ := hret s1 rest (by rw [hsd])
      simp only [List.length_cons] at hlen
      rw [Nat.mod_eq_of_lt (by omega)] at hseq1
      obtain ⟨⟨n, hn⟩, ihsent⟩ := ih s1 rest hst1 (by omega)
      simp only [send_all, hsd]
      refine ⟨⟨n + 1, by simp [hn]⟩, fun d hd => ?_⟩
      rcases ihsent d hd with h | ⟨idx, q, hq, hdq⟩
      · rcases hsent d h with h0 | h0
        · exact Or.inl h0
        · exact Or.inr ⟨0, p, by simp, by simpa using h0⟩
      · refine Or.inr ⟨idx + 1, q, by simpa using hq, ?_⟩
        rw [hdq, hseq1]
        congr 1
        omega
    | blocked s1 =>
      rw [hsd] at hsent
      simp only [send_all, hsd]
      exact hone s1 hsent
    | exited s1 rest =>
      rw [hsd] at hsent
      simp only [send_all, hsd]
      exact hone s1 hsent
    | fault s1 rest =>
      rw [hsd] at hsent
      simp only [send_all, hsd]
      exact hone s1 hsent

/-! ## The receiving application -/

theorem receive_data_in_order (begun : List (List Byte)) (buffer : List Byte)
    (hsize : ∀ p ∈ begun, p.length ≤ MAX_DATA_SIZE) (hcount : begun.length < 2 ^ 32) :
    ∀ (script : List Recv) (l : ReliableSocket) (v : Int × List Byte) (l1 : ReliableSocket)
      (rest : List Recv),
      l.state = ESTABLISHED →
      (∀ r ∈ script, ∀ d, r.result = .datagram d →
        ∃ idx p, begun[idx]? = some p ∧ d = data_segment idx p p.length) →
      receive_data l buffer script = .returned v l1 rest →
      ∃ p, begun[l.sequence_number]? = some p
        ∧ v = ((p.length : Int), p ++ buffer.drop p.length)
        ∧ l1.state = ESTABLISHED ∧ l1.sequence_number = l.sequence_number + 1
        ∧ ∀ r ∈ rest, r ∈ script := by
  intro script
  induction script with
  | nil =>
    intro l v l1 rest hl _ h
    rw [receive_data_nil l buffer hl] at h
    exact absurd h (by simp)
  | cons r script ih =>
    intro l v l1 rest hl hscript h
    have hscript1 : ∀ r1 ∈ script, ∀ d, r1.result = .datagram d →
        ∃ idx p, begun[idx]? = some p ∧ d = data_segment idx p p.length :=
      fun r1 h1 => hscript r1 (List.mem_cons_of_mem _ h1)
    have lift : ∀ (l0 : ReliableSocket), l0.state = ESTABLISHED →
        l0.sequence_number = l.sequence_number →
        receive_data l0 buffer script = .returned v l1 rest →
        ∃ p, begun[l.sequence_number]? = some p
          ∧ v = ((p.length : Int), p ++ buffer.drop p.length)
          ∧ l1.state = ESTABLISHED ∧ l1.sequence_number = l.sequence_number + 1
          ∧ ∀ r1 ∈ rest, r1 ∈ r :: script := by
      intro l0 hl0 hq0 h0
      obtain ⟨p, hp, hv, hst, hsq, hrest⟩ := ih l0 v l1 rest hl0 hscript1 h0
      exact ⟨p, by rw [← hq0]; exact hp, hv, hst, by rw [hsq, hq0],
        fun r1 h1 => List.mem_cons_of_mem _ (hrest r1 h1)⟩
    obtain ⟨res, m⟩ := r
    cases res with
    | timeout =>
      rw [receive_data_timeout_step l buffer m script hl] at h
      refine lift _ ?_ ?_ h
      · exact hl
      · rfl
    | error =>
      rw [receive_data, if_neg (by simp [hl])] at h
      simp at h
    | datagram d =>
      obtain ⟨idx, p, hidx, hd⟩ := hscript ⟨.datagram d, m⟩ (List.mem_cons_self _ _) d rfl
      have hlt : idx < begun.length := by
        rcases Nat.lt_or_ge idx begun.length with h1 | h1
        · exact h1
        · rw [List.getElem?_eq_none h1] at hidx
          exact absurd hidx (by simp)
      have hmem : p ∈ begun := List.getElem?_mem hidx
      subst hd
      by_cases hseq : idx = l.sequence_number
      · rw [receive_data_accepts l buffer idx p m script hl hseq.symm (by omega)
          (hsize p hmem)] at h
        simp only [Outcome.returned.injEq] at h
        obtain ⟨hv, hl1, hrest⟩ := h
        refine ⟨p, by rw [← hseq]; exact hidx, hv.symm, by rw [← hl1]; exact hl, ?_, ?_⟩
        · rw [← hl1, ← hseq]
          exact Nat.mod_eq_of_lt (by omega)
        · intro r1 h1
          rw [← hrest] at h1
          exact List.mem_cons_of_mem _ h1
      · have hne : ntohl (hdr_sequence_number (data_segment idx p p.length))
            ≠ l.sequence_number := by
          rw [data_segment_sequence_number, ntohl_htonl, Nat.mod_eq_of_lt (by omega)]
          exact hseq
        rw [receive_data_datagram_step l buffer _ m script hl,
          if_neg (by rw [(data_segment_header idx p p.length).1]; decide), if_neg hne] at h
        refine lift _ ?_ ?_ h
        · exact hl
        · rfl

theorem receive_all_in_order (begun : List (List Byte))
    (hsize : ∀ p ∈ begun, p.length ≤ MAX_DATA_SIZE) (hcount : begun.length < 2 ^ 32) :
    ∀ (calls : Nat) (script : List Recv) (l : ReliableSocket) (buffer : List Byte),
      l.state = ESTABLISHED →
      (∀ r ∈ script, ∀ d, r.result = .datagram d →
        ∃ idx p, begun[idx]? = some p ∧ d = data_segment idx p p.length) →
      ∃ n, delivered (receive_all l buffer calls script)
        = (begun.drop l.sequence_number).take n := by
  intro calls
  induction calls with
  | zero =>
    intro script l buffer _ _
    exact ⟨0, by simp [receive_all, delivered]⟩
  | succ k ih =>
    intro script l buffer hl hscript
    cases hrd : receive_data l buffer script with
    | returned v l1 rest =>
      obtain ⟨p, hp, hv, hst, hsq, hrest⟩ :=
        receive_data_in_order begun buffer hsize hcount script l v l1 rest hl hscript hrd
      obtain ⟨n, hn⟩ := ih rest l1 v.2 hst (fun r hr => hscript r (hrest r hr))
      obtain ⟨hlt, hget⟩ := List.getElem?_eq_some_iff.mp hp
      refine ⟨n + 1, ?_⟩
      simp only [receive_all, hrd]
      rw [List.drop_eq_getElem_cons hlt, List.take_succ_cons, hget, ← hsq, ← hn]
      subst hv
      simp [delivered]
    | blocked l1 => exact ⟨0, by simp [receive_all, hrd, delivered]⟩
    | exited l1 rest => exact ⟨0, by simp [receive_all, hrd, delivered]⟩
    | fault l1 rest => exact ⟨0, by simp [receive_all, hrd, delivered]⟩

theorem receive_all_not_established :
    ∀ (calls : Nat) (script : List Recv) (l : ReliableSocket) (buffer : List Byte),
      l.state ≠ ESTABLISHED → delivered (receive_all l buffer calls script) = [] := by
  intro calls
  induction calls with
  | zero => intro script l buffer _; simp [receive_all, delivered]
  | succ k ih =>
    intro script l buffer hl
    have h : receive_data l buffer script = .returned (-1, buffer) l script := by
      rw [receive_data, if_pos hl]
    have h1 := ih script l buffer hl
    simp only [receive_all, h]
    simp only [delivered, List.filterMap_cons] at h1 ⊢
    simpa using h1

theorem mem_datagrams (script : List Recv) (r : Recv) (d : List Byte) (hr : r ∈ script)
    (hd : r.result = .datagram d) : d ∈ datagrams script := by
  unfold datagrams
  rw [List.mem_filterMap]
  exact ⟨r, hr, by rw [hd]⟩

/-! ## The two endpoints together -/

/-- C1, as the code has it.  An initiator connects and calls `send_data` for
payloads of at most `MAX_DATA_SIZE` octets, fewer than `2 ^ 32` of them; a
listener accepts and calls `receive_data` any number of times.  The channel may
lose, duplicate and reorder: it is only required that every datagram offered to
the listener's `receive_data` calls is of type `RDT_DATA` and is in the log of
what the initiator sent.  Then the payloads returned by the listener's calls, in
order, are the first `n` payloads of the `send_data` calls begun so far (none
lost, repeated, reordered or invented), and a call returns `0` only if an empty
payload was passed to `send_data`. -/
theorem in_order_delivery (si sl srest lrest : List Recv) (i0 l0 : ReliableSocket)
    (payloads : List (List Byte)) (calls : Nat) (buffer : List Byte)
    (hi : connect_to_remote ReliableSocket.new si = .returned () i0 srest)
    (hl : accept_connection ReliableSocket.new sl = .returned () l0 lrest)
    (hsize : ∀ p ∈ payloads, p.length ≤ MAX_DATA_SIZE) (hcount : payloads.length < 2 ^ 32)
    (hchan : ∀ d ∈ datagrams lrest,
      hdr_type d = RDT_DATA ∧ d ∈ (send_all i0 payloads srest).1.sent) :
    (∃ m, (send_all i0 payloads srest).2 = payloads.take m)
    ∧ (∃ n, n ≤ (send_all i0 payloads srest).2.length
        ∧ delivered (receive_all l0 buffer calls lrest)
            = (send_all i0 payloads srest).2.take n)
    ∧ ∀ v ∈ receive_all l0 buffer calls lrest, v.1 = 0 →
        ([] : List Byte) ∈ (send_all i0 payloads srest).2 := by
  obtain ⟨hist, hiseq, hisent⟩ := connect_to_remote_returned _ i0 si srest rfl hi
  have hlseq : l0.sequence_number = 0 := accept_connection_returned _ l0 sl lrest hl
  have hiseq0 : i0.sequence_number = 0 := hiseq
  obtain ⟨⟨m, hm⟩, hsent⟩ := send_all_sent payloads i0 srest hist (by rw [hiseq0]; omega)
  have hbsize : ∀ p ∈ (send_all i0 payloads srest).2, p.length ≤ MAX_DATA_SIZE := by
    intro p hp
    rw [hm] at hp
    exact hsize p (List.mem_of_mem_take hp)
  have hbcount : (send_all i0 payloads srest).2.length < 2 ^ 32 := by
    rw [hm, List.length_take]
    omega
  have hscript : ∀ r ∈ lrest, ∀ d, r.result = .datagram d →
      ∃ idx p, (send_all i0 payloads srest).2[idx]? = some p
        ∧ d = data_segment idx p p.length := by
    intro r hr d hd
    obtain ⟨hty, hmem⟩ := hchan d (mem_datagrams lrest r d hr hd)
    rcases hsent d hmem with h | ⟨idx, p, hp, hdp⟩
    · rcases hisent d h with h1 | h1
      · exact absurd h1 (by simp [ReliableSocket.new])
      · exact absurd hty h1
    · exact ⟨idx, p, hp, by rw [hdp, hiseq0, Nat.zero_add]⟩
  have hpre : ∃ n, n ≤ (send_all i0 payloads srest).2.length
      ∧ delivered (receive_all l0 buffer calls lrest)
          = (send_all i0 payloads srest).2.take n := by
    by_cases hlst : l0.state = ESTABLISHED
    · obtain ⟨n, hn⟩ := receive_all_in_order _ hbsize hbcount calls lrest l0 buffer hlst hscript
      rw [hlseq, List.drop_zero] at hn
      refine ⟨min n (send_all i0 payloads srest).2.length, Nat.min_le_right _ _, ?_⟩
      rw [hn, List.take_eq_take]
      simp
    · exact ⟨0, Nat.zero_le _, by
        rw [receive_all_not_established calls lrest l0 buffer hlst, List.take_zero]⟩
  refine ⟨⟨m, hm⟩, hpre, fun v hv hzero => ?_⟩
  obtain ⟨n, -, hn⟩ := hpre
  have hmem : ([] : List Byte) ∈ delivered (receive_all l0 buffer calls lrest) := by
    unfold delivered
    rw [List.mem_filterMap]
    exact ⟨v, hv, by simp [hzero]⟩
  rw [hn] at hmem
  exact List.mem_of_mem_take hmem

theorem in_order_delivery_witness :
    ∃ (i0 l0 : ReliableSocket) (srest lrest : List Recv),
      connect_to_remote ReliableSocket.new
          [⟨.datagram (mkHeader (htonl 0) (htonl 0) RDT_SYNACK), 20⟩, ⟨.timeout, 95⟩,
            ⟨.timeout, 150⟩, ⟨.datagram (mkHeader (htonl 0) (htonl 0) RDT_ACK), 20⟩,
            ⟨.datagram (mkHeader (htonl 0) (htonl 0) RDT_ACK), 20⟩,
            ⟨.datagram (mkHeader (htonl 1) (htonl 1) RDT_ACK), 20⟩]
        = .returned () i0 srest
      ∧ accept_connection ReliableSocket.new
          [⟨.datagram (mkHeader (htonl 0) (htonl 0) RDT_SYN), 0⟩,
            ⟨.datagram (mkHeader (htonl 0) (htonl 0) RDT_ACK), 20⟩,
            ⟨.datagram (data_segment 0 [65, 66, 67] 3), 0⟩,
            ⟨.datagram (data_segment 0 [65, 66, 67] 3), 0⟩,
            ⟨.datagram (data_segment 1 [68, 69, 70] 3), 0⟩,
            ⟨.datagram (data_segment 1 [68, 69, 70] 3), 0⟩]
        = .returned () l0 lrest
      ∧ (∀ d ∈ datagrams lrest, hdr_type d = RDT_DATA
          ∧ d ∈ (send_all i0 [[65, 66, 67], [68, 69, 70]] srest).1.sent)
      ∧ (send_all i0 [[65, 66, 67], [68, 69, 70]] srest).2 = [[65, 66, 67], [68, 69, 70]]
      ∧ delivered (receive_all l0 [0, 0, 0] 2 lrest) = [[65, 66, 67], [68, 69, 70]]
      ∧ ∃ n, n ≤ (send_all i0 [[65, 66, 67], [68, 69, 70]] srest).2.length
          ∧ delivered (receive_all l0 [0, 0, 0] 2 lrest)
              = (send_all i0 [[65, 66, 67], [68, 69, 70]] srest).2.take n :=
  ⟨_, _, _, _, rfl, rfl, by decide, by decide, by decide,
    (in_order_delivery
      [⟨.datagram (mkHeader (htonl 0) (htonl 0) RDT_SYNACK), 20⟩, ⟨.timeout, 95⟩,
        ⟨.timeout, 150⟩, ⟨.datagram (mkHeader (htonl 0) (htonl 0) RDT_ACK), 20⟩,
        ⟨.datagram (mkHeader (htonl 0) (htonl 0) RDT_ACK), 20⟩,
        ⟨.datagram (mkHeader (htonl 1) (htonl 1) RDT_ACK), 20⟩]
      [⟨.datagram (mkHeader (htonl 0) (htonl 0) RDT_SYN), 0⟩,
        ⟨.datagram (mkHeader (htonl 0) (htonl 0) RDT_ACK), 20⟩,
        ⟨.datagram (data_segment 0 [65, 66, 67] 3), 0⟩,
        ⟨.datagram (data_segment 0 [65, 66, 67] 3), 0⟩,
        ⟨.datagram (data_segment 1 [68, 69, 70] 3), 0⟩,
        ⟨.datagram (data_segment 1 [68, 69, 70] 3), 0⟩]
      _ _ _ _ [[65, 66, 67], [68, 69, 70]] 2 [0, 0, 0] rfl rfl
      (by decide) (by decide) (by decide)).2.1⟩

/-- C1, as stated, fails: the initiator connects and passes an empty payload to
`send_data`, and every datagram is delivered once.  The listener's
`receive_data` returns `0` with the state still `ESTABLISHED`, although no FIN
is among the datagrams the initiator sent. -/
theorem empty_payload_returns_zero_before_fin :
    ∃ i0 i1 l0 l1 : ReliableSocket,
      connect_to_remote ReliableSocket.new
          [⟨.datagram (mkHeader (htonl 0) (htonl 0) RDT_SYNACK), 20⟩, ⟨.timeout, 95⟩]
        = .returned () i0 []
      ∧ send_data i0 [] 0 [⟨.datagram (mkHeader (htonl 0) (htonl 0) RDT_ACK), 20⟩]
        = .returned () i1 []
      ∧ i1.sent = [mkHeader (htonl 0) (htonl 0) RDT_SYN, mkHeader (htonl 0) (htonl 0) RDT_ACK,
          data_segment 0 [] 0]
      ∧ (∀ d ∈ i1.sent, hdr_type d ≠ RDT_FIN)
      ∧ accept_connection ReliableSocket.new
          [⟨.datagram (mkHeader (htonl 0) (htonl 0) RDT_SYN), 0⟩,
            ⟨.datagram (mkHeader (htonl 0) (htonl 0) RDT_ACK), 20⟩]
        = .returned () l0 []
      ∧ receive_data l0 [9, 9, 9] [⟨.datagram (data_segment 0 [] 0), 0⟩]
        = .returned (0, [9, 9, 9]) l1 []
      ∧ l1.state = ESTABLISHED
      ∧ l1.sent = [mkHeader (htonl 0) (htonl 0) RDT_SYNACK, mkHeader (htonl 0) (htonl 0) RDT_ACK] :=
  ⟨_, _, _, _, rfl, rfl, rfl, by decide, rfl, rfl, rfl, rfl⟩

/-! ## The opening handshake -/

@[simp] theorem send_expected_sequence_number (s : ReliableSocket) (seg : List Byte) (n : Nat) :
    (send s seg n).expected_sequence_number = s.expected_sequence_number := rfl
@[simp] theorem set_estimated_rtt_expected_sequence_number (s : ReliableSocket) :
    (set_estimated_rtt s).expected_sequence_number = s.expected_sequence_number := rfl
@[simp] theorem set_timeout_length_sequence_number (s : ReliableSocket) (n : Nat) :
    (set_timeout_length s n).sequence_number = s.sequence_number := rfl
@[simp] theorem set_timeout_length_expected_sequence_number (s : ReliableSocket) (n : Nat) :
    (set_timeout_length s n).expected_sequence_number = s.expected_sequence_number := rfl
@[simp] theorem set_timeout_length_state (s : ReliableSocket) (n : Nat) :
    (set_timeout_length s n).state = s.state := rfl
@[simp] theorem set_timeout_length_sent (s : ReliableSocket) (n : Nat) :
    (set_timeout_length s n).sent = s.sent := rfl

theorem receiver_handshake_loop_timeout (seg : List Byte) (fuel : Nat) (s : ReliableSocket)
    (m : Int) (rest : List Recv) :
    receiver_handshake_loop seg (fuel + 1) s (⟨.timeout, m⟩ :: rest)
      = receiver_handshake_loop seg (fuel + 1)
          { send (set_timeout_length s (float_to_uint32 (s.estimated_rtt + 4 * s.dev_rtt))) seg
              sizeofRDTHeader with curr_rtt := m } rest := by
  simp only [receiver_handshake_loop, send_and_wait]
  rfl

theorem receiver_handshake_loop_wrong (seg : List Byte) (fuel : Nat) (s : ReliableSocket)
    (bs : List Byte) (m : Int) (rest : List Recv) (h : hdr_type bs ≠ RDT_ACK) :
    receiver_handshake_loop seg (fuel + 1) s (⟨.datagram bs, m⟩ :: rest)
      = receiver_handshake_loop seg fuel
          (set_estimated_rtt
            { send (set_timeout_length s (float_to_uint32 (s.estimated_rtt + 4 * s.dev_rtt))) seg
                sizeofRDTHeader with curr_rtt := m }) rest := by
  simp only [receiver_handshake_loop, send_and_wait, Outcome.andThen, hdr_type_take]
  rw [if_neg h]

theorem receiver_handshake_loop_ack (seg : List Byte) (fuel : Nat) (s : ReliableSocket)
    (bs : List Byte) (m : Int) (rest : List Recv) (h : hdr_type bs = RDT_ACK) :
    receiver_handshake_loop seg (fuel + 1) s (⟨.datagram bs, m⟩ :: rest)
      = .returned true
          (set_estimated_rtt
            { send (set_timeout_length s (float_to_uint32 (s.estimated_rtt + 4 * s.dev_rtt))) seg
                sizeofRDTHeader with curr_rtt := m }) rest := by
  simp only [receiver_handshake_loop, send_and_wait, Outcome.andThen, hdr_type_take]
  rw [if_pos h]

theorem receiver_handshake_loop_run (seg : List Byte) :
    ∀ (pre : List Recv) (fuel : Nat) (s : ReliableSocket),
      (∀ r ∈ pre, wrongReply RDT_ACK r) → pre.length < fuel →
      (∀ (ack : List Byte) (m : Int) (rest : List Recv), hdr_type ack = RDT_ACK →
          ∃ s1, receiver_handshake_loop seg fuel s (pre ++ ⟨.datagram ack, m⟩ :: rest)
                = .returned true s1 rest
            ∧ s1.sequence_number = s.sequence_number
            ∧ s1.expected_sequence_number = s.expected_sequence_number
            ∧ s1.state = s.state
            ∧ s1.sent = s.sent ++ List.replicate (pre.length + 1) (seg.take sizeofRDTHeader))
      ∧ (∃ s1, receiver_handshake_loop seg fuel s pre = .blocked s1
            ∧ s1.sequence_number = s.sequence_number
            ∧ s1.expected_sequence_number = s.expected_sequence_number
            ∧ s1.state = s.state
            ∧ s1.sent = s.sent ++ List.replicate (pre.length + 1) (seg.take sizeofRDTHeader)) := by
  intro pre
  induction pre with
  | nil =>
    intro fuel s _ hfuel
    obtain ⟨k, rfl⟩ : ∃ k, fuel = k + 1 := ⟨fuel - 1, by simp at hfuel; omega⟩
    refine ⟨fun ack m rest hack => ?_, ?_⟩
    · exact ⟨_, by simpa using receiver_handshake_loop_ack seg k s ack m rest hack,
        by simp, by simp, by simp, by simp⟩
    · exact ⟨send (set_timeout_length s (float_to_uint32 (s.estimated_rtt + 4 * s.dev_rtt))) seg
          sizeofRDTHeader,
        by simp [receiver_handshake_loop, send_and_wait, Outcome.andThen], by simp, by simp,
        by simp, by simp⟩
  | cons r pre ih =>
    intro fuel s hpre hfuel
    obtain ⟨k, rfl⟩ : ∃ k, fuel = k + 1 := ⟨fuel - 1, by simp at hfuel; omega⟩
    have hr := hpre r (List.mem_cons_self _ _)
    have hpre1 : ∀ r1 ∈ pre, wrongReply RDT_ACK r1 :=
      fun r1 h1 => hpre r1 (List.mem_cons_of_mem _ h1)
    obtain ⟨res, m⟩ := r
    cases res with
    | timeout =>
      have hlen : pre.length < k + 1 := by simp at hfuel; omega
      obtain ⟨ih1, s2, e2, q2, x2, t2, l2⟩ := ih (k + 1)
        { send (set_timeout_length s (float_to_uint32 (s.estimated_rtt + 4 * s.dev_rtt))) seg
            sizeofRDTHeader with curr_rtt := m } hpre1 hlen
      refine ⟨fun ack m1 rest hack => ?_, ?_⟩
      · obtain ⟨s1, e1, q1, x1, t1, l1⟩ := ih1 ack m1 rest hack
        refine ⟨s1, ?_, q1, x1, t1, ?_⟩
        · rw [List.cons_append, receiver_handshake_loop_timeout]; exact e1
        · rw [l1]; simp [List.replicate_succ]
      · refine ⟨s2, ?_, q2, x2, t2, ?_⟩
        · rw [receiver_handshake_loop_timeout]; exact e2
        · rw [l2]; simp [List.replicate_succ]
    | error => exact absurd hr (by simp [wrongReply])
    | datagram bs =>
      have hbs : hdr_type bs ≠ RDT_ACK := hr
      have hlen : pre.length < k := by simp at hfuel; omega
      obtain ⟨ih1, s2, e2, q2, x2, t2, l2⟩ := ih k
        (set_estimated_rtt
          { send (set_timeout_length s (float_to_uint32 (s.estimated_rtt + 4 * s.dev_rtt))) seg
              sizeofRDTHeader with curr_rtt := m }) hpre1 hlen
      refine ⟨fun ack m1 rest hack => ?_, ?_⟩
      · obtain ⟨s1, e1, q1, x1, t1, l1⟩ := ih1 ack m1 rest hack
        refine ⟨s1, ?_, q1, x1, t1, ?_⟩
        · rw [List.cons_append, receiver_handshake_loop_wrong _ _ _ _ _ _ hbs]; exact e1
        · rw [l1]; simp [List.replicate_succ]
      · refine ⟨s2, ?_, q2, x2, t2, ?_⟩
        · rw [receiver_handshake_loop_wrong _ _ _ _ _ _ hbs]; exact e2
        · rw [l2]; simp [List.replicate_succ]

/-- C12 (listener handshake).  If the first datagram `accept_connection` receives
is a SYN and the replies that follow are `pre`, made of timeouts and segments
that are not ACKs, and then an ACK, the listener sends the SYNACK (sequence and
acknowledgment number `0`) once for each reply and nothing else, and returns
`ESTABLISHED` with both counters as they were (`0` on a constructed socket); on
`pre` alone it is still blocked in state `INIT`. -/
theorem accept_connection_handshake (s : ReliableSocket) (syn : List Byte) (msec0 : Int)
    (pre : List Recv) (ack : List Byte) (msec : Int) (rest : List Recv)
    (hs : s.state = INIT) (hsyn : hdr_type syn = RDT_SYN)
    (hpre : ∀ r ∈ pre, wrongReply RDT_ACK r) (hack : hdr_type ack = RDT_ACK) :
    (∃ s1, accept_connection s (⟨.datagram syn, msec0⟩ :: (pre ++ ⟨.datagram ack, msec⟩ :: rest))
          = .returned () s1 rest
        ∧ s1.state = ESTABLISHED
        ∧ s1.sequence_number = s.sequence_number
        ∧ s1.expected_sequence_number = s.expected_sequence_number
        ∧ s1.sent = s.sent
            ++ List.replicate (pre.length + 1) (mkHeader (htonl 0) (htonl 0) RDT_SYNACK))
    ∧ (∃ s2, accept_connection s (⟨.datagram syn, msec0⟩ :: pre) = .blocked s2
        ∧ s2.state = INIT
        ∧ s2.sent = s.sent
            ++ List.replicate (pre.length + 1) (mkHeader (htonl 0) (htonl 0) RDT_SYNACK))
    ∧ hdr_type (mkHeader (htonl 0) (htonl 0) RDT_SYNACK) = RDT_SYNACK
    ∧ ntohl (hdr_sequence_number (mkHeader (htonl 0) (htonl 0) RDT_SYNACK)) = 0
    ∧ ntohl (hdr_ack_number (mkHeader (htonl 0) (htonl 0) RDT_SYNACK)) = 0 := by
  have htake : (mkHeader (htonl 0) (htonl 0) RDT_SYNACK).take sizeofRDTHeader
      = mkHeader (htonl 0) (htonl 0) RDT_SYNACK := by decide
  refine ⟨?_, ?_, by decide, by decide, by decide⟩
  · obtain ⟨h1, -⟩ := receiver_handshake_loop_run (mkHeader (htonl 0) (htonl 0) RDT_SYNACK) pre
      ((pre ++ ⟨.datagram ack, msec⟩ :: rest).length + 1) s hpre (by simp; omega)
    obtain ⟨s1, e1, q1, x1, t1, l1⟩ := h1 ack msec rest hack
    refine ⟨{ s1 with state := ESTABLISHED }, ?_, rfl, q1, x1, ?_⟩
    · simp only [accept_connection, hs, ne_eq, not_true_eq_false, if_false, receiver_handshake,
        hdr_type_take, hsyn, e1, Outcome.andThen, if_true]
    · rw [htake] at l1
      exact l1
  · obtain ⟨-, s2, e2, -, -, t2, l2⟩ := receiver_handshake_loop_run
      (mkHeader (htonl 0) (htonl 0) RDT_SYNACK) pre (pre.length + 1) s hpre (by omega)
    refine ⟨s2, ?_, t2.trans hs, ?_⟩
    · simp only [accept_connection, hs, ne_eq, not_true_eq_false, if_false, receiver_handshake,
        hdr_type_take, hsyn, e2, Outcome.andThen]
    · rw [htake] at l2
      exact l2

theorem accept_connection_handshake_witness :
    (∃ s1, accept_connection ReliableSocket.new
          (⟨.datagram (mkHeader (htonl 0) (htonl 0) RDT_SYN), 0⟩
            :: ([⟨.timeout, 140⟩, ⟨.datagram (mkHeader (htonl 0) (htonl 0) RDT_SYN), 3⟩]
              ++ ⟨.datagram (mkHeader (htonl 0) (htonl 0) RDT_ACK), 20⟩ :: []))
          = .returned () s1 []
        ∧ s1.state = ESTABLISHED
        ∧ s1.sequence_number = 0
        ∧ s1.expected_sequence_number = 0
        ∧ s1.sent = [] ++ List.replicate (2 + 1) (mkHeader (htonl 0) (htonl 0) RDT_SYNACK))
    ∧ (∃ s2, accept_connection ReliableSocket.new
          (⟨.datagram (mkHeader (htonl 0) (htonl 0) RDT_SYN), 0⟩
            :: [⟨.timeout, 140⟩, ⟨.datagram (mkHeader (htonl 0) (htonl 0) RDT_SYN), 3⟩])
          = .blocked s2
        ∧ s2.state = INIT
        ∧ s2.sent = [] ++ List.replicate (2 + 1) (mkHeader (htonl 0) (htonl 0) RDT_SYNACK)) :=
  have h := accept_connection_handshake ReliableSocket.new
    (mkHeader (htonl 0) (htonl 0) RDT_SYN) 0
    [⟨.timeout, 140⟩, ⟨.datagram (mkHeader (htonl 0) (htonl 0) RDT_SYN), 3⟩]
    (mkHeader (htonl 0) (htonl 0) RDT_ACK) 20 [] rfl (by decide) (by decide) (by decide)
  ⟨h.1, h.2.1⟩

/-- C11 fails on the code.  The reply to the SYN is a segment of type `RDT_ACK`:
`sender_handshake` returns `false` after the one SYN, and `connect_to_remote`,
which does not look at that result, returns with the state `ESTABLISHED`
although no SYNACK was received and the SYN was not sent again. -/
theorem connect_to_remote_established_without_synack :
    hdr_type (mkHeader (htonl 0) (htonl 0) RDT_ACK) ≠ RDT_SYNACK
    ∧ ∃ s0 s1 : ReliableSocket,
      sender_handshake ReliableSocket.new
          [⟨.datagram (mkHeader (htonl 0) (htonl 0) RDT_ACK), 20⟩]
        = .returned false s0 []
      ∧ connect_to_remote ReliableSocket.new
          [⟨.datagram (mkHeader (htonl 0) (htonl 0) RDT_ACK), 20⟩]
        = .returned () s1 []
      ∧ s1.state = ESTABLISHED
      ∧ s1.sent = [mkHeader (htonl 0) (htonl 0) RDT_SYN] :=
  ⟨by decide, _, _, rfl, rfl, rfl, rfl⟩

/-! ## The teardown -/

/-- C13 fails on the code.  `close_connection` on an established socket receives
the FINACK, the FIN of the peer and then, in time-wait, one duplicate FIN, one
segment that is not a FIN, and silence.  The flag `keep_going`, set by the
duplicate FIN, is still set after the other segment, so the FINACK goes out three
times: two are re-sent although the time-wait script holds one FIN.  With the
other segment first, the loop ends before the wait has been silent and the FIN
that follows gets no FINACK. -/
theorem time_wait_resends_without_fin :
    (∃ s1, close_connection establishedSocket
          [⟨.datagram (mkHeader (htonl 0) (htonl 0) RDT_FINACK), 20⟩,
            ⟨.datagram (mkHeader (htonl 0) (htonl 0) RDT_FIN), 30⟩,
            ⟨.datagram (mkHeader (htonl 0) (htonl 0) RDT_FIN), 40⟩,
            ⟨.datagram (mkHeader (htonl 0) (htonl 0) RDT_ACK), 50⟩,
            ⟨.timeout, 500⟩]
          = .returned () s1 []
        ∧ s1.state = CLOSED
        ∧ s1.sent = [mkHeader (htonl 0) (htonl 0) RDT_FIN,
            mkHeader (htonl 0) (htonl 0) RDT_FINACK, mkHeader (htonl 0) (htonl 0) RDT_FINACK,
            mkHeader (htonl 0) (htonl 0) RDT_FINACK])
    ∧ (∃ s2, close_connection establishedSocket
          [⟨.datagram (mkHeader (htonl 0) (htonl 0) RDT_FINACK), 20⟩,
            ⟨.datagram (mkHeader (htonl 0) (htonl 0) RDT_FIN), 30⟩,
            ⟨.datagram (mkHeader (htonl 0) (htonl 0) RDT_ACK), 50⟩,
            ⟨.datagram (mkHeader (htonl 0) (htonl 0) RDT_FIN), 40⟩,
            ⟨.timeout, 500⟩]
          = .returned () s2
              [⟨.datagram (mkHeader (htonl 0) (htonl 0) RDT_FIN), 40⟩, ⟨.timeout, 500⟩]
        ∧ s2.sent = [mkHeader (htonl 0) (htonl 0) RDT_FIN,
            mkHeader (htonl 0) (htonl 0) RDT_FINACK]) :=
  ⟨⟨_, rfl, rfl, rfl⟩, ⟨_, rfl, rfl⟩⟩

/-- The only test of the state in `close_connection` is the one for `FIN_STATE`.
A socket is `CLOSED` only once `close_connection` has stored that state, and the
next statement closes the descriptor, so every later `recv` fails.  That the
descriptor is closed is what keeps a `CLOSED` socket where it is: were a FINACK
still delivered to it, `sender_close_handshake` would store `FIN_STATE`. -/
theorem close_connection_closed_descriptor_needed :
    ∃ s1, close_connection { ReliableSocket.new with state := CLOSED }
        [⟨.datagram (mkHeader (htonl 0) (htonl 0) RDT_FINACK), 20⟩]
      = .blocked s1
      ∧ s1.state = FIN_STATE
      ∧ s1.sent = [mkHeader (htonl 0) (htonl 0) RDT_FIN] :=
  ⟨_, rfl, rfl, rfl⟩

/-! ## Segment sizes -/

theorem send_data_nil (s : ReliableSocket) (data : List Byte) (length : Nat)
    (hs : s.state = ESTABLISHED) :
    send_data s data length []
      = .blocked { s with sent := s.sent ++ [data_segment s.sequence_number data length] } := by
  simp only [send_data, hs, ne_eq, not_true_eq_false, if_false, List.length_nil, Nat.zero_add,
    send_data_loop, send_and_wait, Outcome.andThen, send, data_segment_take]

theorem mkHeader_length (a b : Nat) (type : Byte) :
    (mkHeader (htonl a) (htonl b) type).length = sizeofRDTHeader := by
  simp [mkHeader, htonl, sizeofRDTHeader]

theorem mkHeader_fields (a b : Nat) (type : Byte) :
    hdr_sequence_number (mkHeader (htonl a) (htonl b) type) = htonl a
    ∧ hdr_ack_number (mkHeader (htonl a) (htonl b) type) = htonl b
    ∧ hdr_type (mkHeader (htonl a) (htonl b) type) = type := by
  simp [mkHeader, htonl, hdr_sequence_number, hdr_ack_number, hdr_type]

/-- C15, as the code has it.  The header that precedes the payload has
`sizeof(RDTHeader)` octets: the sequence number in octets 0 to 3, the
acknowledgment number in octets 4 to 7, the type in octet 8 (SYN=0, SYNACK=1,
FIN=2, FINACK=3, ACK=4, DATA=5) and three octets of padding, 12 in all.  The
DATA segment `send_data` hands to the transport for a payload of `L` octets has
`12 + L` octets, a control segment has 12, and `MAX_DATA_SIZE` is
`1400 - 12 = 1388`. -/
theorem wire_header_size (s : ReliableSocket) (p : List Byte) (a b : Nat) (type : Byte)
    (hs : s.state = ESTABLISHED) :
    sizeofRDTHeader = 12
    ∧ (RDT_SYN.val = 0 ∧ RDT_SYNACK.val = 1 ∧ RDT_FIN.val = 2 ∧ RDT_FINACK.val = 3
        ∧ RDT_ACK.val = 4 ∧ RDT_DATA.val = 5)
    ∧ (htonl a).length = 4
    ∧ hdr_sequence_number (mkHeader (htonl a) (htonl b) type) = htonl a
    ∧ hdr_ack_number (mkHeader (htonl a) (htonl b) type) = htonl b
    ∧ hdr_type (mkHeader (htonl a) (htonl b) type) = type
    ∧ (mkHeader (htonl a) (htonl b) type).length = 12
    ∧ send_data s p p.length []
        = .blocked { s with sent := s.sent ++ [data_segment s.sequence_number p p.length] }
    ∧ (data_segment s.sequence_number p p.length).length = 12 + p.length
    ∧ MAX_DATA_SIZE = MAX_SEG_SIZE - 12
    ∧ MAX_DATA_SIZE = 1388 := by
  obtain ⟨h1, h2, h3⟩ := mkHeader_fields a b type
  exact ⟨rfl, ⟨rfl, rfl, rfl, rfl, rfl, rfl⟩, rfl, h1, h2, h3, mkHeader_length a b type,
    send_data_nil s p p.length hs, data_segment_length _ p, rfl, rfl⟩

theorem wire_header_size_witness :
    establishedSocket.state = ESTABLISHED
    ∧ (mkHeader (htonl 0) (htonl 0) RDT_SYN).length = 12
    ∧ send_data establishedSocket [65, 66, 67] ([65, 66, 67] : List Byte).length []
        = .blocked { establishedSocket with
            sent := establishedSocket.sent
              ++ [data_segment establishedSocket.sequence_number [65, 66, 67]
                ([65, 66, 67] : List Byte).length] }
    ∧ (data_segment establishedSocket.sequence_number [65, 66, 67]
        ([65, 66, 67] : List Byte).length).length = 12 + ([65, 66, 67] : List Byte).length :=
  have h := wire_header_size establishedSocket [65, 66, 67] 0 0 RDT_SYN rfl
  ⟨rfl, h.2.2.2.2.2.2.1, h.2.2.2.2.2.2.2.1, h.2.2.2.2.2.2.2.2.1⟩

/-- C15, as stated, fails: a control segment has 12 octets, not 9; the DATA
segment for the 3-octet payload "ABC" has 15 octets, not 12; and
`MAX_DATA_SIZE` is 1388, not 1391. -/
theorem header_is_not_nine_octets :
    (mkHeader (htonl 0) (htonl 0) RDT_ACK).length = 12
    ∧ (∃ s1, send_data establishedSocket [65, 66, 67] 3 [] = .blocked s1
        ∧ s1.sent = [[0, 0, 0, 0, 0, 0, 0, 0, 5, 0, 0, 0, 65, 66, 67]])
    ∧ ([0, 0, 0, 0, 0, 0, 0, 0, 5, 0, 0, 0, 65, 66, 67] : List Byte).length = 15
    ∧ MAX_DATA_SIZE = 1388 :=
  ⟨rfl, ⟨_, rfl, rfl⟩, rfl, rfl⟩

/-- C16 fails on the code.  `send_data` on an established socket with a payload of
`MAX_DATA_SIZE + 1 = 1389` octets does not fail: it frames the payload and hands
the transport a segment of 1401 octets, one more than `MAX_SEG_SIZE` (in the
source the copy into `send_segment` runs past the end of the array). -/
theorem send_data_oversized :
    MAX_DATA_SIZE + 1 = 1389
    ∧ send_data establishedSocket (List.replicate 1389 0) 1389 []
        = .blocked { establishedSocket with
            sent := [data_segment 0 (List.replicate 1389 0) 1389] }
    ∧ (data_segment 0 (List.replicate 1389 0) 1389).length = 1401
    ∧ MAX_SEG_SIZE = 1400 := by
  refine ⟨rfl, send_data_nil establishedSocket _ 1389 rfl, ?_, rfl⟩
  unfold data_segment
  rw [List.length_append, List.length_take, List.length_replicate, mkHeader_length]
  rfl

/-! ## What `receive_data` takes for data -/

/-- C17 fails on the code.  (1) A datagram of four octets, all zero, on a socket
that expects 0: `receive_data` reads the header fields from the cleared buffer,
sends an ACK for sequence number 0, advances the counter, and calls `memcpy` with
the length `4 - sizeof(RDTHeader)`, which wraps around.  (2) A datagram of nine
octets whose ninth is `RDT_FIN`: a FINACK is sent for it and the state becomes
`FIN_STATE`. -/
theorem receive_data_short_datagram :
    ([0, 0, 0, 0] : List Byte).length < sizeofRDTHeader
    ∧ receive_data establishedSocket [9, 9, 9] [⟨.datagram [0, 0, 0, 0], 7⟩]
        = .fault
            { establishedSocket with
              rcvtimeo := float_to_uint32 (establishedSocket.estimated_rtt
                + establishedSocket.dev_rtt * 4)
              sent := [mkHeader (htonl 0) (htonl 0) RDT_ACK]
              sequence_number := 1 } []
    ∧ ([0, 0, 0, 0, 0, 0, 0, 0, 2] : List Byte).length < sizeofRDTHeader
    ∧ receive_data establishedSocket [9, 9, 9]
          [⟨.datagram [0, 0, 0, 0, 0, 0, 0, 0, 2], 7⟩, ⟨.timeout, 140⟩]
        = .returned (0, [9, 9, 9])
            { establishedSocket with
              state := FIN_STATE
              rcvtimeo := float_to_uint32 (establishedSocket.estimated_rtt
                + establishedSocket.dev_rtt * 4)
              sent := [mkHeader (htonl 0) (htonl 0) RDT_FINACK] } [] :=
  ⟨by decide, rfl, by decide, rfl⟩

/-- C18 fails on the code.  A segment of type `RDT_SYNACK` with sequence number 0
and three more octets, on a socket that expects 0, is not discarded:
`receive_data` acknowledges it, copies the three octets into the caller's
buffer, advances the counter and returns 3.  With the sequence number 5 the
segment is acknowledged and the call waits on. -/
theorem receive_data_takes_wrong_type :
    receive_data establishedSocket [9, 9, 9, 9]
        [⟨.datagram (mkHeader (htonl 0) (htonl 0) RDT_SYNACK ++ [88, 89, 90]), 7⟩]
      = .returned (3, [88, 89, 90, 9])
          { establishedSocket with
            rcvtimeo := float_to_uint32 (establishedSocket.estimated_rtt
              + establishedSocket.dev_rtt * 4)
            sent := [mkHeader (htonl 0) (htonl 0) RDT_ACK]
            sequence_number := 1 } []
    ∧ receive_data establishedSocket [9, 9, 9, 9]
        [⟨.datagram (mkHeader (htonl 5) (htonl 0) RDT_SYNACK ++ [88, 89, 90]), 7⟩]
      = .blocked
          { establishedSocket with
            rcvtimeo := float_to_uint32 (establishedSocket.estimated_rtt
              + establishedSocket.dev_rtt * 4)
            sent := [mkHeader (htonl 5) (htonl 5) RDT_ACK] } :=
  ⟨rfl, rfl⟩

/-- C19 fails on the code.  `receive_data` counts the segments it accepts in
`sequence_number`, the counter `send_data` takes its sequence number from, and
leaves `expected_sequence_number` alone: after one segment was received, the next
`send_data` frames its DATA segment with sequence number 1, where without the
`receive_data` call it frames it with 0. -/
theorem receive_data_advances_send_counter :
    ∃ s1 : ReliableSocket,
      receive_data establishedSocket [9, 9, 9] [⟨.datagram (data_segment 0 [65, 66, 67] 3), 7⟩]
        = .returned (3, [65, 66, 67]) s1 []
      ∧ establishedSocket.sequence_number = 0
      ∧ s1.sequence_number = 1
      ∧ s1.expected_sequence_number = 0
      ∧ send_data s1 [68, 69, 70] 3 []
        = .blocked { s1 with sent := s1.sent ++ [data_segment 1 [68, 69, 70] 3] }
      ∧ send_data establishedSocket [68, 69, 70] 3 []
        = .blocked { establishedSocket with sent := [data_segment 0 [68, 69, 70] 3] } :=
  ⟨_, rfl, rfl, rfl, rfl, rfl, rfl⟩

/-! ## The timeout in force at a wait -/

/-- C20 fails on the code.  `sender_handshake` sends the SYN and waits without a
call of `set_timeout_length`: on a constructed socket the initiator is blocked
in its first `recv` with the receive timeout still `0` (no bound), not the 140 ms
that the estimate and deviation give.  The listener's loop does program 140 ms
before its first wait for a reply to the SYNACK. -/
theorem first_syn_wait_unbounded :
    (∃ s1, connect_to_remote ReliableSocket.new [] = .blocked s1
        ∧ s1.sent = [mkHeader (htonl 0) (htonl 0) RDT_SYN]
        ∧ s1.rcvtimeo = 0)
    ∧ float_to_uint32 (ReliableSocket.new.estimated_rtt + 4 * ReliableSocket.new.dev_rtt) = 140
    ∧ (∃ s2, accept_connection ReliableSocket.new
          [⟨.datagram (mkHeader (htonl 0) (htonl 0) RDT_SYN), 0⟩] = .blocked s2
        ∧ s2.sent = [mkHeader (htonl 0) (htonl 0) RDT_SYNACK]
        ∧ s2.rcvtimeo = 140) := by
  have h140 : float_to_uint32 ((100 : ℚ) + 4 * 10) = 140 := by
    rw [show ((100 : ℚ) + 4 * 10) = ((140 : ℕ) : ℚ) by norm_num]
    exact float_to_uint32_natCast 140 (by norm_num)
  exact ⟨⟨_, rfl, rfl, rfl⟩, h140, ⟨_, rfl, rfl, h140⟩⟩

/-! ## Bounds of the round-trip estimator -/

/-- C21 fails on the code.  An error of `recv` that is not a timeout ends the
process in `send_and_wait` and in `receive_data` only.  In `send_and_timeout` it
is taken for the timeout (`connect_to_remote` returns `ESTABLISHED`, and
`receive_data` returns `0` after a FIN); in the wait for the FIN of the peer the
loop waits again; in the time-wait loop it ends the wait, and `close_connection`
returns `CLOSED`. -/
theorem recv_error_taken_for_timeout :
    (∃ s1, connect_to_remote ReliableSocket.new
          [⟨.datagram (mkHeader (htonl 0) (htonl 0) RDT_SYNACK), 20⟩, ⟨.error, 5⟩]
          = .returned () s1 []
        ∧ s1.state = ESTABLISHED
        ∧ s1.sent = [mkHeader (htonl 0) (htonl 0) RDT_SYN, mkHeader (htonl 0) (htonl 0) RDT_ACK])
    ∧ (∃ s2, receive_data establishedSocket [9, 9, 9]
          [⟨.datagram (mkHeader (htonl 0) (htonl 0) RDT_FIN), 20⟩, ⟨.error, 5⟩]
          = .returned (0, [9, 9, 9]) s2 []
        ∧ s2.state = FIN_STATE)
    ∧ (∃ s3, close_connection establishedSocket
          [⟨.datagram (mkHeader (htonl 0) (htonl 0) RDT_FINACK), 20⟩, ⟨.error, 5⟩,
            ⟨.datagram (mkHeader (htonl 0) (htonl 0) RDT_FIN), 30⟩, ⟨.error, 6⟩]
          = .returned () s3 []
        ∧ s3.state = CLOSED
        ∧ s3.sent = [mkHeader (htonl 0) (htonl 0) RDT_FIN,
            mkHeader (htonl 0) (htonl 0) RDT_FINACK])
    ∧ (∃ s4, send_and_wait establishedSocket (mkHeader (htonl 0) (htonl 0) RDT_FIN)
          sizeofRDTHeader [⟨.error, 5⟩] = .exited s4 [])
    ∧ (∃ s5, receive_data establishedSocket [9, 9, 9] [⟨.error, 5⟩] = .exited s5 []) :=
  ⟨⟨_, rfl, rfl, rfl⟩, ⟨_, rfl, rfl⟩, ⟨_, rfl, rfl, rfl⟩, ⟨_, rfl⟩, ⟨_, rfl⟩⟩

theorem send_and_wait_timeouts (seg : List Byte) (sz : Nat) :
    ∀ (pre : List Recv) (s : ReliableSocket) (d : List Byte) (m : Int) (rest : List Recv),
      (∀ r ∈ pre, r.result = .timeout) →
      ∃ s1, send_and_wait s seg sz (pre ++ ⟨.datagram d, m⟩ :: rest)
            = .returned (d.take MAX_SEG_SIZE) s1 rest
        ∧ s1.sequence_number = s.sequence_number
        ∧ s1.expected_sequence_number = s.expected_sequence_number
        ∧ s1.state = s.state
        ∧ s1.sent = s.sent ++ List.replicate (pre.length + 1) (seg.take sz) := by
  intro pre
  induction pre with
  | nil =>
    intro s d m rest _
    exact ⟨set_estimated_rtt { send s seg sz with curr_rtt := m }, rfl, by simp, by simp, by simp,
      by simp⟩
  | cons r pre ih =>
    intro s d m rest hpre
    obtain ⟨res, m0⟩ := r
    have hr : res = .timeout := hpre ⟨res, m0⟩ (List.mem_cons_self _ _)
    subst hr
    obtain ⟨s1, e1, q1, x1, t1, l1⟩ := ih { send s seg sz with curr_rtt := m0 } d m rest
      (fun r1 h1 => hpre r1 (List.mem_cons_of_mem _ h1))
    refine ⟨s1, ?_, q1, x1, t1, ?_⟩
    · rw [List.cons_append]
      simp only [send_and_wait]
      exact e1
    · rw [l1]
      simp [List.replicate_succ]

/-- C22, as the code has it.  After the SYNACK, `connect_to_remote` sends the
ACK once and then once more for every datagram with octets that arrives before
the wait that follows an ACK ends in a timeout; the call then returns
`ESTABLISHED`.  If the first wait ends in a timeout, exactly one ACK is sent. -/
theorem connect_to_remote_acks (s : ReliableSocket) (pre : List Recv) (synack : List Byte)
    (msec : Int) (more : List Recv) (t : Recv) (rest : List Recv)
    (hs : s.state = INIT) (hpre : ∀ r ∈ pre, r.result = .timeout)
    (hsyn : hdr_type synack = RDT_SYNACK)
    (hmore : ∀ r ∈ more, ¬ silent r) (ht : t.result = .timeout) :
    ∃ s1, connect_to_remote s (pre ++ ⟨.datagram synack, msec⟩ :: (more ++ t :: rest))
          = .returned () s1 rest
      ∧ s1.state = ESTABLISHED
      ∧ s1.sent = s.sent
          ++ List.replicate (pre.length + 1) (mkHeader (htonl 0) (htonl 0) RDT_SYN)
          ++ List.replicate (more.length + 1) (mkHeader (htonl 0) (htonl 0) RDT_ACK) := by
  obtain ⟨s0, e0, -, -, -, l0⟩ := send_and_wait_timeouts (mkHeader (htonl 0) (htonl 0) RDT_SYN)
    sizeofRDTHeader pre s synack msec (more ++ t :: rest) hpre
  have hsynseg : (mkHeader (htonl 0) (htonl 0) RDT_SYN).take sizeofRDTHeader
      = mkHeader (htonl 0) (htonl 0) RDT_SYN := by decide
  have hackseg : (mkHeader (htonl 0) (htonl 0) RDT_ACK).take sizeofRDTHeader
      = mkHeader (htonl 0) (htonl 0) RDT_ACK := by decide
  have hsilent : silent t := by
    unfold silent
    rw [ht]
    trivial
  have e1 := send_and_timeout_run (mkHeader (htonl 0) (htonl 0) RDT_ACK) sizeofRDTHeader more s0 t
    rest hmore hsilent
  refine ⟨{ s0 with
      rcvtimeo := float_to_uint32 (s0.estimated_rtt + s0.dev_rtt * 4)
      sent := s0.sent ++ List.replicate (more.length + 1)
        ((mkHeader (htonl 0) (htonl 0) RDT_ACK).take sizeofRDTHeader)
      state := ESTABLISHED }, ?_, rfl, ?_⟩
  · simp only [connect_to_remote, hs, ne_eq, not_true_eq_false, if_false, sender_handshake, e0,
      Outcome.andThen, hdr_type_take, hsyn, e1]
  · simp only [l0, hsynseg, hackseg]

theorem connect_to_remote_acks_witness :
    ∃ s1, connect_to_remote ReliableSocket.new
          ([⟨.timeout, 0⟩] ++ ⟨.datagram (mkHeader (htonl 0) (htonl 0) RDT_SYNACK), 20⟩
            :: ([⟨.datagram (mkHeader (htonl 0) (htonl 0) RDT_SYNACK), 30⟩]
              ++ ⟨.timeout, 140⟩ :: []))
          = .returned () s1 []
      ∧ s1.state = ESTABLISHED
      ∧ s1.sent = [] ++ List.replicate (1 + 1) (mkHeader (htonl 0) (htonl 0) RDT_SYN)
          ++ List.replicate (1 + 1) (mkHeader (htonl 0) (htonl 0) RDT_ACK) :=
  connect_to_remote_acks ReliableSocket.new [⟨.timeout, 0⟩]
    (mkHeader (htonl 0) (htonl 0) RDT_SYNACK) 20
    [⟨.datagram (mkHeader (htonl 0) (htonl 0) RDT_SYNACK), 30⟩] ⟨.timeout, 140⟩ [] rfl
    (by decide) (by decide) (by decide) rfl

/-- C22, as stated, fails: a second copy of the SYNACK arrives while the
initiator waits after its ACK, and `connect_to_remote` sends the ACK twice. -/
theorem handshake_ack_sent_twice :
    ∃ s1, connect_to_remote ReliableSocket.new
        [⟨.datagram (mkHeader (htonl 0) (htonl 0) RDT_SYNACK), 20⟩,
          ⟨.datagram (mkHeader (htonl 0) (htonl 0) RDT_SYNACK), 30⟩, ⟨.timeout, 140⟩]
        = .returned () s1 []
      ∧ s1.sent = [mkHeader (htonl 0) (htonl 0) RDT_SYN, mkHeader (htonl 0) (htonl 0) RDT_ACK,
          mkHeader (htonl 0) (htonl 0) RDT_ACK] :=
  ⟨_, rfl, rfl⟩

/-! ## The order of the teardown -/

theorem receiver_close_handshake_loop_eq (seg : List Byte) :
    ∀ (fuel : Nat) (s : ReliableSocket) (script : List Recv),
      receiver_close_handshake_loop seg fuel s script
        = sender_close_handshake_loop seg fuel s script := by
  intro fuel
  induction fuel with
  | zero => intro s script; rfl
  | succ k ih =>
    intro s script
    simp only [receiver_close_handshake_loop, sender_close_handshake_loop]
    congr 1
    funext recv_segment s1 rest
    rw [ih]

theorem sender_close_handshake_loop_timeout (seg : List Byte) (fuel : Nat)
    (s : ReliableSocket) (m : Int) (rest : List Recv) :
    sender_close_handshake_loop seg (fuel + 1) s (⟨.timeout, m⟩ :: rest)
      = sender_close_handshake_loop seg (fuel + 1)
          { send s seg sizeofRDTHeader with curr_rtt := m } rest := by
  simp only [sender_close_handshake_loop, send_and_wait]

theorem sender_close_handshake_loop_wrong (seg : List Byte) (fuel : Nat) (s : ReliableSocket)
    (bs : List Byte) (m : Int) (rest : List Recv) (h : hdr_type bs ≠ RDT_FINACK) :
    sender_close_handshake_loop seg (fuel + 1) s (⟨.datagram bs, m⟩ :: rest)
      = sender_close_handshake_loop seg fuel
          (set_estimated_rtt { send s seg sizeofRDTHeader with curr_rtt := m }) rest := by
  simp only [sender_close_handshake_loop, send_and_wait, Outcome.andThen, hdr_type_take]
  rw [if_pos h]

theorem sender_close_handshake_loop_finack (seg : List Byte) (fuel : Nat) (s : ReliableSocket)
    (bs : List Byte) (m : Int) (rest : List Recv) (h : hdr_type bs = RDT_FINACK) :
    sender_close_handshake_loop seg (fuel + 1) s (⟨.datagram bs, m⟩ :: rest)
      = .returned ()
          (set_estimated_rtt { send s seg sizeofRDTHeader with curr_rtt := m }) rest := by
  simp only [sender_close_handshake_loop, send_and_wait, Outcome.andThen, hdr_type_take]
  rw [if_neg (by simp [h])]

theorem sender_close_handshake_loop_run (seg : List Byte) :
    ∀ (pre : List Recv) (fuel : Nat) (s : ReliableSocket),
      (∀ r ∈ pre, wrongReply RDT_FINACK r) → pre.length < fuel →
      (∀ (finack : List Byte) (m : Int) (rest : List Recv), hdr_type finack = RDT_FINACK →
          ∃ s1, sender_close_handshake_loop seg fuel s (pre ++ ⟨.datagram finack, m⟩ :: rest)
                = .returned () s1 rest
            ∧ s1.state = s.state
            ∧ s1.sent = s.sent ++ List.replicate (pre.length + 1) (seg.take sizeofRDTHeader))
      ∧ (∃ s1, sender_close_handshake_loop seg fuel s pre = .blocked s1
            ∧ s1.state = s.state
            ∧ s1.sent = s.sent ++ List.replicate (pre.length + 1) (seg.take sizeofRDTHeader)) := by
  intro pre
  induction pre with
  | nil =>
    intro fuel s _ hfuel
    obtain ⟨k, rfl⟩ : ∃ k, fuel = k + 1 := ⟨fuel - 1, by simp at hfuel; omega⟩
    refine ⟨fun finack m rest hf => ?_, ?_⟩
    · exact ⟨_, by simpa using sender_close_handshake_loop_finack seg k s finack m rest hf,
        by simp, by simp⟩
    · exact ⟨send s seg sizeofRDTHeader,
        by simp [sender_close_handshake_loop, send_and_wait, Outcome.andThen], by simp, by simp⟩
  | cons r pre ih =>
    intro fuel s hpre hfuel
    obtain ⟨k, rfl⟩ : ∃ k, fuel = k + 1 := ⟨fuel - 1, by simp at hfuel; omega⟩
    have hr := hpre r (List.mem_cons_self _ _)
    have hpre1 : ∀ r1 ∈ pre, wrongReply RDT_FINACK r1 :=
      fun r1 h1 => hpre r1 (List.mem_cons_of_mem _ h1)
    obtain ⟨res, m⟩ := r
    cases res with
    | timeout =>
      have hlen : pre.length < k + 1 := by simp at hfuel; omega
      obtain ⟨ih1, s2, e2, t2, l2⟩ := ih (k + 1)
        { send s seg sizeofRDTHeader with curr_rtt := m } hpre1 hlen
      refine ⟨fun finack m1 rest hf => ?_, ?_⟩
      · obtain ⟨s1, e1, t1, l1⟩ := ih1 finack m1 rest hf
        refine ⟨s1, ?_, t1, ?_⟩
        · rw [List.cons_append, sender_close_handshake_loop_timeout]; exact e1
        · rw [l1]; simp [List.replicate_succ]
      · refine ⟨s2, ?_, t2, ?_⟩
        · rw [sender_close_handshake_loop_timeout]; exact e2
        · rw [l2]; simp [List.replicate_succ]
    | error => exact absurd hr (by simp [wrongReply])
    | datagram bs =>
      have hbs : hdr_type bs ≠ RDT_FINACK := hr
      have hlen : pre.length < k := by simp at hfuel; omega
      obtain ⟨ih1, s2, e2, t2, l2⟩ := ih k
        (set_estimated_rtt { send s seg sizeofRDTHeader with curr_rtt := m }) hpre1 hlen
      refine ⟨fun finack m1 rest hf => ?_, ?_⟩
      · obtain ⟨s1, e1, t1, l1⟩ := ih1 finack m1 rest hf
        refine ⟨s1, ?_, t1, ?_⟩
        · rw [List.cons_append, sender_close_handshake_loop_wrong _ _ _ _ _ _ hbs]; exact e1
        · rw [l1]; simp [List.replicate_succ]
      · refine ⟨s2, ?_, t2, ?_⟩
        · rw [sender_close_handshake_loop_wrong _ _ _ _ _ _ hbs]; exact e2
        · rw [l2]; simp [List.replicate_succ]

theorem wait_for_fin_run :
    ∀ (mid : List Recv) (s : ReliableSocket), (∀ r ∈ mid, noFin r) →
      (∀ (fin : List Byte) (m : Int) (rest : List Recv), hdr_type fin = RDT_FIN →
          wait_for_fin s (mid ++ ⟨.datagram fin, m⟩ :: rest) = .returned () s rest)
      ∧ wait_for_fin s mid = .blocked s := by
  intro mid
  induction mid with
  | nil =>
    intro s _
    refine ⟨fun fin m rest hfin => ?_, rfl⟩
    simp [wait_for_fin, hfin]
  | cons r mid ih =>
    intro s hmid
    have hr := hmid r (List.mem_cons_self _ _)
    obtain ⟨ih1, ih2⟩ := ih s (fun r1 h1 => hmid r1 (List.mem_cons_of_mem _ h1))
    obtain ⟨res, m⟩ := r
    cases res with
    | timeout =>
      exact ⟨fun fin m1 rest hfin => by
        rw [List.cons_append]; simp only [wait_for_fin]; exact ih1 fin m1 rest hfin,
        by simp only [wait_for_fin]; exact ih2⟩
    | error =>
      exact ⟨fun fin m1 rest hfin => by
        rw [List.cons_append]; simp only [wait_for_fin]; exact ih1 fin m1 rest hfin,
        by simp only [wait_for_fin]; exact ih2⟩
    | datagram bs =>
      have hbs : hdr_type bs ≠ RDT_FIN := hr
      exact ⟨fun fin m1 rest hfin => by
        rw [List.cons_append]
        simp only [wait_for_fin, hdr_type_take, ne_eq, hbs, not_false_eq_true, if_true]
        exact ih1 fin m1 rest hfin,
        by
          simp only [wait_for_fin, hdr_type_take, ne_eq, hbs, not_false_eq_true, if_true]
          exact ih2⟩

theorem time_wait_silent (seg : List Byte) (s : ReliableSocket) (t : Recv) (rest : List Recv)
    (ht : silent t) :
    time_wait seg false s (t :: rest)
      = .returned () (set_timeout_length (send s seg sizeofRDTHeader) 500) rest := by
  obtain ⟨res, m⟩ := t
  cases res with
  | timeout => rfl
  | error => rfl
  | datagram d =>
    have hd : d = [] := ht
    subst hd
    rfl

theorem send_and_wait_trace (seg : List Byte) (sz : Nat) :
    ∀ (script : List Recv) (s : ReliableSocket),
      (∃ k, (send_and_wait s seg sz script).sock.sent
          = s.sent ++ List.replicate k (seg.take sz))
      ∧ (send_and_wait s seg sz script).sock.state = s.state
      ∧ ∀ (v : List Byte) (s1 : ReliableSocket) (rest : List Recv),
          send_and_wait s seg sz script = .returned v s1 rest →
          ∃ (pre : List Recv) (d : List Byte) (m : Int),
            script = pre ++ ⟨.datagram d, m⟩ :: rest ∧ v = d.take MAX_SEG_SIZE := by
  intro script
  induction script with
  | nil =>
    intro s
    exact ⟨⟨1, rfl⟩, rfl, fun v s1 rest h => by simp [send_and_wait] at h⟩
  | cons r script ih =>
    intro s
    obtain ⟨res, m⟩ := r
    cases res with
    | timeout =>
      obtain ⟨⟨k, hk⟩, hst, hret⟩ := ih { send s seg sz with curr_rtt := m }
      refine ⟨⟨k + 1, ?_⟩, ?_, ?_⟩
      · simp only [send_and_wait]
        rw [hk]
        simp [send, List.replicate_succ]
      · simp only [send_and_wait]
        rw [hst]
        rfl
      · intro v s1 rest h
        simp only [send_and_wait] at h
        obtain ⟨pre, d, m1, e, hv⟩ := hret v s1 rest h
        exact ⟨⟨.timeout, m⟩ :: pre, d, m1, by rw [e]; rfl, hv⟩
    | error =>
      exact ⟨⟨1, rfl⟩, rfl, fun v s1 rest h => by simp [send_and_wait] at h⟩
    | datagram d =>
      refine ⟨⟨1, ?_⟩, ?_, ?_⟩
      · simp [send_and_wait, Outcome.sock, send]
      · simp [send_and_wait, Outcome.sock, send]
      · intro v s1 rest h
        simp only [send_and_wait, Outcome.returned.injEq] at h
        exact ⟨[], d, m, by rw [← h.2.2]; rfl, h.1.symm⟩

theorem sender_close_handshake_loop_trace (seg : List Byte) :
    ∀ (fuel : Nat) (script : List Recv) (s : ReliableSocket),
      (∃ k, (sender_close_handshake_loop seg fuel s script).sock.sent
          = s.sent ++ List.replicate k (seg.take sizeofRDTHeader))
      ∧ (sender_close_handshake_loop seg fuel s script).sock.state = s.state
      ∧ ∀ (s1 : ReliableSocket) (rest : List Recv),
          sender_close_handshake_loop seg fuel s script = .returned () s1 rest →
          ∃ (pre : List Recv) (d : List Byte) (m : Int),
            script = pre ++ ⟨.datagram d, m⟩ :: rest ∧ hdr_type d = RDT_FINACK := by
  intro fuel
  induction fuel with
  | zero =>
    intro script s
    exact ⟨⟨0, by simp [sender_close_handshake_loop, Outcome.sock]⟩, rfl,
      fun s1 rest h => by simp [sender_close_handshake_loop] at h⟩
  | succ fuel ih =>
    intro script s
    obtain ⟨⟨k, hk⟩, hst, hret⟩ := send_and_wait_trace seg sizeofRDTHeader script s
    cases hw : send_and_wait s seg sizeofRDTHeader script with
    | returned v s1 rest =>
      rw [hw] at hk hst
      simp only [Outcome.sock] at hk hst
      obtain ⟨pre, d, m, e, hv⟩ := hret v s1 rest hw
      simp only [sender_close_handshake_loop, hw, Outcome.andThen]
      by_cases ht : hdr_type v = RDT_FINACK
      · rw [if_neg (not_not.mpr ht)]
        refine ⟨⟨k, hk⟩, hst, ?_⟩
        intro s2 rest2 h
        simp only [Outcome.returned.injEq, true_and] at h
        refine ⟨pre, d, m, by rw [← h.2]; exact e, ?_⟩
        rw [hv, hdr_type_take] at ht
        exact ht
      · rw [if_pos ht]
        obtain ⟨⟨k2, hk2⟩, hst2, hret2⟩ := ih rest s1
        refine ⟨⟨k + k2, ?_⟩, hst2.trans hst, ?_⟩
        · rw [hk2, hk, List.append_assoc, List.replicate_add]
        · intro s2 rest2 h
          obtain ⟨pre2, d2, m2, e2, h2⟩ := hret2 s2 rest2 h
          exact ⟨pre ++ ⟨.datagram d, m⟩ :: pre2, d2, m2, by rw [e, e2]; simp, h2⟩
    | blocked s1 =>
      rw [hw] at hk hst
      simp only [sender_close_handshake_loop, hw, Outcome.andThen]
      exact ⟨⟨k, hk⟩, hst, fun s2 rest2 h => by simp at h⟩
    | exited s1 rest =>
      rw [hw] at hk hst
      simp only [sender_close_handshake_loop, hw, Outcome.andThen]
      exact ⟨⟨k, hk⟩, hst, fun s2 rest2 h => by simp at h⟩
    | fault s1 rest =>
      rw [hw] at hk hst
      simp only [sender_close_handshake_loop, hw, Outcome.andThen]
      exact ⟨⟨k, hk⟩, hst, fun s2 rest2 h => by simp at h⟩

theorem wait_for_fin_trace :
    ∀ (script : List Recv) (s : ReliableSocket),
      (wait_for_fin s script).sock = s
      ∧ ∀ (s1 : ReliableSocket) (rest : List Recv),
          wait_for_fin s script = .returned () s1 rest →
          ∃ (mid : List Recv) (f : List Byte) (m : Int),
            script = mid ++ ⟨.datagram f, m⟩ :: rest ∧ hdr_type f = RDT_FIN := by
  intro script
  induction script with
  | nil =>
    intro s
    exact ⟨rfl, fun s1 rest h => by simp [wait_for_fin] at h⟩
  | cons r script ih =>
    intro s
    obtain ⟨res, m⟩ := r
    obtain ⟨hs, hret⟩ := ih s
    have hskip : ∀ (s1 : ReliableSocket) (rest : List Recv),
        wait_for_fin s script = .returned () s1 rest →
        ∃ (mid : List Recv) (f : List Byte) (m1 : Int),
          (⟨res, m⟩ : Recv) :: script = mid ++ ⟨.datagram f, m1⟩ :: rest
            ∧ hdr_type f = RDT_FIN := by
      intro s1 rest h
      obtain ⟨mid, f, m1, e, hf⟩ := hret s1 rest h
      exact ⟨⟨res, m⟩ :: mid, f, m1, by rw [e]; rfl, hf⟩
    cases res with
    | timeout => simp only [wait_for_fin]; exact ⟨hs, hskip⟩
    | error => simp only [wait_for_fin]; exact ⟨hs, hskip⟩
    | datagram d =>
      simp only [wait_for_fin, hdr_type_take]
      by_cases hd : hdr_type d = RDT_FIN
      · rw [if_neg (not_not.mpr hd)]
        refine ⟨rfl, ?_⟩
        intro s1 rest h
        simp only [Outcome.returned.injEq, true_and] at h
        exact ⟨[], d, m, by rw [← h.2]; rfl, hd⟩
      · rw [if_pos hd]
        exact ⟨hs, hskip⟩

theorem time_wait_trace (seg : List Byte) :
    ∀ (script : List Recv) (keep_going : Bool) (s : ReliableSocket),
      (∃ j, (time_wait seg keep_going s script).sock.sent
          = s.sent ++ List.replicate j (seg.take sizeofRDTHeader))
      ∧ (time_wait seg keep_going s script).sock.state = s.state := by
  intro script
  induction script with
  | nil =>
    intro keep_going s
    exact ⟨⟨1, rfl⟩, rfl⟩
  | cons r script ih =>
    intro keep_going s
    obtain ⟨res, m⟩ := r
    cases res with
    | timeout => exact ⟨⟨1, rfl⟩, rfl⟩
    | error => exact ⟨⟨1, rfl⟩, rfl⟩
    | datagram d =>
      by_cases h0 : 0 < (d.take MAX_SEG_SIZE).length
      · simp only [time_wait, h0, if_true]
        generalize (if hdr_type (d.take MAX_SEG_SIZE) = RDT_FIN then true else keep_going) = kg
        cases kg with
        | false => exact ⟨⟨1, rfl⟩, rfl⟩
        | true =>
          obtain ⟨⟨j, hj⟩, hst⟩ := ih true (set_timeout_length (send s seg sizeofRDTHeader) 500)
          refine ⟨⟨j + 1, ?_⟩, ?_⟩
          · simp only [if_true]
            rw [hj]
            simp [set_timeout_length, send, List.replicate_succ]
          · simp only [if_true]
            rw [hst]
            rfl
      · simp only [time_wait, h0, if_false]
        exact ⟨⟨1, rfl⟩, rfl⟩

theorem sender_close_handshake_trace (s : ReliableSocket) (script : List Recv) :
    ∃ k j, (sender_close_handshake s script).sock.sent
          = s.sent ++ List.replicate k (mkHeader (htonl 0) (htonl 0) RDT_FIN)
              ++ List.replicate j (mkHeader (htonl 0) (htonl 0) RDT_FINACK)
      ∧ (0 < j → finReceivedAfterFinack script)
      ∧ ((sender_close_handshake s script).sock.state ≠ s.state → finackReceived script)
      ∧ ∀ (s1 : ReliableSocket) (rest : List Recv),
          sender_close_handshake s script = .returned () s1 rest → finackReceived script := by
  have hfinseg : (mkHeader (htonl 0) (htonl 0) RDT_FIN).take sizeofRDTHeader
      = mkHeader (htonl 0) (htonl 0) RDT_FIN := by decide
  have hfinackseg : (mkHeader (htonl 0) (htonl 0) RDT_FINACK).take sizeofRDTHeader
      = mkHeader (htonl 0) (htonl 0) RDT_FINACK := by decide
  obtain ⟨⟨k, hk⟩, hst, hret⟩ := sender_close_handshake_loop_trace
    (mkHeader (htonl 0) (htonl 0) RDT_FIN) (script.length + 1) script s
  rw [hfinseg] at hk
  unfold sender_close_handshake
  cases hl : sender_close_handshake_loop (mkHeader (htonl 0) (htonl 0) RDT_FIN)
      (script.length + 1) s script with
  | returned u s1 rest1 =>
    rw [hl] at hk hst
    simp only [Outcome.sock] at hk hst
    obtain ⟨pre, d, m, e, hd⟩ := hret s1 rest1 hl
    have hfa : finackReceived script := ⟨pre, d, m, rest1, e, hd⟩
    obtain ⟨hws, hwret⟩ := wait_for_fin_trace rest1 { s1 with state := FIN_STATE }
    simp only [Outcome.andThen]
    cases hw : wait_for_fin { s1 with state := FIN_STATE } rest1 with
    | returned u2 s2 rest2 =>
      rw [hw] at hws
      simp only [Outcome.sock] at hws
      obtain ⟨mid, f, m2, e2, hf⟩ := hwret s2 rest2 hw
      obtain ⟨⟨j, hj⟩, -⟩ := time_wait_trace (mkHeader (htonl 0) (htonl 0) RDT_FINACK) rest2 false s2
      rw [hfinackseg] at hj
      refine ⟨k, j, ?_, fun _ => ⟨pre, d, m, mid, f, m2, rest2, by rw [e, e2], hd, hf⟩,
        fun _ => hfa, fun _ _ _ => hfa⟩
      simp only [Outcome.andThen]
      rw [hj, hws]
      show s1.sent ++ _ = _
      rw [hk]
    | blocked s2 =>
      rw [hw] at hws
      simp only [Outcome.sock] at hws
      refine ⟨k, 0, ?_, fun h => absurd h (by decide), fun _ => hfa, fun _ _ _ => hfa⟩
      simp only [Outcome.andThen, Outcome.sock]
      rw [hws]
      show s1.sent = _
      rw [hk]
      simp
    | exited s2 rest2 =>
      rw [hw] at hws
      simp only [Outcome.sock] at hws
      refine ⟨k, 0, ?_, fun h => absurd h (by decide), fun _ => hfa, fun _ _ _ => hfa⟩
      simp only [Outcome.andThen, Outcome.sock]
      rw [hws]
      show s1.sent = _
      rw [hk]
      simp
    | fault s2 rest2 =>
      rw [hw] at hws
      simp only [Outcome.sock] at hws
      refine ⟨k, 0, ?_, fun h => absurd h (by decide), fun _ => hfa, fun _ _ _ => hfa⟩
      simp only [Outcome.andThen, Outcome.sock]
      rw [hws]
      show s1.sent = _
      rw [hk]
      simp
  | blocked s1 =>
    rw [hl] at hk hst
    simp only [Outcome.sock] at hk hst
    refine ⟨k, 0, ?_, fun h => absurd h (by decide), fun h => absurd hst h,
      fun _ _ h => by simp [Outcome.andThen] at h⟩
    simp only [Outcome.andThen, Outcome.sock]
    rw [hk]
    simp
  | exited s1 rest1 =>
    rw [hl] at hk hst
    simp only [Outcome.sock] at hk hst
    refine ⟨k, 0, ?_, fun h => absurd h (by decide), fun h => absurd hst h,
      fun _ _ h => by simp [Outcome.andThen] at h⟩
    simp only [Outcome.andThen, Outcome.sock]
    rw [hk]
    simp
  | fault s1 rest1 =>
    rw [hl] at hk hst
    simp only [Outcome.sock] at hk hst
    refine ⟨k, 0, ?_, fun h => absurd h (by decide), fun h => absurd hst h,
      fun _ _ h => by simp [Outcome.andThen] at h⟩
    simp only [Outcome.andThen, Outcome.sock]
    rw [hk]
    simp

theorem receiver_close_handshake_trace (s : ReliableSocket) (script : List Recv) :
    (∃ k, (receiver_close_handshake s script).sock.sent
          = s.sent ++ List.replicate k (mkHeader (htonl 0) (htonl 0) RDT_FIN))
      ∧ (receiver_close_handshake s script).sock.state = s.state
      ∧ ∀ (s1 : ReliableSocket) (rest : List Recv),
          receiver_close_handshake s script = .returned () s1 rest → finackReceived script := by
  have hfinseg : (mkHeader (htonl 0) (htonl 0) RDT_FIN).take sizeofRDTHeader
      = mkHeader (htonl 0) (htonl 0) RDT_FIN := by decide
  obtain ⟨⟨k, hk⟩, hst, hret⟩ := sender_close_handshake_loop_trace
    (mkHeader (htonl 0) (htonl 0) RDT_FIN) (script.length + 1) script s
  rw [hfinseg] at hk
  unfold receiver_close_handshake
  rw [receiver_close_handshake_loop_eq]
  refine ⟨⟨k, hk⟩, hst, ?_⟩
  intro s1 rest h
  obtain ⟨pre, d, m, e, hd⟩ := hret s1 rest h
  exact ⟨pre, d, m, rest, e, hd⟩

theorem close_connection_sock (o : Outcome Unit) :
    (o.andThen fun _ s1 rest => Outcome.returned () { s1 with state := CLOSED } rest).sock.sent
        = o.sock.sent
      ∧ ((o.andThen fun _ s1 rest =>
            Outcome.returned () { s1 with state := CLOSED } rest).sock.state = o.sock.state
          ∨ ∃ (s1 : ReliableSocket) (rest : List Recv), o = .returned () s1 rest) := by
  cases o with
  | returned u s1 rest => exact ⟨rfl, Or.inr ⟨s1, rest, rfl⟩⟩
  | blocked s1 => exact ⟨rfl, Or.inl rfl⟩
  | exited s1 rest => exact ⟨rfl, Or.inl rfl⟩
  | fault s1 rest => exact ⟨rfl, Or.inl rfl⟩

theorem close_connection_trace (s : ReliableSocket) (script : List Recv) :
    (s.state ≠ FIN_STATE →
      ∃ k j, (close_connection s script).sock.sent
            = s.sent ++ List.replicate k (mkHeader (htonl 0) (htonl 0) RDT_FIN)
                ++ List.replicate j (mkHeader (htonl 0) (htonl 0) RDT_FINACK)
        ∧ (0 < j → finReceivedAfterFinack script)
        ∧ ((close_connection s script).sock.state ≠ s.state → finackReceived script))
    ∧ (s.state = FIN_STATE →
      ∃ k, (close_connection s script).sock.sent
            = s.sent ++ List.replicate k (mkHeader (htonl 0) (htonl 0) RDT_FIN)
        ∧ ((close_connection s script).sock.state ≠ FIN_STATE → finackReceived script)) := by
  constructor
  · intro hs
    obtain ⟨k, j, hsent, hj, hstate, hret⟩ := sender_close_handshake_trace s script
    obtain ⟨h1, h2⟩ := close_connection_sock (sender_close_handshake s script)
    refine ⟨k, j, ?_, hj, ?_⟩
    · simp only [close_connection, hs, if_false]
      rw [h1, hsent]
    · simp only [close_connection, hs, if_false]
      intro hne
      rcases h2 with h2 | ⟨s1, rest, h2⟩
      · rw [h2] at hne
        exact hstate hne
      · exact hret s1 rest h2
  · intro hs
    obtain ⟨⟨k, hsent⟩, hstate, hret⟩ := receiver_close_handshake_trace s script
    obtain ⟨h1, h2⟩ := close_connection_sock (receiver_close_handshake s script)
    refine ⟨k, ?_, ?_⟩
    · simp only [close_connection, hs, if_true]
      rw [h1, hsent]
    · simp only [close_connection, hs, if_true]
      intro hne
      rcases h2 with h2 | ⟨s1, rest, h2⟩
      · rw [h2, hstate] at hne
        exact absurd hs hne
      · exact hret s1 rest h2

/-- C23 (order of the initiator teardown).  At every point of every run of
`close_connection` on a socket that is not in `FIN_STATE`, the segments sent are
FINs followed by FINACKs; a FINACK has been sent only if a FINACK and, after it,
a FIN have been received, and the state has changed only if a FINACK has been
received.  On a socket in `FIN_STATE` the segments sent are FINs, and the state
has changed only if a FINACK has been received.  Whenever `close_connection`
returns, the state is `CLOSED`.  The runs that get there: with `pre` replies that
are timeouts or segments other than a FINACK, `mid` events without a FIN and `t`
a silent event, the initiator sends one FIN per reply of `pre` and one more while
no FINACK has arrived, is in `FIN_STATE` after the FINACK and sends nothing until
the FIN of the peer, then sends the FINACK and returns `CLOSED`; the other side
sends FINs only and returns `CLOSED` at the first FINACK. -/
theorem close_connection_ordering (s : ReliableSocket) (pre mid : List Recv)
    (finack fin : List Byte) (m1 m2 : Int) (t : Recv) (rest : List Recv)
    (hpre : ∀ r ∈ pre, wrongReply RDT_FINACK r) (hfinack : hdr_type finack = RDT_FINACK)
    (hmid : ∀ r ∈ mid, noFin r) (hfin : hdr_type fin = RDT_FIN) (ht : silent t) :
    (s.state ≠ FIN_STATE →
      (∃ s1, close_connection s pre = .blocked s1
          ∧ s1.state = s.state
          ∧ s1.sent = s.sent
              ++ List.replicate (pre.length + 1) (mkHeader (htonl 0) (htonl 0) RDT_FIN))
      ∧ (∃ s2, close_connection s (pre ++ ⟨.datagram finack, m1⟩ :: mid) = .blocked s2
          ∧ s2.state = FIN_STATE
          ∧ s2.sent = s.sent
              ++ List.replicate (pre.length + 1) (mkHeader (htonl 0) (htonl 0) RDT_FIN))
      ∧ (∃ s3, close_connection s
              (pre ++ ⟨.datagram finack, m1⟩ :: (mid ++ ⟨.datagram fin, m2⟩ :: t :: rest))
            = .returned () s3 rest
          ∧ s3.state = CLOSED
          ∧ s3.sent = s.sent
              ++ List.replicate (pre.length + 1) (mkHeader (htonl 0) (htonl 0) RDT_FIN)
              ++ [mkHeader (htonl 0) (htonl 0) RDT_FINACK]))
    ∧ (s.state = FIN_STATE →
      (∃ s4, close_connection s pre = .blocked s4
          ∧ s4.state = FIN_STATE
          ∧ s4.sent = s.sent
              ++ List.replicate (pre.length + 1) (mkHeader (htonl 0) (htonl 0) RDT_FIN))
      ∧ (∃ s5, close_connection s (pre ++ ⟨.datagram finack, m1⟩ :: rest) = .returned () s5 rest
          ∧ s5.state = CLOSED
          ∧ s5.sent = s.sent
              ++ List.replicate (pre.length + 1) (mkHeader (htonl 0) (htonl 0) RDT_FIN)))
    ∧ (∀ (script : List Recv) (s6 : ReliableSocket) (rest6 : List Recv),
        close_connection s script = .returned () s6 rest6 → s6.state = CLOSED)
    ∧ (∀ (script : List Recv), s.state ≠ FIN_STATE →
        ∃ k j, (close_connection s script).sock.sent
              = s.sent ++ List.replicate k (mkHeader (htonl 0) (htonl 0) RDT_FIN)
                  ++ List.replicate j (mkHeader (htonl 0) (htonl 0) RDT_FINACK)
          ∧ (0 < j → finReceivedAfterFinack script)
          ∧ ((close_connection s script).sock.state ≠ s.state → finackReceived script))
    ∧ (∀ (script : List Recv), s.state = FIN_STATE →
        ∃ k, (close_connection s script).sock.sent
              = s.sent ++ List.replicate k (mkHeader (htonl 0) (htonl 0) RDT_FIN)
          ∧ ((close_connection s script).sock.state ≠ FIN_STATE → finackReceived script))
    ∧ hdr_type (mkHeader (htonl 0) (htonl 0) RDT_FIN) = RDT_FIN
    ∧ hdr_type (mkHeader (htonl 0) (htonl 0) RDT_FINACK) = RDT_FINACK := by
  have hfinseg : (mkHeader (htonl 0) (htonl 0) RDT_FIN).take sizeofRDTHeader
      = mkHeader (htonl 0) (htonl 0) RDT_FIN := by decide
  have hfinackseg : (mkHeader (htonl 0) (htonl 0) RDT_FINACK).take sizeofRDTHeader
      = mkHeader (htonl 0) (htonl 0) RDT_FINACK := by decide
  have hrun := fun fuel hfuel =>
    sender_close_handshake_loop_run (mkHeader (htonl 0) (htonl 0) RDT_FIN) pre fuel s hpre hfuel
  refine ⟨fun hs => ⟨?_, ?_, ?_⟩, fun hs => ⟨?_, ?_⟩, ?_,
    fun script => (close_connection_trace s script).1,
    fun script => (close_connection_trace s script).2, by decide, by decide⟩
  · obtain ⟨-, s1, e1, t1, l1⟩ := hrun (pre.length + 1) (by omega)
    refine ⟨s1, ?_, t1, by rw [l1, hfinseg]⟩
    simp only [close_connection, hs, if_false, sender_close_handshake, e1, Outcome.andThen]
  · obtain ⟨h1, -⟩ := hrun ((pre ++ ⟨.datagram finack, m1⟩ :: mid).length + 1)
      (by simp; omega)
    obtain ⟨s1, e1, t1, l1⟩ := h1 finack m1 mid hfinack
    obtain ⟨-, e2⟩ := wait_for_fin_run mid { s1 with state := FIN_STATE } hmid
    refine ⟨{ s1 with state := FIN_STATE }, ?_, rfl, by rw [← hfinseg]; exact l1⟩
    simp only [close_connection, hs, if_false, sender_close_handshake, e1, Outcome.andThen, e2]
  · obtain ⟨h1, -⟩ := hrun
      ((pre ++ ⟨.datagram finack, m1⟩ :: (mid ++ ⟨.datagram fin, m2⟩ :: t :: rest)).length + 1)
      (by simp; omega)
    obtain ⟨s1, e1, t1, l1⟩ := h1 finack m1 (mid ++ ⟨.datagram fin, m2⟩ :: t :: rest) hfinack
    obtain ⟨e2, -⟩ := wait_for_fin_run mid { s1 with state := FIN_STATE } hmid
    have e3 := e2 fin m2 (t :: rest) hfin
    have e4 := time_wait_silent (mkHeader (htonl 0) (htonl 0) RDT_FINACK)
      { s1 with state := FIN_STATE } t rest ht
    refine ⟨{ set_timeout_length
        (send { s1 with state := FIN_STATE } (mkHeader (htonl 0) (htonl 0) RDT_FINACK)
          sizeofRDTHeader) 500 with state := CLOSED }, ?_, rfl, ?_⟩
    · simp only [close_connection, hs, if_false, sender_close_handshake, e1, Outcome.andThen, e3,
        e4]
    · simp only [set_timeout_length, send, l1, hfinseg, hfinackseg]
  · obtain ⟨-, s1, e1, t1, l1⟩ := hrun (pre.length + 1) (by omega)
    refine ⟨s1, ?_, t1.trans hs, by rw [l1, hfinseg]⟩
    simp only [close_connection, hs, if_true, receiver_close_handshake,
      receiver_close_handshake_loop_eq, e1, Outcome.andThen]
  · obtain ⟨h1, -⟩ := hrun ((pre ++ ⟨.datagram finack, m1⟩ :: rest).length + 1) (by simp; omega)
    obtain ⟨s1, e1, t1, l1⟩ := h1 finack m1 rest hfinack
    refine ⟨{ s1 with state := CLOSED }, ?_, rfl, by rw [← hfinseg]; exact l1⟩
    simp only [close_connection, hs, if_true, receiver_close_handshake,
      receiver_close_handshake_loop_eq, e1, Outcome.andThen]
  · intro script s6 rest6 h
    unfold close_connection at h
    cases hc : (if s.state = FIN_STATE then receiver_close_handshake s script
        else sender_close_handshake s script) with
    | returned v s7 rest7 =>
      rw [hc] at h
      simp only [Outcome.andThen, Outcome.returned.injEq, true_and] at h
      rw [← h.1]
    | blocked s7 => rw [hc] at h; simp [Outcome.andThen] at h
    | exited s7 rest7 => rw [hc] at h; simp [Outcome.andThen] at h
    | fault s7 rest7 => rw [hc] at h; simp [Outcome.andThen] at h

theorem close_connection_ordering_witness :
    (∃ s2, close_connection establishedSocket
          ([⟨.timeout, 140⟩, ⟨.datagram (mkHeader (htonl 0) (htonl 0) RDT_ACK), 30⟩]
            ++ ⟨.datagram (mkHeader (htonl 0) (htonl 0) RDT_FINACK), 20⟩
              :: [⟨.timeout, 140⟩, ⟨.error, 5⟩])
          = .blocked s2
        ∧ s2.state = FIN_STATE
        ∧ s2.sent = establishedSocket.sent
            ++ List.replicate (2 + 1) (mkHeader (htonl 0) (htonl 0) RDT_FIN))
    ∧ (∃ s3, close_connection establishedSocket
          ([⟨.timeout, 140⟩, ⟨.datagram (mkHeader (htonl 0) (htonl 0) RDT_ACK), 30⟩]
            ++ ⟨.datagram (mkHeader (htonl 0) (htonl 0) RDT_FINACK), 20⟩
              :: ([⟨.timeout, 140⟩, ⟨.error, 5⟩]
                ++ ⟨.datagram (mkHeader (htonl 0) (htonl 0) RDT_FIN), 40⟩
                  :: ⟨.timeout, 500⟩ :: []))
          = .returned () s3 []
        ∧ s3.state = CLOSED
        ∧ s3.sent = establishedSocket.sent
            ++ List.replicate (2 + 1) (mkHeader (htonl 0) (htonl 0) RDT_FIN)
            ++ [mkHeader (htonl 0) (htonl 0) RDT_FINACK])
    ∧ (∃ s5, close_connection { establishedSocket with state := FIN_STATE }
          ([⟨.timeout, 140⟩, ⟨.datagram (mkHeader (htonl 0) (htonl 0) RDT_ACK), 30⟩]
            ++ ⟨.datagram (mkHeader (htonl 0) (htonl 0) RDT_FINACK), 20⟩ :: [])
          = .returned () s5 []
        ∧ s5.state = CLOSED
        ∧ s5.sent = establishedSocket.sent
            ++ List.replicate (2 + 1) (mkHeader (htonl 0) (htonl 0) RDT_FIN)) :=
  have h := close_connection_ordering establishedSocket
    [⟨.timeout, 140⟩, ⟨.datagram (mkHeader (htonl 0) (htonl 0) RDT_ACK), 30⟩]
    [⟨.timeout, 140⟩, ⟨.error, 5⟩]
    (mkHeader (htonl 0) (htonl 0) RDT_FINACK) (mkHeader (htonl 0) (htonl 0) RDT_FIN) 20 40
    ⟨.timeout, 500⟩ [] (by decide) (by decide) (by decide) (by decide) (by decide)
  have h2 := close_connection_ordering { establishedSocket with state := FIN_STATE }
    [⟨.timeout, 140⟩, ⟨.datagram (mkHeader (htonl 0) (htonl 0) RDT_ACK), 30⟩]
    [⟨.timeout, 140⟩, ⟨.error, 5⟩]
    (mkHeader (htonl 0) (htonl 0) RDT_FINACK) (mkHeader (htonl 0) (htonl 0) RDT_FIN) 20 40
    ⟨.timeout, 500⟩ [] (by decide) (by decide) (by decide) (by decide) (by decide)
  ⟨(h.1 (by decide)).2.1, (h.1 (by decide)).2.2, (h2.2.1 rfl).2⟩

/-! ## The state only moves forward -/

theorem accept_connection_state (s : ReliableSocket) (script : List Recv) :
    (accept_connection s script).sock.state = s.state
      ∨ (s.state = INIT ∧ (accept_connection s script).sock.state = ESTABLISHED) := by
  unfold accept_connection
  by_cases hst : s.state = INIT
  · rw [if_neg (not_not.mpr hst)]
    cases script with
    | nil => exact Or.inl rfl
    | cons r rest =>
      obtain ⟨res, m⟩ := r
      cases res with
      | timeout => exact Or.inl rfl
      | error => exact Or.inl rfl
      | datagram d =>
        simp only
        unfold receiver_handshake
        by_cases ht : hdr_type (d.take MAX_SEG_SIZE) = RDT_SYN
        · rw [if_neg (not_not.mpr ht)]
          have hl := (receiver_handshake_loop_onlySent (mkHeader (htonl 0) (htonl 0) RDT_SYNACK)
            (rest.length + 1) rest s).2.1
          cases ho : receiver_handshake_loop (mkHeader (htonl 0) (htonl 0) RDT_SYNACK)
              (rest.length + 1) s rest with
          | returned ok s1 rest1 =>
            rw [ho] at hl
            cases ok with
            | true => exact Or.inr ⟨hst, rfl⟩
            | false => exact Or.inl hl
          | blocked s1 => rw [ho] at hl; exact Or.inl hl
          | exited s1 rest1 => rw [ho] at hl; exact Or.inl hl
          | fault s1 rest1 => rw [ho] at hl; exact Or.inl hl
        · rw [if_pos ht]
          exact Or.inl rfl
  · rw [if_pos hst]
    exact Or.inl rfl

theorem connect_to_remote_state (s : ReliableSocket) (script : List Recv) :
    (connect_to_remote s script).sock.state = s.state
      ∨ (s.state = INIT ∧ (connect_to_remote s script).sock.state = ESTABLISHED) := by
  unfold connect_to_remote
  by_cases hst : s.state = INIT
  · rw [if_neg (not_not.mpr hst)]
    have hl := (sender_handshake_onlySent script s).2.1
    cases ho : sender_handshake s script with
    | returned ok s1 rest1 => exact Or.inr ⟨hst, rfl⟩
    | blocked s1 => rw [ho] at hl; exact Or.inl hl
    | exited s1 rest1 => rw [ho] at hl; exact Or.inl hl
    | fault s1 rest1 => rw [ho] at hl; exact Or.inl hl
  · rw [if_pos hst]
    exact Or.inl rfl

theorem send_data_state (s : ReliableSocket) (data : List Byte) (length : Nat)
    (script : List Recv) : (send_data s data length script).sock.state = s.state := by
  unfold send_data
  by_cases hst : s.state = ESTABLISHED
  · rw [if_neg (not_not.mpr hst)]
    have hl := (send_data_loop_onlySent (data_segment s.sequence_number data length) length
      (script.length + 1) script s).2.1
    simp only
    cases ho : send_data_loop (data_segment s.sequence_number data length) length
        (script.length + 1) s script with
    | returned u s1 rest1 => rw [ho] at hl; exact hl
    | blocked s1 => rw [ho] at hl; exact hl
    | exited s1 rest1 => rw [ho] at hl; exact hl
    | fault s1 rest1 => rw [ho] at hl; exact hl
  · rw [if_pos hst]
    rfl

theorem receive_data_state (buffer : List Byte) :
    ∀ (script : List Recv) (s : ReliableSocket),
      (receive_data s buffer script).sock.state = s.state
        ∨ (s.state = ESTABLISHED ∧ (receive_data s buffer script).sock.state = FIN_STATE) := by
  intro script
  induction script with
  | nil =>
    intro s
    by_cases hs : s.state = ESTABLISHED
    · rw [receive_data_nil _ _ hs]
      exact Or.inl rfl
    · rw [receive_data, if_pos hs]
      exact Or.inl rfl
  | cons r rest ih =>
    intro s
    by_cases hs : s.state = ESTABLISHED
    · obtain ⟨res, m⟩ := r
      cases res with
      | timeout =>
        rw [receive_data_timeout_step _ _ _ _ hs]
        rcases ih { s with rcvtimeo := float_to_uint32 (s.estimated_rtt + s.dev_rtt * 4) } with
          h | h
        · exact Or.inl h
        · exact Or.inr ⟨hs, h.2⟩
      | error =>
        rw [receive_data, if_neg (not_not.mpr hs)]
        exact Or.inl rfl
      | datagram d =>
        rw [receive_data_datagram_step _ _ _ _ _ hs]
        by_cases hfin : hdr_type d = RDT_FIN
        · rw [if_pos hfin]
          have hl := (send_and_timeout_onlySent (mkHeader (htonl 0) (htonl 0) RDT_FINACK)
            sizeofRDTHeader rest
            { s with rcvtimeo := float_to_uint32 (s.estimated_rtt + s.dev_rtt * 4) }).2.1
          cases ho : send_and_timeout
              { s with rcvtimeo := float_to_uint32 (s.estimated_rtt + s.dev_rtt * 4) }
              (mkHeader (htonl 0) (htonl 0) RDT_FINACK) sizeofRDTHeader rest with
          | returned ok s1 rest1 => exact Or.inr ⟨hs, rfl⟩
          | blocked s1 => rw [ho] at hl; exact Or.inl hl
          | exited s1 rest1 => rw [ho] at hl; exact Or.inl hl
          | fault s1 rest1 => rw [ho] at hl; exact Or.inl hl
        · rw [if_neg hfin]
          by_cases hseq : ntohl (hdr_sequence_number d) = s.sequence_number
          · rw [if_pos hseq]
            by_cases hlen : (d.take MAX_SEG_SIZE).length < sizeofRDTHeader
            · rw [if_pos hlen]
              exact Or.inl rfl
            · rw [if_neg hlen]
              exact Or.inl rfl
          · rw [if_neg hseq]
            rcases ih { s with
                rcvtimeo := float_to_uint32 (s.estimated_rtt + s.dev_rtt * 4)
                sent := s.sent
                  ++ [mkHeader (hdr_sequence_number d) (hdr_sequence_number d) RDT_ACK] } with
              h | h
            · exact Or.inl h
            · exact Or.inr ⟨hs, h.2⟩
    · rw [receive_data, if_pos hs]
      exact Or.inl rfl

theorem sender_close_handshake_state (s : ReliableSocket) (script : List Recv) :
    (sender_close_handshake s script).sock.state = s.state
      ∨ (sender_close_handshake s script).sock.state = FIN_STATE := by
  obtain ⟨-, hst, -⟩ := sender_close_handshake_loop_trace
    (mkHeader (htonl 0) (htonl 0) RDT_FIN) (script.length + 1) script s
  unfold sender_close_handshake
  cases hl : sender_close_handshake_loop (mkHeader (htonl 0) (htonl 0) RDT_FIN)
      (script.length + 1) s script with
  | returned u s1 rest1 =>
    obtain ⟨hws, -⟩ := wait_for_fin_trace rest1 { s1 with state := FIN_STATE }
    simp only [Outcome.andThen]
    cases hw : wait_for_fin { s1 with state := FIN_STATE } rest1 with
    | returned u2 s2 rest2 =>
      rw [hw] at hws
      simp only [Outcome.sock] at hws
      obtain ⟨-, ht⟩ := time_wait_trace (mkHeader (htonl 0) (htonl 0) RDT_FINACK) rest2 false s2
      simp only [Outcome.andThen]
      rw [ht, hws]
      exact Or.inr rfl
    | blocked s2 =>
      rw [hw] at hws
      have h2 : s2 = { s1 with state := FIN_STATE } := hws
      exact Or.inr (by show s2.state = FIN_STATE; rw [h2])
    | exited s2 rest2 =>
      rw [hw] at hws
      have h2 : s2 = { s1 with state := FIN_STATE } := hws
      exact Or.inr (by show s2.state = FIN_STATE; rw [h2])
    | fault s2 rest2 =>
      rw [hw] at hws
      have h2 : s2 = { s1 with state := FIN_STATE } := hws
      exact Or.inr (by show s2.state = FIN_STATE; rw [h2])
  | blocked s1 => rw [hl] at hst; exact Or.inl hst
  | exited s1 rest1 => rw [hl] at hst; exact Or.inl hst
  | fault s1 rest1 => rw [hl] at hst; exact Or.inl hst

theorem descriptorClosed_no_finack (script : List Recv) (h : descriptorClosed script) :
    ¬ finackReceived script := by
  rintro ⟨pre, d, m, rest, e, -⟩
  have hr := h ⟨.datagram d, m⟩ (by rw [e]; simp)
  simp at hr

theorem close_connection_state (s : ReliableSocket) (script : List Recv)
    (hfd : s.state = CLOSED → descriptorClosed script) :
    (close_connection s script).sock.state = s.state
      ∨ (s.state ≠ FIN_STATE ∧ s.state ≠ CLOSED
          ∧ (close_connection s script).sock.state = FIN_STATE)
      ∨ (close_connection s script).sock.state = CLOSED := by
  by_cases hc : s.state = CLOSED
  · by_cases he : (close_connection s script).sock.state = s.state
    · exact Or.inl he
    · have hne : s.state ≠ FIN_STATE := by rw [hc]; decide
      obtain ⟨k, j, -, -, hchg⟩ := (close_connection_trace s script).1 hne
      exact absurd (hchg he) (descriptorClosed_no_finack script (hfd hc))
  · by_cases hf : s.state = FIN_STATE
    · obtain ⟨-, hst, -⟩ := receiver_close_handshake_trace s script
      simp only [close_connection, hf, if_true]
      cases ho : receiver_close_handshake s script with
      | returned u s1 rest1 => exact Or.inr (Or.inr rfl)
      | blocked s1 => rw [ho] at hst; exact Or.inl (hst.trans hf)
      | exited s1 rest1 => rw [ho] at hst; exact Or.inl (hst.trans hf)
      | fault s1 rest1 => rw [ho] at hst; exact Or.inl (hst.trans hf)
    · have hst := sender_close_handshake_state s script
      simp only [close_connection, hf, if_false]
      cases ho : sender_close_handshake s script with
      | returned u s1 rest1 => exact Or.inr (Or.inr rfl)
      | blocked s1 =>
        rw [ho] at hst
        rcases hst with h | h
        · exact Or.inl h
        · exact Or.inr (Or.inl ⟨hf, hc, h⟩)
      | exited s1 rest1 =>
        rw [ho] at hst
        rcases hst with h | h
        · exact Or.inl h
        · exact Or.inr (Or.inl ⟨hf, hc, h⟩)
      | fault s1 rest1 =>
        rw [ho] at hst
        rcases hst with h | h
        · exact Or.inl h
        · exact Or.inr (Or.inl ⟨hf, hc, h⟩)

/-- C14 (the state only moves forward).  The states the code stores are `INIT`,
`ESTABLISHED`, `FIN_STATE` and `CLOSED`, of values 0, 4, 5 and 9.  `CLOSED` is
stored by `close_connection` only, and the next statement closes the descriptor:
on a `CLOSED` socket every `recv` fails (`hfd`).  From a socket in one of the four
states, at whatever point of the script a public operation has arrived:
`accept_connection` and `connect_to_remote` leave the state as it was or take
`INIT` to `ESTABLISHED`; `send_data` leaves it as it was; `receive_data` leaves
it as it was or takes `ESTABLISHED` to `FIN_STATE`; `close_connection` leaves it
as it was, or holds `FIN_STATE` having started in `INIT` or `ESTABLISHED`, or
holds `CLOSED`, and when its first loop returns, the state that `FIN_STATE` is
about to replace is not later than `FIN_STATE`.  So the value of the state never
decreases, and the state is again one of the four. -/
theorem state_moves_forward (s : ReliableSocket) (script : List Recv) (data buffer : List Byte)
    (length : Nat)
    (hstate : s.state = INIT ∨ s.state = ESTABLISHED ∨ s.state = FIN_STATE ∨ s.state = CLOSED)
    (hfd : s.state = CLOSED → descriptorClosed script) :
    ((accept_connection s script).sock.state = s.state
        ∨ (s.state = INIT ∧ (accept_connection s script).sock.state = ESTABLISHED))
    ∧ ((connect_to_remote s script).sock.state = s.state
        ∨ (s.state = INIT ∧ (connect_to_remote s script).sock.state = ESTABLISHED))
    ∧ (send_data s data length script).sock.state = s.state
    ∧ ((receive_data s buffer script).sock.state = s.state
        ∨ (s.state = ESTABLISHED ∧ (receive_data s buffer script).sock.state = FIN_STATE))
    ∧ ((close_connection s script).sock.state = s.state
        ∨ ((s.state = INIT ∨ s.state = ESTABLISHED)
            ∧ (close_connection s script).sock.state = FIN_STATE)
        ∨ (close_connection s script).sock.state = CLOSED)
    ∧ (s.state ≠ FIN_STATE →
        ∀ (s1 : ReliableSocket) (rest : List Recv),
          sender_close_handshake_loop (mkHeader (htonl 0) (htonl 0) RDT_FIN) (script.length + 1)
              s script = .returned () s1 rest →
          s1.state = s.state ∧ statusValue s1.state ≤ statusValue FIN_STATE)
    ∧ (∀ o : ReliableSocket,
        (o = (accept_connection s script).sock ∨ o = (connect_to_remote s script).sock
          ∨ o = (send_data s data length script).sock
          ∨ o = (receive_data s buffer script).sock
          ∨ o = (close_connection s script).sock) →
        statusValue s.state ≤ statusValue o.state
          ∧ (o.state = INIT ∨ o.state = ESTABLISHED ∨ o.state = FIN_STATE ∨ o.state = CLOSED)) := by
  have hA := accept_connection_state s script
  have hB := connect_to_remote_state s script
  have hC := send_data_state s data length script
  have hD := receive_data_state buffer script s
  have hE : (close_connection s script).sock.state = s.state
      ∨ ((s.state = INIT ∨ s.state = ESTABLISHED)
          ∧ (close_connection s script).sock.state = FIN_STATE)
      ∨ (close_connection s script).sock.state = CLOSED := by
    rcases close_connection_state s script hfd with h | ⟨h1, h2, h3⟩ | h
    · exact Or.inl h
    · rcases hstate with h0 | h0 | h0 | h0
      · exact Or.inr (Or.inl ⟨Or.inl h0, h3⟩)
      · exact Or.inr (Or.inl ⟨Or.inr h0, h3⟩)
      · exact absurd h0 h1
      · exact absurd h0 h2
    · exact Or.inr (Or.inr h)
  have hsame : statusValue s.state ≤ statusValue s.state
      ∧ (s.state = INIT ∨ s.state = ESTABLISHED ∨ s.state = FIN_STATE ∨ s.state = CLOSED) :=
    ⟨le_refl _, hstate⟩
  have htop : statusValue s.state ≤ statusValue CLOSED := by
    rcases hstate with h0 | h0 | h0 | h0 <;> rw [h0] <;> decide
  refine ⟨hA, hB, hC, hD, hE, ?_, ?_⟩
  · intro hne s1 rest hl
    obtain ⟨-, hst, hret⟩ := sender_close_handshake_loop_trace
      (mkHeader (htonl 0) (htonl 0) RDT_FIN) (script.length + 1) script s
    rw [hl] at hst
    have hs1 : s1.state = s.state := hst
    obtain ⟨pre, d, m, e, hd⟩ := hret s1 rest hl
    have hfa : finackReceived script := ⟨pre, d, m, rest, e, hd⟩
    refine ⟨hs1, ?_⟩
    rw [hs1]
    rcases hstate with h0 | h0 | h0 | h0
    · rw [h0]; decide
    · rw [h0]; decide
    · exact absurd h0 hne
    · exact absurd hfa (descriptorClosed_no_finack script (hfd h0))
  · intro o ho
    rcases ho with ho | ho | ho | ho | ho
    · rw [ho]
      rcases hA with h | ⟨h1, h2⟩
      · rw [h]; exact hsame
      · rw [h2, h1]; exact ⟨by decide, Or.inr (Or.inl rfl)⟩
    · rw [ho]
      rcases hB with h | ⟨h1, h2⟩
      · rw [h]; exact hsame
      · rw [h2, h1]; exact ⟨by decide, Or.inr (Or.inl rfl)⟩
    · rw [ho, hC]; exact hsame
    · rw [ho]
      rcases hD with h | ⟨h1, h2⟩
      · rw [h]; exact hsame
      · rw [h2, h1]; exact ⟨by decide, Or.inr (Or.inr (Or.inl rfl))⟩
    · rw [ho]
      rcases hE with h | ⟨h1, h2⟩ | h
      · rw [h]; exact hsame
      · rw [h2]
        rcases h1 with h1 | h1 <;> rw [h1] <;> exact ⟨by decide, Or.inr (Or.inr (Or.inl rfl))⟩
      · rw [h]; exact ⟨htop, Or.inr (Or.inr (Or.inr rfl))⟩

theorem state_moves_forward_witness :
    (statusValue ESTABLISHED
        ≤ statusValue (close_connection establishedSocket
            [⟨.datagram (mkHeader (htonl 0) (htonl 0) RDT_FINACK), 20⟩,
              ⟨.datagram (mkHeader (htonl 0) (htonl 0) RDT_FIN), 30⟩,
              ⟨.timeout, 500⟩]).sock.state)
    ∧ (close_connection { ReliableSocket.new with state := CLOSED }
          [⟨.error, 5⟩, ⟨.error, 5⟩]).sock.state = CLOSED :=
  have h1 := (state_moves_forward establishedSocket
    [⟨.datagram (mkHeader (htonl 0) (htonl 0) RDT_FINACK), 20⟩,
      ⟨.datagram (mkHeader (htonl 0) (htonl 0) RDT_FIN), 30⟩, ⟨.timeout, 500⟩]
    [65, 66, 67] [9, 9, 9] 3 (Or.inr (Or.inl rfl))
    (fun h => absurd h (by decide))).2.2.2.2.2.2 _ (Or.inr (Or.inr (Or.inr (Or.inr rfl))))
  have h2 := (state_moves_forward { ReliableSocket.new with state := CLOSED }
    [⟨.error, 5⟩, ⟨.error, 5⟩]
    [65, 66, 67] [9, 9, 9] 3 (Or.inr (Or.inr (Or.inr rfl)))
    (fun _ => by decide)).2.2.2.2.1
  ⟨h1.1, h2.elim id (fun h => h.elim (fun h3 => h3.1.elim (fun h4 => absurd h4 (by decide))
    (fun h4 => absurd h4 (by decide))) id)⟩
end RDT
